import Mathlib

/-!
Verification of the NachoSeries ISFDB import scripts
(`scripts/import-isfdb-dump.py`, `scripts/load-isfdb-to-sqlite.py`).

The Python code is shallowly embedded: scalar values flowing through the
system (SQLite column values / parsed MySQL dump values) are modelled by
`Val`; Python floats are modelled by rationals (the numeric literals the
catalog uses are short decimal fractions, which floats represent exactly
at the precision exercised here); dictionaries are modelled as lists of
assignment events queried by "last assignment wins" lookup.
-/

set_option maxRecDepth 10000

/-- A scalar value as produced by `parse_mysql_value` / stored in a SQLite
column: SQL NULL / Python `None`, an integer, a float (modelled as `ℚ`),
or a string. -/
inductive Val where
  | null : Val
  | int (n : Int) : Val
  | real (q : ℚ) : Val
  | str (s : String) : Val
  deriving DecidableEq, Repr

/-- Python truthiness of a `Val` (`if v:`): `None`, `0`, `0.0` and `''`
are falsy. -/
def Val.truthy : Val → Bool
  | .null => false
  | .int n => n ≠ 0
  | .real q => q ≠ 0
  | .str s => !s.isEmpty

/-- Python `==` between scalar values: `None == None`, numeric values
compare across int/float, strings compare as strings. An integer equals a
rational exactly when the rational is that integer (denominator 1, since
`ℚ` values here are stored normalized). -/
def pyEq : Val → Val → Bool
  | .null, .null => true
  | .int m, .int n => m = n
  | .int m, .real q => q.den = 1 && q.num = m
  | .real q, .int m => q.den = 1 && q.num = m
  | .real p, .real q => p = q
  | .str s, .str t => s = t
  | _, _ => false

/-- SQLite `=` between scalar values: like Python equality on non-NULL
values, but any comparison involving NULL is not true. -/
def sqlEq : Val → Val → Bool
  | .null, _ => false
  | _, .null => false
  | a, b => pyEq a b

/-- Python membership `v in xs` over a collection of values. -/
def pyMem (v : Val) (xs : List Val) : Bool := xs.any (pyEq v)

/-- SQLite `v IN (xs)` membership. -/
def sqlMem (v : Val) (xs : List Val) : Bool := xs.any (sqlEq v)

theorem pyEq_eq_sqlEq_of_ne_null {a b : Val} (ha : a ≠ .null) :
    pyEq a b = sqlEq a b := by
  cases a <;> cases b <;> simp_all [pyEq, sqlEq]

theorem pyMem_eq_sqlMem {v : Val} {xs : List Val} (hxs : Val.null ∉ xs) :
    pyMem v xs = sqlMem v xs := by
  induction xs with
  | nil => rfl
  | cons x t ih =>
    simp only [List.mem_cons, not_or] at hxs
    simp only [pyMem, sqlMem, List.any_cons] at *
    rw [ih hxs.2]
    congr 1
    cases v with
    | null => cases x <;> simp_all [pyEq, sqlEq]
    | int n => exact pyEq_eq_sqlEq_of_ne_null (by simp)
    | real q => exact pyEq_eq_sqlEq_of_ne_null (by simp)
    | str s => exact pyEq_eq_sqlEq_of_ne_null (by simp)

-- ── Python numeric literal parsing (used by parse_mysql_value) ────────────

/-- `int(s)` on an already-stripped string: optional sign then one or more
decimal digits. -/
def pyIntParse (s : String) : Option Int :=
  let cs := s.data
  let (neg, ds) :=
    match cs with
    | '-' :: rest => (true, rest)
    | '+' :: rest => (false, rest)
    | rest => (false, rest)
  if ds.isEmpty || !ds.all Char.isDigit then none
  else
    let n : Nat := ds.foldl (fun acc c => acc * 10 + (c.toNat - '0'.toNat)) 0
    some (if neg then -(n : Int) else (n : Int))

/-- `float(s)` on an already-stripped decimal literal: optional sign,
digits, optional point, digits (exponent forms do not occur in the
catalog's numeric fields). -/
def pyFloatParse (s : String) : Option ℚ :=
  let cs := s.data
  let (neg, ds) :=
    match cs with
    | '-' :: rest => (true, rest)
    | '+' :: rest => (false, rest)
    | rest => (false, rest)
  let ip := ds.takeWhile Char.isDigit
  let rest := ds.dropWhile Char.isDigit
  let ok :=
    match rest with
    | [] => !ip.isEmpty
    | '.' :: fp => (!ip.isEmpty || !fp.isEmpty) && fp.all Char.isDigit
    | _ => false
  if !ok then none
  else
    let fp := match rest with | '.' :: fp => fp | _ => []
    let ipn : Nat := ip.foldl (fun acc c => acc * 10 + (c.toNat - '0'.toNat)) 0
    let fpn : Nat := fp.foldl (fun acc c => acc * 10 + (c.toNat - '0'.toNat)) 0
    let num : Int := (ipn * 10 ^ fp.length + fpn : Nat)
    some (mkRat (if neg then -num else num) (10 ^ fp.length))

-- ── String helpers mirroring the Python string operations used ────────────

/-- Whether `pat` is an initial segment of `s` (list-of-chars form). -/
def startsList : List Char → List Char → Bool
  | [], _ => true
  | _ :: _, [] => false
  | p :: ps, c :: cs => p = c && startsList ps cs

/-- Python `str.replace("\x", y)` for a two-character pattern
backslash-`x`: left-to-right, non-overlapping replacement of every
occurrence by the single character `y`. -/
def esc2 (x y : Char) : List Char → List Char
  | [] => []
  | c :: cs =>
    if c = '\\' then
      match cs with
      | [] => [c]
      | d :: rest => if d = x then y :: esc2 x y rest else c :: esc2 x y (d :: rest)
    else
      c :: esc2 x y cs

/-- Python `str.rstrip()` (trailing whitespace). -/
def rstripWs (cs : List Char) : List Char :=
  (cs.reverse.dropWhile Char.isWhitespace).reverse

/-- Python `str.rstrip(';')`. -/
def rstripSemi (cs : List Char) : List Char :=
  (cs.reverse.dropWhile (· = ';')).reverse

/-- Python `str.strip()`. -/
def stripWs (cs : List Char) : List Char :=
  rstripWs (cs.dropWhile Char.isWhitespace)

/-- ASCII-only lowercase of one character: SQLite's `LOWER`, which folds
`A`-`Z` and leaves every other character (including accented capitals)
unchanged. Also exact for the case-insensitive `VALUES` regex match, whose
pattern is ASCII and which no Latin-1 character case-folds into. -/
def lowerChar (c : Char) : Char :=
  if 'A' ≤ c ∧ c ≤ 'Z' then Char.ofNat (c.toNat + 32) else c

/-- SQLite `LOWER` on a string: the ASCII-only fold. -/
def lowerStr (s : String) : String := ⟨s.data.map lowerChar⟩

/-- Python `str.lower()` on one character. The dump is decoded as
`latin1`, so every character the program handles is below U+0100; on that
repertoire Python lowercases the ASCII letters `A`-`Z` and the Latin-1
capitals `À`-`Þ` (except `×`), each by adding 32 — unlike SQLite's
`LOWER`, which folds ASCII only. -/
def pyLowerChar (c : Char) : Char :=
  if ('A' ≤ c ∧ c ≤ 'Z') ∨ ('À' ≤ c ∧ c ≤ 'Þ' ∧ c ≠ '×') then
    Char.ofNat (c.toNat + 32)
  else c

/-- Python `str.lower()` on a string. -/
def pyLowerStr (s : String) : String := ⟨s.data.map pyLowerChar⟩

-- ══════════════════════════════════════════════════════════════════════════
-- Tuple parser (`parse_mysql_value`, `parse_mysql_tuples`)
-- ══════════════════════════════════════════════════════════════════════════

/-- The sequential escape-replacement chain of `parse_mysql_value`:
`\'→'`, then `\\→\`, then `\n`, `\r`, `\t` to the control characters. -/
def unescapeChain (cs : List Char) : List Char :=
  let cs := esc2 '\'' '\'' cs
  let cs := esc2 '\\' '\\' cs
  let cs := esc2 'n' '\n' cs
  let cs := esc2 'r' '\r' cs
  esc2 't' '\t' cs

/-- `parse_mysql_value`: strip, `NULL`, quoted string (escape chain), else
numeric by presence of a decimal point, falling back to the stripped text. -/
def parse_mysql_value (raw : String) : Val :=
  let s : List Char := stripWs raw.data
  if s = "NULL".data then Val.null
  else if s.head? = some '\'' ∧ s.getLast? = some '\'' then
    Val.str ⟨unescapeChain ((s.drop 1).dropLast)⟩
  else if s.contains '.' then
    match pyFloatParse ⟨s⟩ with
    | some q => Val.real q
    | none => Val.str ⟨s⟩
  else
    match pyIntParse ⟨s⟩ with
    | some n => Val.int n
    | none => Val.str ⟨s⟩

/-- Case-insensitive prefix test (pattern given lowercase). -/
def startsCI : List Char → List Char → Bool
  | [], _ => true
  | _ :: _, [] => false
  | p :: ps, c :: cs => p = lowerChar c && startsCI ps cs

/-- `re.search(r'VALUES\s+', line, IGNORECASE)`: find the leftmost
case-insensitive `VALUES` followed by at least one whitespace character and
return the text after the maximal whitespace run. -/
def findValuesTail : List Char → Option (List Char)
  | [] => none
  | c :: cs =>
    if startsCI "values".data (c :: cs) then
      match (c :: cs).drop 6 with
      | [] => findValuesTail cs
      | d :: ds =>
        if d.isWhitespace then some ((d :: ds).dropWhile Char.isWhitespace)
        else findValuesTail cs
    else findValuesTail cs

/-- The inner field loop of `parse_mysql_tuples`: consume characters after
an opening parenthesis, maintaining the in-string and escape-pending flags;
returns the completed tuple (when a closing parenthesis outside a string is
reached) and the unconsumed remainder. `current` is accumulated reversed. -/
def scanInner : List Char → List Val → List Char → Bool → Bool →
    Option (List Val) × List Char
  | [], _, _, _, _ => (none, [])
  | ch :: rest, values, current, inStr, escNext =>
    if escNext then
      scanInner rest values (ch :: current) inStr false
    else if ch = '\\' ∧ inStr then
      scanInner rest values (ch :: current) inStr true
    else if ch = '\'' then
      scanInner rest values (ch :: current) (!inStr) escNext
    else if inStr then
      scanInner rest values (ch :: current) inStr escNext
    else if ch = ',' then
      scanInner rest (values ++ [parse_mysql_value ⟨current.reverse⟩]) [] inStr escNext
    else if ch = ')' then
      (some (values ++ [parse_mysql_value ⟨current.reverse⟩]), rest)
    else
      scanInner rest values (ch :: current) inStr escNext

theorem scanInner_snd_length :
    ∀ (data : List Char) values current inStr escNext,
      (scanInner data values current inStr escNext).2.length ≤ data.length := by
  intro data
  induction data with
  | nil => intro values current inStr escNext; simp [scanInner]
  | cons ch rest ih =>
    intro values current inStr escNext
    simp only [scanInner]
    repeat' split
    all_goals simp_all only [List.length_cons]
    all_goals first
      | (exact le_trans (ih _ _ _ _) (Nat.le_succ _))
      | omega

/-- Number of `)` characters. -/
def countClose (cs : List Char) : Nat := cs.countP (fun c => c = ')')

theorem countClose_cons (c : Char) (cs : List Char) :
    countClose (c :: cs) = countClose cs + (if c = ')' then 1 else 0) := by
  simp [countClose, List.countP_cons]

theorem scanInner_countClose {data : List Char} {values current inStr escNext tup rest}
    (h : scanInner data values current inStr escNext = (some tup, rest)) :
    countClose rest < countClose data := by
  induction data generalizing values current inStr escNext with
  | nil => simp [scanInner] at h
  | cons ch tail ih =>
    have hle : countClose tail ≤ countClose (ch :: tail) := by
      rw [countClose_cons]; exact Nat.le_add_right _ _
    simp only [scanInner] at h
    split_ifs at h with h1 h2 h3 h4 h5 h6
    · exact lt_of_lt_of_le (ih h) hle
    · exact lt_of_lt_of_le (ih h) hle
    · exact lt_of_lt_of_le (ih h) hle
    · exact lt_of_lt_of_le (ih h) hle
    · exact lt_of_lt_of_le (ih h) hle
    · cases h
      rw [countClose_cons, if_pos h6]
      omega
    · exact lt_of_lt_of_le (ih h) hle

/-- The outer tuple loop: skip to each opening parenthesis, scan one tuple;
a tuple is kept only when its closing parenthesis was reached. The loop's
progress measure (the scanned index always advances) is made explicit as
fuel; `scanTuplesFuel_ok` proves the fuel never runs out, i.e. the loop
terminates on every input. -/
def scanTuplesFuel : Nat → List Char → Option (List (List Val))
  | 0, _ => none
  | _ + 1, [] => some []
  | fuel + 1, c :: cs =>
    if c = '(' then
      match scanInner cs [] [] false false with
      | (some tup, rest) => (scanTuplesFuel fuel rest).map (tup :: ·)
      | (none, _) => some []
    else
      scanTuplesFuel fuel cs

theorem scanTuplesFuel_ok :
    ∀ (fuel : Nat) (data : List Char), data.length < fuel →
      (scanTuplesFuel fuel data).isSome := by
  intro fuel
  induction fuel with
  | zero => intro data h; omega
  | succ n ih =>
    intro data h
    match data with
    | [] => simp [scanTuplesFuel]
    | c :: cs =>
      simp only [scanTuplesFuel]
      split
      · match hsi : scanInner cs [] [] false false with
        | (some tup, rest) =>
          have hlen : rest.length ≤ cs.length := by
            have := scanInner_snd_length cs [] [] false false
            rw [hsi] at this; exact this
          have : (scanTuplesFuel n rest).isSome := by
            apply ih
            simp only [List.length_cons] at h
            omega
          obtain ⟨v, hv⟩ := Option.isSome_iff_exists.mp this
          simp [hv]
        | (none, _) => simp
      · apply ih
        simp only [List.length_cons] at h
        omega

/-- `parse_mysql_tuples`: locate the `VALUES` tail, strip trailing
whitespace and semicolons, then scan the parenthesised tuples. -/
def parse_mysql_tuples (line : String) : List (List Val) :=
  match findValuesTail line.data with
  | none => []
  | some tail =>
    let data := rstripWs (rstripSemi (rstripWs tail))
    (scanTuplesFuel (data.length + 1) data).getD []

-- ── Claim-side escape semantics (for the C2 refinement comparison) ────────

/-- Decode of a quoted field as the specification words it: scanning left
to right, each escaped quote becomes a quote, each escaped backslash
becomes one backslash, and each escaped `n`/`r`/`t` becomes the
corresponding control character (an unrecognised escape keeps its
backslash). -/
def claimEscapeDecode : List Char → List Char
  | [] => []
  | '\\' :: c :: rest =>
    if c = '\'' then '\'' :: claimEscapeDecode rest
    else if c = '\\' then '\\' :: claimEscapeDecode rest
    else if c = 'n' then '\n' :: claimEscapeDecode rest
    else if c = 'r' then '\r' :: claimEscapeDecode rest
    else if c = 't' then '\t' :: claimEscapeDecode rest
    else '\\' :: claimEscapeDecode (c :: rest)
  | c :: rest => c :: claimEscapeDecode rest

/-- Whether the raw field text contains two adjacent backslashes. -/
def hasAdjBackslash : List Char → Bool
  | [] => false
  | c :: cs => (c = '\\' && cs.head? = some '\\') || hasAdjBackslash cs

theorem esc2_cons_ne (x y c : Char) (cs : List Char) (hc : c ≠ '\\') :
    esc2 x y (c :: cs) = c :: esc2 x y cs := by
  rw [esc2.eq_def]
  dsimp only
  rw [if_neg hc]

theorem esc2_bs_ne (x y : Char) (cs : List Char)
    (h2 : cs.head? ≠ some x) : esc2 x y ('\\' :: cs) = '\\' :: esc2 x y cs := by
  match cs with
  | [] => rfl
  | d :: rest =>
    have hd : d ≠ x := by
      intro h; exact h2 (by simp [h])
    rw [esc2]
    simp [hd]

theorem esc2_bs_match (x y : Char) (cs : List Char) :
    esc2 x y ('\\' :: x :: cs) = y :: esc2 x y cs := by
  rw [esc2]
  simp

theorem esc2_head_ne (x y c : Char) (cs : List Char) (hc : c ≠ '\\') :
    (esc2 x y (c :: cs)).head? = some c := by
  rw [esc2_cons_ne x y c cs hc]; rfl

/-- On field text with no two adjacent backslashes, the code's sequential
replacement chain agrees with the specification's left-to-right escape
decoding. (With adjacent backslashes they can disagree: see the C2
counterexample.) -/
theorem unescapeChain_eq_claim :
    ∀ cs : List Char, hasAdjBackslash cs = false →
      unescapeChain cs = claimEscapeDecode cs := by
  intro cs
  induction cs using claimEscapeDecode.induct with
  | case1 => intro _; rfl
  | case2 rest ih =>
    intro h
    have hr : hasAdjBackslash rest = false := by
      simp only [hasAdjBackslash, Bool.or_eq_false_iff] at h
      exact h.2.2
    have hrhs : claimEscapeDecode ('\\' :: '\'' :: rest) = '\'' :: claimEscapeDecode rest := by
      rw [claimEscapeDecode.eq_def]; simp
    rw [hrhs]
    simp only [unescapeChain] at *
    rw [esc2_bs_match '\'' '\'' rest,
        esc2_cons_ne '\\' '\\' '\'' _ (by decide),
        esc2_cons_ne 'n' '\n' '\'' _ (by decide),
        esc2_cons_ne 'r' '\r' '\'' _ (by decide),
        esc2_cons_ne 't' '\t' '\'' _ (by decide),
        ih hr]
  | case3 rest hne ih =>
    intro h
    simp [hasAdjBackslash] at h
  | case4 rest h1 h2 ih =>
    intro h
    have hr : hasAdjBackslash rest = false := by
      simp only [hasAdjBackslash, Bool.or_eq_false_iff] at h
      exact h.2.2
    have hrhs : claimEscapeDecode ('\\' :: 'n' :: rest) = '\n' :: claimEscapeDecode rest := by
      rw [claimEscapeDecode.eq_def]; simp
    rw [hrhs]
    simp only [unescapeChain] at *
    rw [esc2_bs_ne '\'' '\'' ('n' :: rest) (by simp),
        esc2_cons_ne '\'' '\'' 'n' _ (by decide),
        esc2_bs_ne '\\' '\\' ('n' :: _) (by simp),
        esc2_cons_ne '\\' '\\' 'n' _ (by decide),
        esc2_bs_match 'n' '\n',
        esc2_cons_ne 'r' '\r' '\n' _ (by decide),
        esc2_cons_ne 't' '\t' '\n' _ (by decide),
        ih hr]
  | case5 rest h1 h2 h3 ih =>
    intro h
    have hr : hasAdjBackslash rest = false := by
      simp only [hasAdjBackslash, Bool.or_eq_false_iff] at h
      exact h.2.2
    have hrhs : claimEscapeDecode ('\\' :: 'r' :: rest) = '\r' :: claimEscapeDecode rest := by
      rw [claimEscapeDecode.eq_def]; simp
    rw [hrhs]
    simp only [unescapeChain] at *
    rw [esc2_bs_ne '\'' '\'' ('r' :: rest) (by simp),
        esc2_cons_ne '\'' '\'' 'r' _ (by decide),
        esc2_bs_ne '\\' '\\' ('r' :: _) (by simp),
        esc2_cons_ne '\\' '\\' 'r' _ (by decide),
        esc2_bs_ne 'n' '\n' ('r' :: _) (by simp),
        esc2_cons_ne 'n' '\n' 'r' _ (by decide),
        esc2_bs_match 'r' '\r',
        esc2_cons_ne 't' '\t' '\r' _ (by decide),
        ih hr]
  | case6 rest h1 h2 h3 h4 ih =>
    intro h
    have hr : hasAdjBackslash rest = false := by
      simp only [hasAdjBackslash, Bool.or_eq_false_iff] at h
      exact h.2.2
    have hrhs : claimEscapeDecode ('\\' :: 't' :: rest) = '\t' :: claimEscapeDecode rest := by
      rw [claimEscapeDecode.eq_def]; simp
    rw [hrhs]
    simp only [unescapeChain] at *
    rw [esc2_bs_ne '\'' '\'' ('t' :: rest) (by simp),
        esc2_cons_ne '\'' '\'' 't' _ (by decide),
        esc2_bs_ne '\\' '\\' ('t' :: _) (by simp),
        esc2_cons_ne '\\' '\\' 't' _ (by decide),
        esc2_bs_ne 'n' '\n' ('t' :: _) (by simp),
        esc2_cons_ne 'n' '\n' 't' _ (by decide),
        esc2_bs_ne 'r' '\r' ('t' :: _) (by simp),
        esc2_cons_ne 'r' '\r' 't' _ (by decide),
        esc2_bs_match 't' '\t',
        ih hr]
  | case7 c rest h1 h2 h3 h4 h5 ih =>
    intro h
    have hr : hasAdjBackslash (c :: rest) = false := by
      simp only [hasAdjBackslash, Bool.or_eq_false_iff] at h ⊢
      exact ⟨h.2.1, h.2.2⟩
    have hrhs : claimEscapeDecode ('\\' :: c :: rest) = '\\' :: claimEscapeDecode (c :: rest) := by
      rw [claimEscapeDecode.eq_def]
      simp only [if_neg h1, if_neg h2, if_neg h3, if_neg h4, if_neg h5]
    rw [hrhs]
    simp only [unescapeChain] at *
    rw [esc2_bs_ne '\'' '\'' (c :: rest) (by simp [h1]),
        esc2_bs_ne '\\' '\\' (esc2 '\'' '\'' (c :: rest))
          (by rw [esc2_head_ne '\'' '\'' c rest h2]; simp [h2]),
        esc2_bs_ne 'n' '\n' _
          (by rw [esc2_cons_ne '\'' '\'' c rest h2,
                  esc2_head_ne '\\' '\\' c _ h2]; simp [h3]),
        esc2_bs_ne 'r' '\r' _
          (by rw [esc2_cons_ne '\'' '\'' c rest h2,
                  esc2_cons_ne '\\' '\\' c _ h2,
                  esc2_head_ne 'n' '\n' c _ h2]; simp [h4]),
        esc2_bs_ne 't' '\t' _
          (by rw [esc2_cons_ne '\'' '\'' c rest h2,
                  esc2_cons_ne '\\' '\\' c _ h2,
                  esc2_cons_ne 'n' '\n' c _ h2,
                  esc2_head_ne 'r' '\r' c _ h2]; simp [h5]),
        ih hr]
  | case8 c rest hne ih =>
    intro h
    by_cases hc : c = '\\'
    · match rest, hne with
      | [], _ =>
        subst hc
        rfl
      | d :: t, hne =>
        exact absurd (hne d t hc rfl) (fun x => x)
    · have hr : hasAdjBackslash rest = false := by
        simp only [hasAdjBackslash, Bool.or_eq_false_iff] at h
        exact h.2
      have hrhs : claimEscapeDecode (c :: rest) = c :: claimEscapeDecode rest := by
        rw [claimEscapeDecode.eq_def]
        split
        · rename_i heq; simp at heq
        · rename_i heq
          exfalso
          injection heq with he1 he2
          exact hc he1
        · rename_i heq
          injection heq with he1 he2
          rw [← he1, ← he2]
      rw [hrhs]
      simp only [unescapeChain] at *
      rw [esc2_cons_ne '\'' '\'' c rest hc,
          esc2_cons_ne '\\' '\\' c _ hc,
          esc2_cons_ne 'n' '\n' c _ hc,
          esc2_cons_ne 'r' '\r' c _ hc,
          esc2_cons_ne 't' '\t' c _ hc,
          ih hr]

-- ══════════════════════════════════════════════════════════════════════════
-- Helpers: normalize, extract_year, is_excluded_title
-- ══════════════════════════════════════════════════════════════════════════

/-- A regex word character `\w` (ASCII model: letters, digits, underscore). -/
def isWordChar (c : Char) : Bool := c.isAlphanum || c = '_'

/-- Collapse each maximal whitespace run to one space (`re.sub(r'\s+', ' ')`),
tracking whether the previous character was whitespace. -/
def collapseWsAux (prevWs : Bool) : List Char → List Char
  | [] => []
  | c :: cs =>
    if c.isWhitespace then
      if prevWs then collapseWsAux true cs
      else ' ' :: collapseWsAux true cs
    else c :: collapseWsAux false cs

/-- `normalize` (named `normalizeText` here to avoid clashing with
Mathlib's `normalize`): Python-lowercase, remove characters that are
neither word characters nor whitespace, collapse whitespace runs, trim. -/
def normalizeText (s : String) : String :=
  if s.isEmpty then ""
  else
    let cs := s.data.map pyLowerChar
    let cs := cs.filter (fun c => isWordChar c || c.isWhitespace)
    let cs := collapseWsAux false cs
    ⟨stripWs cs⟩

/-- Python `str(v)` as used on series identifiers and date fields. -/
def valToStr : Val → String
  | .null => "None"
  | .int n => toString n
  | .real q => if q.den = 1 then toString q.num ++ ".0" else toString q
  | .str s => s

/-- `extract_year`: leading four characters of the date string parsed as an
integer, kept only when positive. -/
def extract_year (v : Val) : Option Int :=
  if !v.truthy then none
  else
    match pyIntParse ⟨stripWs ((valToStr v).data.take 4)⟩ with
    | some y => if y > 0 then some y else none
    | none => none

-- ── The excluded-title pattern set ────────────────────────────────────────

/-- Try to consume a literal. -/
def matchLit (pat cs : List Char) : Option (List Char) :=
  if startsList pat cs then some (cs.drop pat.length) else none

/-- Try to consume `\s+` (the following token is never whitespace, so the
greedy maximal run is exact). -/
def matchWsPlus : List Char → Option (List Char)
  | [] => none
  | c :: rest =>
    if c.isWhitespace then some (rest.dropWhile Char.isWhitespace) else none

/-- Consume `\s*`. -/
def matchWsStar (cs : List Char) : Option (List Char) :=
  some (cs.dropWhile Char.isWhitespace)

/-- A `\b` word boundary after a word character: end of text or a
non-word character next. -/
def atBoundary (cs : List Char) : Bool :=
  match cs.head? with
  | none => true
  | some c => !isWordChar c

/-- `re.search` on an unanchored pattern: try every start position. -/
def searchAny (f : List Char → Bool) : List Char → Bool
  | [] => f []
  | c :: cs => f (c :: cs) || searchAny f cs

/-- `^(?:The\s+)?\w+\s+System$` without the optional group: a nonempty word
run, whitespace, then exactly `system` to the end. -/
def wordSystemTail (cs : List Char) : Bool :=
  let w := cs.takeWhile isWordChar
  !w.isEmpty &&
    (match matchWsPlus (cs.dropWhile isWordChar) with
     | some r => r = "system".data
     | none => false)

/-- One matcher per entry of `EXCLUDED_TITLE_PATTERNS`, applied to the
lowercased title (modelling `re.IGNORECASE` on ASCII patterns). -/
def excludedPatterns : List (List Char → Bool) :=
  [ -- r'\(excerpt\)'
    searchAny (startsList "(excerpt)".data),
    -- r'^Excerpt\s+from\b'
    fun cs =>
      ((matchLit "excerpt".data cs).bind matchWsPlus |>.bind
        (matchLit "from".data)).elim false atBoundary,
    -- r'^Appendix:'
    fun cs => startsList "appendix:".data cs,
    -- r'^Deleted\s+Scenes?\b'
    fun cs =>
      ((matchLit "deleted".data cs).bind matchWsPlus |>.bind
        (matchLit "scene".data)).elim false
        (fun r => (matchLit "s".data r).elim (atBoundary r) atBoundary),
    -- r'^Endnote\b'
    fun cs => (matchLit "endnote".data cs).elim false atBoundary,
    -- r'^Prelude\s+to\b'
    fun cs =>
      ((matchLit "prelude".data cs).bind matchWsPlus |>.bind
        (matchLit "to".data)).elim false atBoundary,
    -- r'^Prologue\s*\('
    fun cs =>
      ((matchLit "prologue".data cs).bind matchWsStar |>.bind
        (matchLit "(".data)).isSome,
    -- r'^Dramatis\s+Personae\b'
    fun cs =>
      ((matchLit "dramatis".data cs).bind matchWsPlus |>.bind
        (matchLit "personae".data)).elim false atBoundary,
    -- r'^untitled\s*\('
    fun cs =>
      ((matchLit "untitled".data cs).bind matchWsStar |>.bind
        (matchLit "(".data)).isSome,
    -- r'^The\s+Story\s+So\s+Far'
    fun cs =>
      ((((((matchLit "the".data cs).bind matchWsPlus |>.bind
        (matchLit "story".data)).bind matchWsPlus).bind
        (matchLit "so".data)).bind matchWsPlus).bind
        (matchLit "far".data)).isSome,
    -- r':\s*(?:Prologue|Chapter)\s+'
    searchAny (fun cs =>
      ((matchLit ":".data cs).bind matchWsStar).elim false (fun r =>
        ((matchLit "prologue".data r).bind matchWsPlus).isSome ||
        ((matchLit "chapter".data r).bind matchWsPlus).isSome)),
    -- r'^(?:The\s+)?\w+\s+System$'
    fun cs =>
      (((matchLit "the".data cs).bind matchWsPlus).elim false wordSystemTail) ||
        wordSystemTail cs,
    -- r'Extended\s+Excerpt'
    searchAny (fun cs =>
      ((matchLit "extended".data cs).bind matchWsPlus |>.bind
        (matchLit "excerpt".data)).isSome),
    -- r'^First\s+Draft:'
    fun cs =>
      ((matchLit "first".data cs).bind matchWsPlus |>.bind
        (matchLit "draft:".data)).isSome,
    -- r'^Edits:'
    fun cs => startsList "edits:".data cs ]

/-- `is_excluded_title`: a falsy (absent/empty) title is excluded; else the
title is excluded when any pattern matches. Non-string truthy values do not
occur on the title column. -/
def is_excluded_title (v : Val) : Bool :=
  match v with
  | .str s =>
    if s.isEmpty then true
    else excludedPatterns.any (fun p => p (s.data.map pyLowerChar))
  | _ => true

-- ══════════════════════════════════════════════════════════════════════════
-- Dictionaries as assignment-event lists; batching infrastructure
-- ══════════════════════════════════════════════════════════════════════════

/-- The value bindings a dictionary-building loop records for key `k`, in
order. -/
def groupVals [DecidableEq κ] (es : List (κ × ν)) (k : κ) : List ν :=
  (es.filter (fun e => decide (e.1 = k))).map Prod.snd

/-- Dictionary lookup under "last assignment wins" semantics. -/
def lookupLast [DecidableEq κ] (es : List (κ × ν)) (k : κ) : Option ν :=
  (groupVals es k).getLast?

theorem groupVals_append [DecidableEq κ] (a b : List (κ × ν)) (k : κ) :
    groupVals (a ++ b) k = groupVals a k ++ groupVals b k := by
  simp [groupVals, List.filter_append]

theorem groupVals_join [DecidableEq κ] (ls : List (List (κ × ν))) (k : κ) :
    groupVals ls.join k = (ls.map (fun l => groupVals l k)).join := by
  induction ls with
  | nil => rfl
  | cons x rest ih => simp [groupVals_append, ih]

theorem getLast?_append_or (a b : List α) :
    (a ++ b).getLast? = if b.isEmpty then a.getLast? else b.getLast? := by
  cases b with
  | nil => simp
  | cons x rest =>
    rw [List.getLast?_append_of_ne_nil a (by simp)]
    simp

/-- Batches: consecutive 900-element chunks (`range(0, len, 900)` slices),
with the list length itself as the structural fuel. -/
def chunksAux : Nat → List α → List (List α)
  | 0, _ => []
  | _ + 1, [] => []
  | fuel + 1, l => l.take 900 :: chunksAux fuel (l.drop 900)

def chunks900 (l : List α) : List (List α) := chunksAux l.length l

theorem chunksAux_join :
    ∀ (fuel : Nat) (l : List α), l.length ≤ fuel → (chunksAux fuel l).join = l := by
  intro fuel
  induction fuel with
  | zero =>
    intro l h
    match l with
    | [] => rfl
    | _ :: _ => simp at h
  | succ n ih =>
    intro l h
    match l with
    | [] => rfl
    | c :: cs =>
      show ((c :: cs).take 900 :: chunksAux n ((c :: cs).drop 900)).join = c :: cs
      have hd : ((c :: cs).drop 900).length ≤ n := by
        simp only [List.length_drop, List.length_cons] at *
        omega
      simp only [List.join_cons, ih _ hd, List.take_append_drop]

theorem chunks900_join (l : List α) : (chunks900 l).join = l :=
  chunksAux_join l.length l le_rfl

theorem chunksAux_length_le :
    ∀ (fuel : Nat) (l : List α), ∀ b ∈ chunksAux fuel l, b.length ≤ 900 := by
  intro fuel
  induction fuel with
  | zero => intro l b hb; simp [chunksAux] at hb
  | succ n ih =>
    intro l b hb
    match l with
    | [] => simp [chunksAux] at hb
    | c :: cs =>
      simp only [chunksAux, List.mem_cons] at hb
      rcases hb with h | h
      · subst h
        simpa using List.length_take_le 900 (c :: cs)
      · exact ih _ b h

theorem chunks900_length_le (l : List α) : ∀ b ∈ chunks900 l, b.length ≤ 900 :=
  chunksAux_length_le l.length l

/-- Membership test written as `any` of a pairwise comparison (the common
shape of Python `in` and SQL `IN`). -/
def memAny (eqf : α → β → Bool) (a : α) (l : List β) : Bool := l.any (eqf a)

theorem memAny_append (eqf : α → β → Bool) (a : α) (l₁ l₂ : List β) :
    memAny eqf a (l₁ ++ l₂) = (memAny eqf a l₁ || memAny eqf a l₂) := by
  simp [memAny]

theorem memAny_join (eqf : α → β → Bool) (a : α) (ls : List (List β)) :
    memAny eqf a ls.join = ls.any (memAny eqf a) := by
  induction ls with
  | nil => rfl
  | cons x rest ih => simp [memAny_append, ih]

/-- One identifier-set query issued per batch: the events of batch `b` are
the matching rows' key/value pairs, in row order. -/
def batchedEvents (rows : List R) (Q : R → Bool) (sel : R → α)
    (eqf : α → β → Bool) (g : R → κ × ν) (bs : List (List β)) : List (κ × ν) :=
  (bs.map (fun b =>
    rows.filterMap (fun r =>
      if Q r && memAny eqf (sel r) b then some (g r) else none))).join

/-- The same query issued once over the whole identifier list. -/
def fullEvents (rows : List R) (Q : R → Bool) (sel : R → α)
    (eqf : α → β → Bool) (g : R → κ × ν) (L : List β) : List (κ × ν) :=
  rows.filterMap (fun r =>
    if Q r && memAny eqf (sel r) L then some (g r) else none)

theorem groupVals_cons [DecidableEq κ] (p : κ × ν) (es : List (κ × ν)) (k : κ) :
    groupVals (p :: es) k =
      if p.1 = k then p.2 :: groupVals es k else groupVals es k := by
  by_cases h : p.1 = k <;> simp [groupVals, List.filter_cons, h]

theorem filterMap_ite (P : R → Bool) (g : R → δ) (rows : List R) :
    rows.filterMap (fun r => if P r then some (g r) else none)
      = (rows.filter P).map g := by
  induction rows with
  | nil => rfl
  | cons r rest ih =>
    by_cases h : P r = true <;> simp [List.filter_cons, h, ih]

theorem groupVals_map [DecidableEq κ] (l : List R) (g : R → κ × ν) (k : κ) :
    groupVals (l.map g) k
      = (l.filter (fun r => decide ((g r).1 = k))).map (fun r => (g r).2) := by
  simp [groupVals, List.filter_map, Function.comp_def, List.map_map]

theorem filter_sel_factor
    (rows : List R) (Q : R → Bool) (sel : R → α) (eqf : α → β → Bool)
    (keyP : R → Bool) (s : α)
    (hσ : ∀ r, Q r = true → keyP r = true → sel r = s) (b : List β) :
    rows.filter (fun r => keyP r && (Q r && memAny eqf (sel r) b))
      = if memAny eqf s b then rows.filter (fun r => keyP r && Q r) else [] := by
  induction rows with
  | nil => by_cases hm : memAny eqf s b = true <;> simp [hm]
  | cons r rest ih =>
    by_cases hq : Q r = true
    · by_cases hk : keyP r = true
      · have hs := hσ r hq hk
        by_cases hm : memAny eqf s b = true <;>
          simp [List.filter_cons, hq, hk, hs, hm, ih]
      · have hk2 : keyP r = false := by simpa using hk
        by_cases hm : memAny eqf s b = true <;>
          simp [List.filter_cons, hq, hk2, hm, ih]
    · have hq2 : Q r = false := by simpa using hq
      by_cases hm : memAny eqf s b = true <;>
        simp [List.filter_cons, hq2, hm, ih]

/-- The bindings one batch records for key `k`: all of them (when the key\'s
fixed selector value `s` is in the batch) or none. -/
theorem groupVals_batch_factor [DecidableEq κ]
    (rows : List R) (Q : R → Bool) (sel : R → α) (eqf : α → β → Bool)
    (g : R → κ × ν) (k : κ) (s : α)
    (hσ : ∀ r, Q r = true → (g r).1 = k → sel r = s) (b : List β) :
    groupVals (rows.filterMap (fun r =>
        if Q r && memAny eqf (sel r) b then some (g r) else none)) k
      = if memAny eqf s b then
          (rows.filter (fun r => decide ((g r).1 = k) && Q r)).map (fun r => (g r).2)
        else [] := by
  rw [filterMap_ite, groupVals_map, List.filter_filter]
  rw [filter_sel_factor rows Q sel eqf (fun r => decide ((g r).1 = k)) s
    (fun r hq hk => hσ r hq (by simpa using hk)) b]
  by_cases hm : memAny eqf s b = true <;> simp [hm]

theorem join_ite_nil (V : List ν) (bs : List γ) (m : γ → Bool)
    (h : bs.any m = false) :
    (bs.map (fun b => if m b then V else [])).join = [] := by
  induction bs with
  | nil => rfl
  | cons b rest ih =>
    simp only [List.any_cons, Bool.or_eq_false_iff] at h
    simp [h.1, ih h.2]

theorem getLast?_join_ite (V : List ν) (bs : List γ) (m : γ → Bool) :
    ((bs.map (fun b => if m b then V else [])).join).getLast?
      = if bs.any m then V.getLast? else none := by
  induction bs with
  | nil => simp
  | cons b rest ih =>
    simp only [List.map_cons, List.any_cons]
    rw [show ((if m b = true then V else []) ::
        (rest.map (fun b => if m b = true then V else []))).join
      = (if m b = true then V else []) ++
        (rest.map (fun b => if m b = true then V else [])).join from rfl]
    rw [getLast?_append_or]
    by_cases hb : m b = true
    · rw [if_pos hb]
      by_cases hemp : ((rest.map (fun b => if m b then V else [])).join).isEmpty = true
      · rw [if_pos hemp]
        simp [hb]
      · rw [if_neg hemp]
        have hany : rest.any m = true := by
          by_contra hno
          exact hemp (by rw [join_ite_nil V rest m (by simpa using hno)]; rfl)
        rw [ih, if_pos hany]
        simp [hb]
    · have hb2 : m b = false := by simpa using hb
      simp only [hb2, Bool.false_or, if_false]
      by_cases hemp : ((rest.map (fun b => if m b then V else [])).join).isEmpty = true
      · rw [if_pos hemp]
        have h0 : ((rest.map (fun b => if m b then V else [])).join) = [] :=
          List.isEmpty_iff.mp hemp
        have h1 := ih
        rw [h0] at h1
        simp only [List.getLast?_nil] at h1 ⊢
        exact h1
      · rw [if_neg hemp]
        exact ih

/-- Batching an identifier-set query does not change the resulting
dictionary: per-key lookup agrees with the unbatched query, provided every
row binding a given key carries one fixed selector value. -/
theorem batched_lookupLast [DecidableEq κ]
    (rows : List R) (Q : R → Bool) (sel : R → α) (eqf : α → β → Bool)
    (g : R → κ × ν) (bs : List (List β)) (L : List β)
    (hjoin : bs.join = L) (k : κ) (s : α)
    (hσ : ∀ r, Q r = true → (g r).1 = k → sel r = s) :
    lookupLast (batchedEvents rows Q sel eqf g bs) k
      = lookupLast (fullEvents rows Q sel eqf g L) k := by
  unfold lookupLast batchedEvents fullEvents
  rw [groupVals_join]
  have hmap : (bs.map (fun b =>
      rows.filterMap (fun r =>
        if Q r && memAny eqf (sel r) b then some (g r) else none))).map
        (fun l => groupVals l k)
      = bs.map (fun b =>
          if memAny eqf s b then
            (rows.filter (fun r => decide ((g r).1 = k) && Q r)).map (fun r => (g r).2)
          else []) := by
    rw [List.map_map]
    apply List.map_congr_left
    intro b _
    show groupVals (rows.filterMap (fun r =>
      if Q r && memAny eqf (sel r) b then some (g r) else none)) k = _
    exact groupVals_batch_factor rows Q sel eqf g k s hσ b
  rw [hmap, getLast?_join_ite]
  rw [groupVals_batch_factor rows Q sel eqf g k s hσ L]
  rw [← hjoin, memAny_join]
  by_cases hany : bs.any (memAny eqf s)
  · rw [if_pos hany, if_pos hany]
  · rw [if_neg hany, if_neg hany]
    simp

/-- Batching does not change which key/value pairs are ever recorded. -/
theorem batched_mem
    (rows : List R) (Q : R → Bool) (sel : R → α) (eqf : α → β → Bool)
    (g : R → κ × ν) (bs : List (List β)) (L : List β)
    (hjoin : bs.join = L) (x : κ × ν) :
    x ∈ batchedEvents rows Q sel eqf g bs ↔ x ∈ fullEvents rows Q sel eqf g L := by
  unfold batchedEvents fullEvents
  rw [List.mem_join]
  constructor
  · rintro ⟨l, hl, hx⟩
    rw [List.mem_map] at hl
    obtain ⟨b, hb, rfl⟩ := hl
    rw [List.mem_filterMap] at hx ⊢
    obtain ⟨r, hr, hcond⟩ := hx
    refine ⟨r, hr, ?_⟩
    by_cases hq : Q r && memAny eqf (sel r) b
    · rw [if_pos hq] at hcond
      simp only [Bool.and_eq_true] at hq
      have : memAny eqf (sel r) L = true := by
        rw [← hjoin, memAny_join]
        exact List.any_eq_true.mpr ⟨b, hb, hq.2⟩
      rw [if_pos (by simp [hq.1, this])]
      exact hcond
    · rw [if_neg hq] at hcond
      cases hcond
  · intro hx
    rw [List.mem_filterMap] at hx
    obtain ⟨r, hr, hcond⟩ := hx
    by_cases hq : (Q r && memAny eqf (sel r) L) = true
    · rw [if_pos hq] at hcond
      simp only [Bool.and_eq_true] at hq
      have : ∃ b ∈ bs, memAny eqf (sel r) b = true := by
        have h2 := hq.2
        rw [← hjoin, memAny_join] at h2
        exact List.any_eq_true.mp h2
      obtain ⟨b, hb, hmb⟩ := this
      refine ⟨rows.filterMap (fun r =>
        if Q r && memAny eqf (sel r) b then some (g r) else none),
        List.mem_map.mpr ⟨b, hb, rfl⟩, ?_⟩
      rw [List.mem_filterMap]
      refine ⟨r, hr, ?_⟩
      rw [if_pos (by simp [hq.1, hmb])]
      exact hcond
    · rw [if_neg hq] at hcond
      cases hcond

-- ══════════════════════════════════════════════════════════════════════════
-- The loaded snapshot (`load-isfdb-to-sqlite.py`) and the two backends
-- ══════════════════════════════════════════════════════════════════════════

/-- Column access on a row (a padded row always has its declared arity). -/
def col (r : List Val) (i : Nat) : Val := r.getD i Val.null

/-- The integer primary key stored in column 0. -/
def rowId (r : List Val) : Int :=
  match r.getD 0 Val.null with
  | .int n => n
  | _ => 0

/-- Column 0 holds an integer. -/
def colInt (r : List Val) : Bool :=
  match r.getD 0 Val.null with
  | .int _ => true
  | _ => false

/-- The loader pads short tuples with NULL and truncates long ones to the
table's declared column count. -/
def padTrunc (n : Nat) (r : List Val) : List Val :=
  if r.length < n then r ++ List.replicate (n - r.length) Val.null else r.take n

/-- `INSERT OR IGNORE` on an INTEGER PRIMARY KEY first column: a row whose
key was already inserted is dropped. -/
def insertOrIgnoreAux (seen : List Int) : List (List Val) → List (List Val)
  | [] => []
  | r :: rest =>
    if rowId r ∈ seen then insertOrIgnoreAux seen rest
    else r :: insertOrIgnoreAux (rowId r :: seen) rest

def insertById (r : List Val) : List (List Val) → List (List Val)
  | [] => [r]
  | s :: rest => if rowId r ≤ rowId s then r :: s :: rest else s :: insertById r rest

/-- `SELECT` without `ORDER BY` returns rows in rowid order, which for an
INTEGER PRIMARY KEY table is ascending key order. -/
def sortById : List (List Val) → List (List Val)
  | [] => []
  | r :: rest => insertById r (sortById rest)

/-- The queryable table the loader produces from the raw tuples of one
source table: pad/truncate each tuple, keep the first row per primary key,
read back in key order. -/
def loadTable (n : Nat) (rows : List (List Val)) : List (List Val) :=
  sortById (insertOrIgnoreAux [] (rows.map (padTrunc n)))

/-- Strictly ascending primary keys. -/
def idsStrictAsc : List (List Val) → Bool
  | [] => true
  | [_] => true
  | r :: s :: rest => decide (rowId r < rowId s) && idsStrictAsc (s :: rest)

theorem idsStrictAsc_chain' (l : List (List Val)) (h : idsStrictAsc l = true) :
    List.Chain' (fun a b => rowId a < rowId b) l := by
  induction l with
  | nil => exact List.chain'_nil
  | cons r rest ih =>
    cases rest with
    | nil => simp
    | cons s rest2 =>
      simp only [idsStrictAsc, Bool.and_eq_true, decide_eq_true_eq] at h
      exact List.Chain'.cons h.1 (ih h.2)

/-- Well-formed source rows for a table of `n` columns: full arity, an
integer primary key in column 0, and rows exported in strictly ascending
key order (as the catalog's bulk export produces them). -/
def wfTable (n : Nat) (rows : List (List Val)) : Prop :=
  (∀ r ∈ rows, n ≤ r.length ∧ colInt r = true) ∧ idsStrictAsc rows = true

instance (n : Nat) (rows : List (List Val)) : Decidable (wfTable n rows) :=
  inferInstanceAs (Decidable ((∀ r ∈ rows, n ≤ r.length ∧ colInt r = true) ∧
    idsStrictAsc rows = true))

theorem padTrunc_eq_take {n : Nat} {r : List Val} (h : n ≤ r.length) :
    padTrunc n r = r.take n := by
  unfold padTrunc
  rw [if_neg (by omega)]

theorem padTrunc_col {n : Nat} {r : List Val} (h : n ≤ r.length) {i : Nat}
    (hi : i < n) : col (padTrunc n r) i = col r i := by
  rw [padTrunc_eq_take h]
  unfold col
  rw [List.getD_eq_getElem?_getD, List.getD_eq_getElem?_getD,
      List.getElem?_take_of_lt hi]

theorem padTrunc_rowId {n : Nat} {r : List Val} (h1 : 1 ≤ n)
    (h : n ≤ r.length) : rowId (padTrunc n r) = rowId r := by
  have := padTrunc_col h (show 0 < n by omega)
  unfold col at this
  unfold rowId
  rw [this]

theorem insertOrIgnoreAux_eq (seen : List Int) (l : List (List Val))
    (hdisj : ∀ r ∈ l, rowId r ∉ seen)
    (hnd : l.Pairwise (fun a b => rowId a ≠ rowId b)) :
    insertOrIgnoreAux seen l = l := by
  induction l generalizing seen with
  | nil => rfl
  | cons r rest ih =>
    rw [insertOrIgnoreAux, if_neg (hdisj r (by simp))]
    congr 1
    apply ih
    · intro t ht
      have hpair := (List.pairwise_cons.mp hnd).1 t ht
      have hseen := hdisj t (List.mem_cons_of_mem r ht)
      simp only [List.mem_cons]
      rintro (h | h)
      · exact hpair h.symm
      · exact hseen h
    · exact (List.pairwise_cons.mp hnd).2

theorem insertById_eq_cons (r : List Val) (l : List (List Val))
    (h : ∀ s, l.head? = some s → rowId r ≤ rowId s) :
    insertById r l = r :: l := by
  cases l with
  | nil => rfl
  | cons s rest => rw [insertById, if_pos (h s rfl)]

theorem sortById_eq_self (l : List (List Val))
    (h : l.Pairwise (fun a b => rowId a ≤ rowId b)) :
    sortById l = l := by
  induction l with
  | nil => rfl
  | cons r rest ih =>
    rw [sortById, ih (List.pairwise_cons.mp h).2]
    apply insertById_eq_cons
    intro s hs
    cases rest with
    | nil => simp at hs
    | cons t ts =>
      have h2 : t = s := by simpa using hs
      subst h2
      exact (List.pairwise_cons.mp h).1 _ (by simp)

/-- Under well-formedness the loaded table is exactly the source rows,
each padded/truncated to the declared arity. -/
theorem loadTable_eq {n : Nat} (h1 : 1 ≤ n) {rows : List (List Val)}
    (hwf : wfTable n rows) : loadTable n rows = rows.map (padTrunc n) := by
  obtain ⟨harity, hchain⟩ := hwf
  haveI : IsTrans (List Val) (fun a b => rowId a < rowId b) :=
    ⟨fun a b c hab hbc => lt_trans hab hbc⟩
  have hlt : rows.Pairwise (fun a b => rowId a < rowId b) :=
    List.chain'_iff_pairwise.mp (idsStrictAsc_chain' rows hchain)
  have hid : ∀ r ∈ rows, rowId (padTrunc n r) = rowId r := by
    intro r hr
    exact padTrunc_rowId h1 (harity r hr).1
  have hltm : (rows.map (padTrunc n)).Pairwise (fun a b => rowId a < rowId b) := by
    rw [List.pairwise_map]
    refine hlt.imp_of_mem ?_
    intro a b ha hb hab
    rw [hid a ha, hid b hb]
    exact hab
  unfold loadTable
  rw [insertOrIgnoreAux_eq _ _ (by simp) (hltm.imp (fun hab => ne_of_lt hab))]
  exact sortById_eq_self _ (hltm.imp (fun hab => le_of_lt hab))

/-- The raw source-catalog rows (the parsed tuples of each of the six
tables, in export-file order). The indexed backend queries the tables the
loader builds from them; the raw-scan backend re-parses them per query. -/
structure Dataset where
  series : List (List Val)
  titles : List (List Val)
  canonical_author : List (List Val)
  authors : List (List Val)
  pub_content : List (List Val)
  pubs : List (List Val)

def INCLUDED_TITLE_TYPES : List Val :=
  [Val.str "NOVEL", Val.str "NOVELLA", Val.str "SHORTFICTION"]

def ENGLISH_LANG_ID : Val := Val.int 17

/-- SQLite `LOWER`: NULL stays NULL, text is lowercased (non-text values
are coerced to text, which well-formed data never exercises). -/
def sqlLower : Val → Val
  | .null => Val.null
  | .str s => .str (lowerStr s)
  | v => .str (valToStr v)

/-- `target_lower = {name.lower(): name for name in target_names}` as
assignment events (Python lowercase). -/
def targetLowerPairs (names : List String) : List (String × String) :=
  names.map (fun n => (pyLowerStr n, n))

/-- The Python-side filter both backends apply to a candidate series title:
truthy, and its Python-lowercase form is a key of `target_lower`. -/
def seriesQ (names : List String) (v : Val) : Bool :=
  match v with
  | .str t => !t.isEmpty && (lookupLast (targetLowerPairs names) (pyLowerStr t)).isSome
  | _ => false

/-- `target_lower[title.lower()]`. -/
def seriesKey (names : List String) (v : Val) : String :=
  match v with
  | .str t => (lookupLast (targetLowerPairs names) (pyLowerStr t)).getD ""
  | _ => ""

/-- The series-title selector under the Python fold: what `sqlLower` on
the title column becomes when `LOWER` and `str.lower()` agree on the
stored titles. -/
def pyLowerV : Val → Val
  | .null => Val.null
  | .str s => .str (pyLowerStr s)
  | v => .str (valToStr v)

/-- The title-row conditions of the dump backend after the series/type/
parent test: keep rows whose language is NULL or English, then drop
pattern-excluded titles. -/
def dumpTitleCond (seriesIds : List Val) (t : List Val) : Bool :=
  pyMem (col t 5) seriesIds && pyMem (col t 9) INCLUDED_TITLE_TYPES &&
    (pyEq (col t 12) (Val.int 0) || decide (col t 12 = Val.null)) &&
    (decide (col t 16 = Val.null) || pyEq (col t 16) ENGLISH_LANG_ID) &&
    !is_excluded_title (col t 1)

/-- The title-row conditions of the SQLite backend: the SQL `WHERE` clause
(`series_id IN …`, `title_ttype IN …`, `title_parent = 0 OR NULL`,
`title_language = 17`) plus the Python pattern filter. -/
def sqlTitleCond (seriesIds : List Val) (r : List Val) : Bool :=
  sqlMem (col r 5) seriesIds && sqlMem (col r 9) INCLUDED_TITLE_TYPES &&
    (sqlEq (col r 12) (Val.int 0) || decide (col r 12 = Val.null)) &&
    sqlEq (col r 16) ENGLISH_LANG_ID &&
    !is_excluded_title (col r 1)

/-- The per-title dictionary entry both backends build for a title row. -/
def titleInfo (t : List Val) : List Val :=
  [col t 0, col t 1, col t 5, col t 6, col t 7, col t 9]

/-- The edition key: has an identifying code, then format rank
(`tp`/`hc` = 2, `ebook` = 1, else 0). -/
def pubSortKey (p : List Val) : Nat × Nat :=
  let hasIsbn := if (col p 6).truthy then 1 else 0
  let ptype := if (col p 4).truthy then col p 4 else Val.str ""
  let typeRank :=
    if pyEq ptype (Val.str "tp") || pyEq ptype (Val.str "hc") then 2
    else if pyEq ptype (Val.str "ebook") then 1
    else 0
  (hasIsbn, typeRank)

/-- Strictly greater in the edition ranking. -/
def pubKeyGt (a b : Nat × Nat) : Bool :=
  b.1 < a.1 || (a.1 = b.1 && b.2 < a.2)

/-- `candidates.sort(key=…, reverse=True); candidates[0]`: the stable
descending sort makes this the first candidate (in set-iteration order)
with the maximal key. -/
def selectBest : List (List Val) → Option (List Val)
  | [] => none
  | c :: rest =>
    some (rest.foldl (fun best p =>
      if pubKeyGt (pubSortKey p) (pubSortKey best) then p else best) c)

/-- CPython iterates a set of small integers in ascending value order; the
per-title publication-id set is modelled canonically as the sorted
deduplicated list of its members. -/
def insInt (n : Int) : List Int → List Int
  | [] => [n]
  | m :: rest =>
    if n < m then n :: m :: rest
    else if n = m then m :: rest
    else m :: insInt n rest

def sortedDedup (l : List Int) : List Int :=
  l.foldl (fun acc n => insInt n acc) []

def valInt : Val → Int
  | .int n => n
  | _ => 0

def sortedDedupVals (l : List Val) : List Val :=
  (sortedDedup (l.map valInt)).map Val.int

-- ── The indexed-snapshot backend (class ISFDBSqlite) ──────────────────────

namespace ISFDBSqlite

def seriesTable (ds : Dataset) : List (List Val) := loadTable 6 ds.series
def titlesTable (ds : Dataset) : List (List Val) := loadTable 23 ds.titles
def caTable (ds : Dataset) : List (List Val) := loadTable 4 ds.canonical_author
def authorsTable (ds : Dataset) : List (List Val) := loadTable 16 ds.authors
def pcTable (ds : Dataset) : List (List Val) := loadTable 4 ds.pub_content
def pubsTable (ds : Dataset) : List (List Val) := loadTable 15 ds.pubs

/-- `find_series_ids`: batches of 900 names, `LOWER(series_title) IN …`,
then the Python truthiness/`target_lower` check; the value is the six
series columns keyed by the original input name. -/
def find_series_ids (ds : Dataset) (names : List String) :
    List (String × List Val) :=
  batchedEvents (seriesTable ds)
    (fun r => seriesQ names (col r 1))
    (fun r => sqlLower (col r 1))
    sqlEq
    (fun r => (seriesKey names (col r 1),
      [col r 0, col r 1, col r 2, col r 3, col r 4, col r 5]))
    ((chunks900 names).map (fun b => b.map (fun nm => Val.str (pyLowerStr nm))))

/-- `find_parent_series`: one unbatched `series_id IN …` query. -/
def find_parent_series (ds : Dataset) (parentIds : List Val) :
    List (Val × List Val) :=
  if parentIds.isEmpty then []
  else
    fullEvents (seriesTable ds)
      (fun _ => true)
      (fun r => col r 0)
      sqlEq
      (fun r => (col r 0, [col r 0, col r 1, col r 2]))
      parentIds

/-- `find_sub_series`: one unbatched `series_parent IN …` query; values are
appended per parent key in row order. -/
def find_sub_series (ds : Dataset) (parentIds : List Val) :
    List (Val × List Val) :=
  if parentIds.isEmpty then []
  else
    fullEvents (seriesTable ds)
      (fun _ => true)
      (fun r => col r 2)
      sqlEq
      (fun r => (col r 2, [col r 0, col r 1, col r 2, col r 4]))
      parentIds

/-- `find_titles_for_series`: one unbatched query with the type, parent and
language conditions, then the Python pattern filter. -/
def find_titles_for_series (ds : Dataset) (seriesIds : List Val) :
    List (Val × List Val) :=
  (titlesTable ds).filterMap (fun r =>
    if sqlTitleCond seriesIds r then some (col r 5, titleInfo r) else none)

/-- The `title_ids` set accumulated alongside the titles dictionary. -/
def titles_id_set (ds : Dataset) (seriesIds : List Val) : List Val :=
  (find_titles_for_series ds seriesIds).map (fun e => col e.2 0)

/-- `find_authors_for_titles`: batches of 900 title ids. -/
def find_authors_for_titles (ds : Dataset) (titleIds : List Val) :
    List (Val × Val) :=
  batchedEvents (caTable ds)
    (fun _ => true)
    (fun r => col r 1)
    sqlEq
    (fun r => (col r 1, col r 2))
    (chunks900 titleIds)

def author_id_set (ds : Dataset) (titleIds : List Val) : List Val :=
  (find_authors_for_titles ds titleIds).map Prod.snd

/-- `find_author_names`: batches of 900 author ids. -/
def find_author_names (ds : Dataset) (authorIds : List Val) :
    List (Val × Val) :=
  batchedEvents (authorsTable ds)
    (fun _ => true)
    (fun r => col r 0)
    sqlEq
    (fun r => (col r 0, col r 1))
    (chunks900 authorIds)

/-- Phase one of `find_pubs_for_titles`: title→publication links. -/
def pub_link_events (ds : Dataset) (titleIds : List Val) :
    List (Val × Val) :=
  batchedEvents (pcTable ds)
    (fun _ => true)
    (fun r => col r 1)
    sqlEq
    (fun r => (col r 1, col r 2))
    (chunks900 titleIds)

/-- The `pub_ids` set in iteration order. -/
def pub_id_list (ds : Dataset) (titleIds : List Val) : List Val :=
  sortedDedupVals ((pub_link_events ds titleIds).map Prod.snd)

/-- Phase two: the publications dictionary, batched over `pub_ids`. -/
def pub_events (ds : Dataset) (titleIds : List Val) :
    List (Val × List Val) :=
  batchedEvents (pubsTable ds)
    (fun _ => true)
    (fun r => col r 0)
    sqlEq
    (fun r => (col r 0,
      [col r 0, col r 1, col r 3, col r 5, col r 6, col r 7,
        col r 8, col r 9, col r 10]))
    (chunks900 (pub_id_list ds titleIds))

/-- `find_pubs_for_titles` as the resulting mapping: for each title, the
best-ranked edition among its linked publications. -/
def find_pubs_for_titles (ds : Dataset) (titleIds : List Val) :
    Val → Option (List Val) := fun tid =>
  let ev1 := pub_link_events ds titleIds
  let ev2 := pub_events ds titleIds
  selectBest ((sortedDedupVals (groupVals ev1 tid)).filterMap
    (fun pid => lookupLast ev2 pid))

end ISFDBSqlite

-- ── The raw-scan backend (class ISFDBDump) ────────────────────────────────

namespace ISFDBDump

def find_series_ids (ds : Dataset) (names : List String) :
    List (String × List Val) :=
  ds.series.filterMap (fun t =>
    if decide (6 ≤ t.length) && seriesQ names (col t 1) then
      some (seriesKey names (col t 1),
        [col t 0, col t 1, col t 2, col t 3, col t 4, col t 5])
    else none)

def find_parent_series (ds : Dataset) (parentIds : List Val) :
    List (Val × List Val) :=
  ds.series.filterMap (fun t =>
    if decide (6 ≤ t.length) && pyMem (col t 0) parentIds then
      some (col t 0, [col t 0, col t 1, col t 2])
    else none)

def find_sub_series (ds : Dataset) (parentIds : List Val) :
    List (Val × List Val) :=
  ds.series.filterMap (fun t =>
    if decide (6 ≤ t.length) && pyMem (col t 2) parentIds then
      some (col t 2, [col t 0, col t 1, col t 2, col t 4])
    else none)

def find_titles_for_series (ds : Dataset) (seriesIds : List Val) :
    List (Val × List Val) :=
  ds.titles.filterMap (fun t =>
    if decide (23 ≤ t.length) && dumpTitleCond seriesIds t then
      some (col t 5, titleInfo t)
    else none)

def titles_id_set (ds : Dataset) (seriesIds : List Val) : List Val :=
  (find_titles_for_series ds seriesIds).map (fun e => col e.2 0)

def find_authors_for_titles (ds : Dataset) (titleIds : List Val) :
    List (Val × Val) :=
  ds.canonical_author.filterMap (fun t =>
    if decide (4 ≤ t.length) && pyMem (col t 1) titleIds then
      some (col t 1, col t 2)
    else none)

def author_id_set (ds : Dataset) (titleIds : List Val) : List Val :=
  (find_authors_for_titles ds titleIds).map Prod.snd

def find_author_names (ds : Dataset) (authorIds : List Val) :
    List (Val × Val) :=
  ds.authors.filterMap (fun t =>
    if decide (2 ≤ t.length) && pyMem (col t 0) authorIds then
      some (col t 0, col t 1)
    else none)

def pub_link_events (ds : Dataset) (titleIds : List Val) :
    List (Val × Val) :=
  ds.pub_content.filterMap (fun t =>
    if decide (3 ≤ t.length) && pyMem (col t 1) titleIds then
      some (col t 1, col t 2)
    else none)

def pub_id_list (ds : Dataset) (titleIds : List Val) : List Val :=
  sortedDedupVals ((pub_link_events ds titleIds).map Prod.snd)

def pub_events (ds : Dataset) (titleIds : List Val) :
    List (Val × List Val) :=
  ds.pubs.filterMap (fun t =>
    if decide (15 ≤ t.length) && pyMem (col t 0) (pub_id_list ds titleIds) then
      some (col t 0,
        [col t 0, col t 1, col t 3, col t 5, col t 6, col t 7,
          col t 8, col t 9, col t 10])
    else none)

def find_pubs_for_titles (ds : Dataset) (titleIds : List Val) :
    Val → Option (List Val) := fun tid =>
  let ev1 := pub_link_events ds titleIds
  let ev2 := pub_events ds titleIds
  selectBest ((sortedDedupVals (groupVals ev1 tid)).filterMap
    (fun pid => lookupLast ev2 pid))

end ISFDBDump

-- ══════════════════════════════════════════════════════════════════════════
-- Backend parity (claim C1)
-- ══════════════════════════════════════════════════════════════════════════

theorem filterMapCongr {A B : Type} (l : List A) (f g : A → Option B)
    (h : ∀ x ∈ l, f x = g x) : l.filterMap f = l.filterMap g := by
  induction l with
  | nil => rfl
  | cons x rest ih =>
    simp only [List.filterMap_cons, h x (by simp)]
    cases hx : g x <;>
      simp [hx, ih (fun y hy => h y (List.mem_cons_of_mem x hy))]

theorem groupVals_congr [DecidableEq κ] {es fs : List (κ × ν)}
    (h : es = fs) (k : κ) : groupVals es k = groupVals fs k := by rw [h]

theorem targetLower_spec (names : List String) (x k : String)
    (h : lookupLast (targetLowerPairs names) x = some k) : x = pyLowerStr k := by
  unfold lookupLast targetLowerPairs at h
  rw [groupVals_map] at h
  have hk : k ∈ (names.filter (fun n => decide (pyLowerStr n = x))).map (fun n => n) := by
    exact List.mem_of_mem_getLast? (by rw [h]; simp)
  simp only [List.mem_map, List.mem_filter, decide_eq_true_eq] at hk
  obtain ⟨n, ⟨_, hn⟩, rfl⟩ := hk
  exact hn.symm

theorem targetLower_isSome (names : List String) (x : String) :
    (lookupLast (targetLowerPairs names) x).isSome = true
      ↔ ∃ n ∈ names, pyLowerStr n = x := by
  unfold lookupLast targetLowerPairs
  rw [groupVals_map]
  rw [Option.isSome_iff_ne_none]
  constructor
  · intro h
    have : (names.filter (fun n => decide (pyLowerStr n = x))).map (fun n => n) ≠ [] := by
      intro h0
      exact h (by rw [h0]; rfl)
    rcases List.exists_mem_of_ne_nil _ this with ⟨n, hn⟩
    simp only [List.mem_map, List.mem_filter, decide_eq_true_eq] at hn
    obtain ⟨m, ⟨hm, hmx⟩, rfl⟩ := hn
    exact ⟨m, hm, hmx⟩
  · rintro ⟨n, hn, hx⟩
    intro h0
    rw [List.getLast?_eq_none_iff] at h0
    have : n ∈ (names.filter (fun n => decide (pyLowerStr n = x))).map (fun n => n) := by
      simp only [List.mem_map, List.mem_filter, decide_eq_true_eq]
      exact ⟨n, ⟨hn, hx⟩, rfl⟩
    rw [h0] at this
    cases this

theorem join_map_map {α β : Type} (f : α → β) (L : List (List α)) :
    (L.map (fun b => b.map f)).join = L.join.map f := by
  induction L with
  | nil => rfl
  | cons x rest ih =>
    show x.map f ++ (rest.map (fun b => b.map f)).join = (x ++ rest.join).map f
    rw [List.map_append, ih]

/-- Rows outside the table never reach the selector, so a query is
unchanged when the selectors agree on the table's rows. -/
theorem batchedEvents_congr (rows : List R) (Q : R → Bool) (sel sel2 : R → α)
    (eqf : α → β → Bool) (g : R → κ × ν) (bs : List (List β))
    (h : ∀ r ∈ rows, sel r = sel2 r) :
    batchedEvents rows Q sel eqf g bs = batchedEvents rows Q sel2 eqf g bs := by
  have hfm : ∀ (l : List R), (∀ r ∈ l, sel r = sel2 r) → ∀ b : List β,
      l.filterMap (fun r => if Q r && memAny eqf (sel r) b then some (g r) else none)
        = l.filterMap (fun r => if Q r && memAny eqf (sel2 r) b then some (g r) else none) := by
    intro l
    induction l with
    | nil => intro _ b; rfl
    | cons r rest ih =>
      intro hl b
      rw [List.filterMap_cons, List.filterMap_cons,
          hl r (List.mem_cons_self r rest),
          ih (fun x hx => hl x (List.mem_cons_of_mem r hx)) b]
  unfold batchedEvents
  apply congrArg
  apply List.map_congr_left
  intro b _
  exact hfm rows h b

theorem seriesQ_mem {names : List String} {v : Val} (h : seriesQ names v = true) :
    memAny sqlEq (pyLowerV v) (names.map (fun nm => Val.str (pyLowerStr nm))) = true := by
  cases v with
  | str t =>
    simp only [seriesQ, Bool.and_eq_true] at h
    rcases (targetLower_isSome names (pyLowerStr t)).mp h.2 with ⟨n, hn, hx⟩
    unfold memAny
    rw [List.any_eq_true]
    refine ⟨Val.str (pyLowerStr n), List.mem_map.mpr ⟨n, hn, rfl⟩, ?_⟩
    show decide (pyLowerStr t = pyLowerStr n) = true
    rw [hx]
    simp
  | null => simp [seriesQ] at h
  | int n => simp [seriesQ] at h
  | real q => simp [seriesQ] at h

theorem find_series_ids_parity (ds : Dataset) (names : List String)
    (hwf : wfTable 6 ds.series)
    (hfold : ∀ r ∈ ds.series, sqlLower (col r 1) = pyLowerV (col r 1))
    (k : String) :
    lookupLast (ISFDBSqlite.find_series_ids ds names) k
      = lookupLast (ISFDBDump.find_series_ids ds names) k := by
  unfold ISFDBSqlite.find_series_ids
  rw [show ISFDBSqlite.seriesTable ds = ds.series.map (padTrunc 6) from by
    unfold ISFDBSqlite.seriesTable; exact loadTable_eq (by omega) hwf]
  rw [batchedEvents_congr _ _ _ (fun r => pyLowerV (col r 1)) _ _ _ (by
    intro r hr
    rw [List.mem_map] at hr
    obtain ⟨t, ht, rfl⟩ := hr
    show sqlLower (col (padTrunc 6 t) 1) = pyLowerV (col (padTrunc 6 t) 1)
    rw [padTrunc_col (hwf.1 t ht).1 (by omega)]
    exact hfold t ht)]
  have hjoin : ((chunks900 names).map (fun b =>
      b.map (fun nm => Val.str (pyLowerStr nm)))).join
      = names.map (fun nm => Val.str (pyLowerStr nm)) := by
    rw [join_map_map, chunks900_join]
  rw [batched_lookupLast _ _ _ _ _ _
    (names.map (fun nm => Val.str (pyLowerStr nm))) hjoin k (Val.str (pyLowerStr k))
    (by
      intro r hq hk
      cases hv : col r 1 with
      | str t =>
        rw [hv] at hq hk
        simp only [seriesQ, Bool.and_eq_true] at hq
        rcases Option.isSome_iff_exists.mp hq.2 with ⟨k0, hk0⟩
        have hx := targetLower_spec names (pyLowerStr t) k0 hk0
        simp only [seriesKey, hk0, Option.getD_some] at hk
        subst hk
        show Val.str (pyLowerStr t) = Val.str (pyLowerStr k0)
        rw [hx]
      | null => rw [hv] at hq; simp [seriesQ] at hq
      | int n => rw [hv] at hq; simp [seriesQ] at hq
      | real q => rw [hv] at hq; simp [seriesQ] at hq)]
  unfold lookupLast
  apply congrArg
  apply groupVals_congr
  unfold fullEvents ISFDBDump.find_series_ids
  rw [List.filterMap_map]
  apply filterMapCongr
  intro t ht
  have harr : 6 ≤ t.length := (hwf.1 t ht).1
  have hcols : ∀ i, i < 6 → col (padTrunc 6 t) i = col t i := by
    intro i hi
    exact padTrunc_col harr hi
  simp only [Function.comp_def]
  rw [hcols 0 (by omega), hcols 1 (by omega), hcols 2 (by omega),
      hcols 3 (by omega), hcols 4 (by omega), hcols 5 (by omega)]
  by_cases hq : seriesQ names (col t 1) = true
  · rw [if_pos (by rw [hq, seriesQ_mem hq]; rfl),
        if_pos (by rw [hq]; simp [harr])]
  · have hq2 : seriesQ names (col t 1) = false := by simpa using hq
    rw [if_neg (by rw [hq2]; simp), if_neg (by rw [hq2]; simp)]

/-- Reduce a query over the loaded table to a scan of the raw rows. -/
theorem sqlite_scan_eq {κ ν : Type} (n : Nat) (hn : 1 ≤ n)
    (raw : List (List Val)) (hwf : wfTable n raw)
    (f g : List Val → Option (κ × ν))
    (hfg : ∀ t ∈ raw, n ≤ t.length → f (padTrunc n t) = g t) :
    (loadTable n raw).filterMap f = raw.filterMap g := by
  rw [loadTable_eq hn hwf, List.filterMap_map]
  apply filterMapCongr
  intro t ht
  exact hfg t ht (hwf.1 t ht).1

theorem find_parent_series_eq (ds : Dataset) (pids : List Val)
    (hwf : wfTable 6 ds.series) (hnn : Val.null ∉ pids) :
    ISFDBSqlite.find_parent_series ds pids = ISFDBDump.find_parent_series ds pids := by
  unfold ISFDBSqlite.find_parent_series ISFDBDump.find_parent_series
    ISFDBSqlite.seriesTable fullEvents
  by_cases hemp : pids.isEmpty
  · rw [if_pos hemp]
    have h0 : pids = [] := List.isEmpty_iff.mp hemp
    subst h0
    symm
    rw [show (fun t => if decide (6 ≤ t.length) && pyMem (col t 0) [] then
        some ((col t 0), [col t 0, col t 1, col t 2]) else none)
      = fun (_ : List Val) => (none : Option (Val × List Val)) from
        funext (fun t => by simp [pyMem])]
    simp
  · rw [if_neg hemp]
    apply sqlite_scan_eq 6 (by omega) _ hwf
    intro t ht harr
    dsimp only
    rw [padTrunc_col harr (show (0:Nat) < 6 by omega),
        padTrunc_col harr (show (1:Nat) < 6 by omega),
        padTrunc_col harr (show (2:Nat) < 6 by omega)]
    rw [show memAny sqlEq (col t 0) pids = pyMem (col t 0) pids from
      (pyMem_eq_sqlMem hnn).symm]
    rw [show decide (6 ≤ t.length) = true by simpa using harr]

theorem find_sub_series_eq (ds : Dataset) (pids : List Val)
    (hwf : wfTable 6 ds.series) (hnn : Val.null ∉ pids) :
    ISFDBSqlite.find_sub_series ds pids = ISFDBDump.find_sub_series ds pids := by
  unfold ISFDBSqlite.find_sub_series ISFDBDump.find_sub_series
    ISFDBSqlite.seriesTable fullEvents
  by_cases hemp : pids.isEmpty
  · rw [if_pos hemp]
    have h0 : pids = [] := List.isEmpty_iff.mp hemp
    subst h0
    symm
    rw [show (fun t => if decide (6 ≤ t.length) && pyMem (col t 2) [] then
        some ((col t 2), [col t 0, col t 1, col t 2, col t 4]) else none)
      = fun (_ : List Val) => (none : Option (Val × List Val)) from
        funext (fun t => by simp [pyMem])]
    simp
  · rw [if_neg hemp]
    apply sqlite_scan_eq 6 (by omega) _ hwf
    intro t ht harr
    dsimp only
    rw [padTrunc_col harr (show (0:Nat) < 6 by omega),
        padTrunc_col harr (show (1:Nat) < 6 by omega),
        padTrunc_col harr (show (2:Nat) < 6 by omega),
        padTrunc_col harr (show (4:Nat) < 6 by omega)]
    rw [show memAny sqlEq (col t 2) pids = pyMem (col t 2) pids from
      (pyMem_eq_sqlMem hnn).symm]
    rw [show decide (6 ≤ t.length) = true by simpa using harr]

theorem titleCond_eq (seriesIds : List Val) (t : List Val)
    (hnn : Val.null ∉ seriesIds) (hlang : col t 16 ≠ Val.null) :
    sqlTitleCond seriesIds t = dumpTitleCond seriesIds t := by
  unfold sqlTitleCond dumpTitleCond
  rw [← pyMem_eq_sqlMem hnn]
  rw [← pyMem_eq_sqlMem (show Val.null ∉ INCLUDED_TITLE_TYPES by decide)]
  have hparent : sqlEq (col t 12) (Val.int 0) = pyEq (col t 12) (Val.int 0) := by
    cases h12 : col t 12 with
    | null => rfl
    | int n => rfl
    | real q => rfl
    | str s => rfl
  have hl : sqlEq (col t 16) ENGLISH_LANG_ID
      = (decide (col t 16 = Val.null) || pyEq (col t 16) ENGLISH_LANG_ID) := by
    cases h16 : col t 16 with
    | null => exact absurd h16 (by rw [h16] at hlang; exact fun _ => hlang rfl)
    | int n => simp [sqlEq, pyEq, ENGLISH_LANG_ID]
    | real q => simp [sqlEq, pyEq, ENGLISH_LANG_ID]
    | str s => simp [sqlEq, pyEq, ENGLISH_LANG_ID]
  rw [hparent, hl]

theorem find_titles_eq (ds : Dataset) (seriesIds : List Val)
    (hwf : wfTable 23 ds.titles) (hnn : Val.null ∉ seriesIds)
    (hlang : ∀ t ∈ ds.titles, col t 16 ≠ Val.null) :
    ISFDBSqlite.find_titles_for_series ds seriesIds
      = ISFDBDump.find_titles_for_series ds seriesIds := by
  unfold ISFDBSqlite.find_titles_for_series ISFDBDump.find_titles_for_series
    ISFDBSqlite.titlesTable
  apply sqlite_scan_eq 23 (by omega) _ hwf
  intro t ht harr
  have hcols : ∀ i, i < 23 → col (padTrunc 23 t) i = col t i := by
    intro i hi
    exact padTrunc_col harr hi
  have hcond : sqlTitleCond seriesIds (padTrunc 23 t)
      = dumpTitleCond seriesIds t := by
    have h1 : sqlTitleCond seriesIds (padTrunc 23 t) = sqlTitleCond seriesIds t := by
      unfold sqlTitleCond
      rw [hcols 5 (by omega), hcols 9 (by omega), hcols 12 (by omega),
          hcols 16 (by omega), hcols 1 (by omega)]
    rw [h1]
    exact titleCond_eq seriesIds t hnn (hlang t ht)
  rw [hcond]
  have hinfo : titleInfo (padTrunc 23 t) = titleInfo t := by
    unfold titleInfo
    rw [hcols 0 (by omega), hcols 1 (by omega), hcols 5 (by omega),
        hcols 6 (by omega), hcols 7 (by omega), hcols 9 (by omega)]
  rw [hinfo, hcols 5 (by omega)]
  rw [show decide (23 ≤ t.length) = true by simpa using harr, Bool.true_and]

theorem find_authors_full_eq (ds : Dataset) (titleIds : List Val)
    (hwf : wfTable 4 ds.canonical_author) (hnn : Val.null ∉ titleIds) :
    fullEvents (ISFDBSqlite.caTable ds) (fun _ => true) (fun r => col r 1) sqlEq
        (fun r => (col r 1, col r 2)) titleIds
      = ISFDBDump.find_authors_for_titles ds titleIds := by
  unfold fullEvents ISFDBDump.find_authors_for_titles ISFDBSqlite.caTable
  apply sqlite_scan_eq 4 (by omega) _ hwf
  intro t ht harr
  dsimp only
  rw [padTrunc_col harr (show (1:Nat) < 4 by omega),
      padTrunc_col harr (show (2:Nat) < 4 by omega)]
  rw [show memAny sqlEq (col t 1) titleIds = pyMem (col t 1) titleIds from
    (pyMem_eq_sqlMem hnn).symm]
  rw [show decide (4 ≤ t.length) = true by simpa using harr]

theorem find_authors_parity (ds : Dataset) (titleIds : List Val)
    (hwf : wfTable 4 ds.canonical_author) (hnn : Val.null ∉ titleIds) (k : Val) :
    lookupLast (ISFDBSqlite.find_authors_for_titles ds titleIds) k
      = lookupLast (ISFDBDump.find_authors_for_titles ds titleIds) k := by
  unfold ISFDBSqlite.find_authors_for_titles
  rw [batched_lookupLast (ISFDBSqlite.caTable ds) (fun _ => true)
    (fun r => col r 1) sqlEq (fun r => (col r 1, col r 2))
    (chunks900 titleIds) titleIds (chunks900_join titleIds) k k
    (fun r _ hk => hk)]
  rw [find_authors_full_eq ds titleIds hwf hnn]

theorem find_authors_mem (ds : Dataset) (titleIds : List Val)
    (hwf : wfTable 4 ds.canonical_author) (hnn : Val.null ∉ titleIds)
    (x : Val × Val) :
    x ∈ ISFDBSqlite.find_authors_for_titles ds titleIds
      ↔ x ∈ ISFDBDump.find_authors_for_titles ds titleIds := by
  unfold ISFDBSqlite.find_authors_for_titles
  refine Iff.trans
    (batched_mem _ _ _ _ _ _ titleIds (chunks900_join titleIds) x) ?_
  rw [find_authors_full_eq ds titleIds hwf hnn]

theorem find_author_names_full_eq (ds : Dataset) (authorIds : List Val)
    (hwf : wfTable 16 ds.authors) (hnn : Val.null ∉ authorIds) :
    fullEvents (ISFDBSqlite.authorsTable ds) (fun _ => true) (fun r => col r 0)
        sqlEq (fun r => (col r 0, col r 1)) authorIds
      = ISFDBDump.find_author_names ds authorIds := by
  unfold fullEvents ISFDBDump.find_author_names ISFDBSqlite.authorsTable
  apply sqlite_scan_eq 16 (by omega) _ hwf
  intro t ht harr
  dsimp only
  rw [padTrunc_col harr (show (0:Nat) < 16 by omega),
      padTrunc_col harr (show (1:Nat) < 16 by omega)]
  rw [show memAny sqlEq (col t 0) authorIds = pyMem (col t 0) authorIds from
    (pyMem_eq_sqlMem hnn).symm]
  rw [show decide (2 ≤ t.length) = true by
    have := harr; simp; omega]

theorem find_author_names_parity (ds : Dataset) (authorIds : List Val)
    (hwf : wfTable 16 ds.authors) (hnn : Val.null ∉ authorIds) (k : Val) :
    lookupLast (ISFDBSqlite.find_author_names ds authorIds) k
      = lookupLast (ISFDBDump.find_author_names ds authorIds) k := by
  unfold ISFDBSqlite.find_author_names
  rw [batched_lookupLast (ISFDBSqlite.authorsTable ds) (fun _ => true)
    (fun r => col r 0) sqlEq (fun r => (col r 0, col r 1))
    (chunks900 authorIds) authorIds (chunks900_join authorIds) k k
    (fun r _ hk => hk)]
  rw [find_author_names_full_eq ds authorIds hwf hnn]

theorem pub_link_full_eq (ds : Dataset) (titleIds : List Val)
    (hwf : wfTable 4 ds.pub_content) (hnn : Val.null ∉ titleIds) :
    fullEvents (ISFDBSqlite.pcTable ds) (fun _ => true) (fun r => col r 1) sqlEq
        (fun r => (col r 1, col r 2)) titleIds
      = ISFDBDump.pub_link_events ds titleIds := by
  unfold fullEvents ISFDBDump.pub_link_events ISFDBSqlite.pcTable
  apply sqlite_scan_eq 4 (by omega) _ hwf
  intro t ht harr
  dsimp only
  rw [padTrunc_col harr (show (1:Nat) < 4 by omega),
      padTrunc_col harr (show (2:Nat) < 4 by omega)]
  rw [show memAny sqlEq (col t 1) titleIds = pyMem (col t 1) titleIds from
    (pyMem_eq_sqlMem hnn).symm]
  rw [show decide (3 ≤ t.length) = true by
    have := harr; simp; omega]

theorem pub_link_mem (ds : Dataset) (titleIds : List Val)
    (hwf : wfTable 4 ds.pub_content) (hnn : Val.null ∉ titleIds)
    (x : Val × Val) :
    x ∈ ISFDBSqlite.pub_link_events ds titleIds
      ↔ x ∈ ISFDBDump.pub_link_events ds titleIds := by
  unfold ISFDBSqlite.pub_link_events
  refine Iff.trans
    (batched_mem _ _ _ _ _ _ titleIds (chunks900_join titleIds) x) ?_
  rw [pub_link_full_eq ds titleIds hwf hnn]

-- ── Canonical set-iteration order ─────────────────────────────────────────

theorem mem_insInt (x n : Int) (l : List Int) :
    x ∈ insInt n l ↔ x = n ∨ x ∈ l := by
  induction l with
  | nil => simp [insInt]
  | cons m rest ih =>
    unfold insInt
    by_cases h1 : n < m
    · simp [h1]
    · rw [if_neg h1]
      by_cases h2 : n = m
      · subst h2
        rw [if_pos rfl]
        constructor
        · exact fun h => Or.inr h
        · rintro (h | h)
          · exact List.mem_cons.mpr (Or.inl h)
          · exact h
      · rw [if_neg h2]
        simp only [List.mem_cons, ih]
        tauto

theorem insInt_pairwise (n : Int) (l : List Int)
    (h : l.Pairwise (· < ·)) : (insInt n l).Pairwise (· < ·) := by
  induction l with
  | nil => simp [insInt]
  | cons m rest ih =>
    rw [List.pairwise_cons] at h
    unfold insInt
    by_cases h1 : n < m
    · rw [if_pos h1]
      rw [List.pairwise_cons]
      constructor
      · intro b hb
        rcases List.mem_cons.mp hb with h2 | h2
        · rw [h2]; exact h1
        · exact lt_trans h1 (h.1 b h2)
      · rw [List.pairwise_cons]
        exact h
    · rw [if_neg h1]
      by_cases h2 : n = m
      · rw [if_pos h2]
        rw [List.pairwise_cons]
        exact h
      · rw [if_neg h2]
        rw [List.pairwise_cons]
        constructor
        · intro b hb
          rcases (mem_insInt b n rest).mp hb with h3 | h3
          · rw [h3]; omega
          · exact h.1 b h3
        · exact ih h.2

theorem sortedDedup_aux_pairwise (l : List Int) (acc : List Int)
    (hacc : acc.Pairwise (· < ·)) :
    (l.foldl (fun acc n => insInt n acc) acc).Pairwise (· < ·) := by
  induction l generalizing acc with
  | nil => exact hacc
  | cons n rest ih => exact ih (insInt n acc) (insInt_pairwise n acc hacc)

theorem sortedDedup_pairwise (l : List Int) :
    (sortedDedup l).Pairwise (· < ·) :=
  sortedDedup_aux_pairwise l [] (by simp)

theorem mem_sortedDedup_aux (l acc : List Int) (x : Int) :
    x ∈ l.foldl (fun acc n => insInt n acc) acc ↔ x ∈ acc ∨ x ∈ l := by
  induction l generalizing acc with
  | nil => simp
  | cons n rest ih =>
    simp only [List.foldl_cons, ih, mem_insInt, List.mem_cons]
    tauto

theorem mem_sortedDedup (l : List Int) (x : Int) :
    x ∈ sortedDedup l ↔ x ∈ l := by
  unfold sortedDedup
  rw [mem_sortedDedup_aux]
  simp

theorem strictSorted_eq_of_mem_iff {l₁ l₂ : List Int}
    (h1 : l₁.Pairwise (· < ·)) (h2 : l₂.Pairwise (· < ·))
    (hm : ∀ x, x ∈ l₁ ↔ x ∈ l₂) : l₁ = l₂ := by
  haveI : IsAntisymm Int (· < ·) := ⟨fun a b hab hba => absurd hab (asymm hba)⟩
  apply List.eq_of_perm_of_sorted _ h1 h2
  rw [List.perm_ext_iff_of_nodup]
  · exact hm
  · show List.Pairwise (· ≠ ·) l₁
    exact h1.imp (fun hab => ne_of_lt hab)
  · show List.Pairwise (· ≠ ·) l₂
    exact h2.imp (fun hab => ne_of_lt hab)

theorem sortedDedup_congr {l₁ l₂ : List Int}
    (hm : ∀ x, x ∈ l₁ ↔ x ∈ l₂) : sortedDedup l₁ = sortedDedup l₂ := by
  apply strictSorted_eq_of_mem_iff (sortedDedup_pairwise l₁) (sortedDedup_pairwise l₂)
  intro x
  rw [mem_sortedDedup, mem_sortedDedup]
  exact hm x

theorem sortedDedupVals_congr {l₁ l₂ : List Val}
    (hm : ∀ v, v ∈ l₁ ↔ v ∈ l₂) : sortedDedupVals l₁ = sortedDedupVals l₂ := by
  unfold sortedDedupVals
  rw [sortedDedup_congr]
  intro x
  constructor
  · intro hx
    rcases List.mem_map.mp hx with ⟨v, hv, rfl⟩
    exact List.mem_map.mpr ⟨v, (hm v).mp hv, rfl⟩
  · intro hx
    rcases List.mem_map.mp hx with ⟨v, hv, rfl⟩
    exact List.mem_map.mpr ⟨v, (hm v).mpr hv, rfl⟩

theorem null_notMem_sortedDedupVals (l : List Val) :
    Val.null ∉ sortedDedupVals l := by
  unfold sortedDedupVals
  intro h
  rcases List.mem_map.mp h with ⟨n, _, hn⟩
  cases hn

theorem groupVals_mem [DecidableEq κ] (es : List (κ × ν)) (k : κ) (v : ν) :
    v ∈ groupVals es k ↔ (k, v) ∈ es := by
  unfold groupVals
  rw [List.mem_map]
  constructor
  · rintro ⟨e, he, rfl⟩
    rw [List.mem_filter] at he
    rcases e with ⟨k', v'⟩
    have hk : k' = k := by simpa using he.2
    subst hk
    exact he.1
  · intro h
    exact ⟨(k, v), List.mem_filter.mpr ⟨h, by simp⟩, rfl⟩

theorem pub_id_list_eq (ds : Dataset) (titleIds : List Val)
    (hwf : wfTable 4 ds.pub_content) (hnn : Val.null ∉ titleIds) :
    ISFDBSqlite.pub_id_list ds titleIds = ISFDBDump.pub_id_list ds titleIds := by
  unfold ISFDBSqlite.pub_id_list ISFDBDump.pub_id_list
  apply sortedDedupVals_congr
  intro v
  simp only [List.mem_map]
  constructor
  · rintro ⟨e, he, rfl⟩
    exact ⟨e, (pub_link_mem ds titleIds hwf hnn e).mp he, rfl⟩
  · rintro ⟨e, he, rfl⟩
    exact ⟨e, (pub_link_mem ds titleIds hwf hnn e).mpr he, rfl⟩

theorem pub_events_full_eq (ds : Dataset) (titleIds : List Val)
    (hwf : wfTable 15 ds.pubs) :
    fullEvents (ISFDBSqlite.pubsTable ds) (fun _ => true) (fun r => col r 0)
        sqlEq
        (fun r => (col r 0,
          [col r 0, col r 1, col r 3, col r 5, col r 6, col r 7,
            col r 8, col r 9, col r 10]))
        (ISFDBDump.pub_id_list ds titleIds)
      = ISFDBDump.pub_events ds titleIds := by
  unfold fullEvents ISFDBDump.pub_events ISFDBSqlite.pubsTable
  apply sqlite_scan_eq 15 (by omega) _ hwf
  intro t ht harr
  dsimp only
  have hcols : ∀ i, i < 15 → col (padTrunc 15 t) i = col t i := by
    intro i hi
    exact padTrunc_col harr hi
  rw [hcols 0 (by omega), hcols 1 (by omega), hcols 3 (by omega),
      hcols 5 (by omega), hcols 6 (by omega), hcols 7 (by omega),
      hcols 8 (by omega), hcols 9 (by omega), hcols 10 (by omega)]
  rw [show memAny sqlEq (col t 0) (ISFDBDump.pub_id_list ds titleIds)
      = pyMem (col t 0) (ISFDBDump.pub_id_list ds titleIds) from
    (pyMem_eq_sqlMem (null_notMem_sortedDedupVals _)).symm]
  rw [show decide (15 ≤ t.length) = true by simpa using harr]

theorem pub_events_parity (ds : Dataset) (titleIds : List Val)
    (hwfpc : wfTable 4 ds.pub_content) (hwfpubs : wfTable 15 ds.pubs)
    (hnn : Val.null ∉ titleIds) (k : Val) :
    lookupLast (ISFDBSqlite.pub_events ds titleIds) k
      = lookupLast (ISFDBDump.pub_events ds titleIds) k := by
  unfold ISFDBSqlite.pub_events
  rw [pub_id_list_eq ds titleIds hwfpc hnn]
  rw [batched_lookupLast (ISFDBSqlite.pubsTable ds) (fun _ => true)
    (fun r => col r 0) sqlEq
    (fun r => (col r 0,
      [col r 0, col r 1, col r 3, col r 5, col r 6, col r 7,
        col r 8, col r 9, col r 10]))
    (chunks900 (ISFDBDump.pub_id_list ds titleIds))
    (ISFDBDump.pub_id_list ds titleIds)
    (chunks900_join _) k k (fun r _ hk => hk)]
  rw [pub_events_full_eq ds titleIds hwfpubs]

theorem find_pubs_parity (ds : Dataset) (titleIds : List Val)
    (hwfpc : wfTable 4 ds.pub_content) (hwfpubs : wfTable 15 ds.pubs)
    (hnn : Val.null ∉ titleIds) (tid : Val) :
    ISFDBSqlite.find_pubs_for_titles ds titleIds tid
      = ISFDBDump.find_pubs_for_titles ds titleIds tid := by
  unfold ISFDBSqlite.find_pubs_for_titles ISFDBDump.find_pubs_for_titles
  dsimp only
  have h1 : sortedDedupVals (groupVals (ISFDBSqlite.pub_link_events ds titleIds) tid)
      = sortedDedupVals (groupVals (ISFDBDump.pub_link_events ds titleIds) tid) := by
    apply sortedDedupVals_congr
    intro v
    rw [groupVals_mem, groupVals_mem]
    exact pub_link_mem ds titleIds hwfpc hnn (tid, v)
  rw [h1]
  congr 1
  apply filterMapCongr
  intro pid _
  rw [pub_events_parity ds titleIds hwfpc hwfpubs hnn pid]

/-- Well-formed source data: each table's rows carry the documented column
count, an integer primary key, and ascending key order (the layout §6 of
the export guarantees). -/
def wfDataset (ds : Dataset) : Prop :=
  wfTable 6 ds.series ∧ wfTable 23 ds.titles ∧ wfTable 4 ds.canonical_author ∧
    wfTable 16 ds.authors ∧ wfTable 4 ds.pub_content ∧ wfTable 15 ds.pubs

instance (ds : Dataset) : Decidable (wfDataset ds) :=
  inferInstanceAs (Decidable (wfTable 6 ds.series ∧ wfTable 23 ds.titles ∧
    wfTable 4 ds.canonical_author ∧ wfTable 16 ds.authors ∧
    wfTable 4 ds.pub_content ∧ wfTable 15 ds.pubs))

/-- C1 (amended): for well-formed source data in which every title row has
a non-null language tag and every stored series title folds identically
under SQLite `LOWER` and Python `str.lower()` (as ASCII titles do), the
indexed-snapshot backend and the raw-scan backend return equal result
mappings for each of the seven query operations on identical inputs
(dictionaries compared as last-assignment lookup, list-valued dictionaries
and id sets event-for-event, the edition mapping pointwise); identifier
inputs contain no nulls. Without these restrictions the claim fails:
`find_titles_for_series` diverges on titles whose language is NULL, and
`find_series_ids` diverges on series titles with accented capitals, which
`LOWER` leaves uppercase while the Python-lowered parameters and the
raw-scan comparison fold them (see the counterexample). -/
theorem C1_amended_backend_parity (ds : Dataset) (names : List String)
    (pids seriesIds titleIds authorIds : List Val)
    (hwf : wfDataset ds)
    (hlang : ∀ t ∈ ds.titles, col t 16 ≠ Val.null)
    (hfold : ∀ r ∈ ds.series, sqlLower (col r 1) = pyLowerV (col r 1))
    (hp : Val.null ∉ pids) (hs : Val.null ∉ seriesIds)
    (ht : Val.null ∉ titleIds) (ha : Val.null ∉ authorIds) :
    (∀ k, lookupLast (ISFDBSqlite.find_series_ids ds names) k
      = lookupLast (ISFDBDump.find_series_ids ds names) k) ∧
    ISFDBSqlite.find_parent_series ds pids
      = ISFDBDump.find_parent_series ds pids ∧
    ISFDBSqlite.find_sub_series ds pids
      = ISFDBDump.find_sub_series ds pids ∧
    ISFDBSqlite.find_titles_for_series ds seriesIds
      = ISFDBDump.find_titles_for_series ds seriesIds ∧
    ISFDBSqlite.titles_id_set ds seriesIds
      = ISFDBDump.titles_id_set ds seriesIds ∧
    (∀ k, lookupLast (ISFDBSqlite.find_authors_for_titles ds titleIds) k
      = lookupLast (ISFDBDump.find_authors_for_titles ds titleIds) k) ∧
    (∀ v, v ∈ ISFDBSqlite.author_id_set ds titleIds
      ↔ v ∈ ISFDBDump.author_id_set ds titleIds) ∧
    (∀ k, lookupLast (ISFDBSqlite.find_author_names ds authorIds) k
      = lookupLast (ISFDBDump.find_author_names ds authorIds) k) ∧
    (∀ tid, ISFDBSqlite.find_pubs_for_titles ds titleIds tid
      = ISFDBDump.find_pubs_for_titles ds titleIds tid) := by
  obtain ⟨hwfS, hwfT, hwfCA, hwfA, hwfPC, hwfP⟩ := hwf
  have htitles := find_titles_eq ds seriesIds hwfT hs hlang
  refine ⟨fun k => find_series_ids_parity ds names hwfS hfold k,
    find_parent_series_eq ds pids hwfS hp,
    find_sub_series_eq ds pids hwfS hp,
    htitles,
    ?_,
    fun k => find_authors_parity ds titleIds hwfCA ht k,
    ?_,
    fun k => find_author_names_parity ds authorIds hwfA ha k,
    fun tid => find_pubs_parity ds titleIds hwfPC hwfP ht tid⟩
  · unfold ISFDBSqlite.titles_id_set ISFDBDump.titles_id_set
    rw [htitles]
  · intro v
    unfold ISFDBSqlite.author_id_set ISFDBDump.author_id_set
    simp only [List.mem_map]
    constructor
    · rintro ⟨e, he, rfl⟩
      exact ⟨e, (find_authors_mem ds titleIds hwfCA ht e).mp he, rfl⟩
    · rintro ⟨e, he, rfl⟩
      exact ⟨e, (find_authors_mem ds titleIds hwfCA ht e).mpr he, rfl⟩

/-- A well-formed catalog whose single (English-classified-nowhere) title
row has a NULL `title_language`: a NOVEL in series 1 with no parent. -/
def dsLangNull : Dataset :=
  { series := [[Val.int 1, Val.str "Mist", Val.null, Val.null, Val.null, Val.null]],
    titles := [[Val.int 10, Val.str "Book One", Val.null, Val.null, Val.null,
      Val.int 1, Val.null, Val.str "2008-01-01", Val.null, Val.str "NOVEL",
      Val.null, Val.null, Val.int 0, Val.null, Val.null, Val.null, Val.null,
      Val.null, Val.null, Val.null, Val.null, Val.null, Val.null]],
    canonical_author := [],
    authors := [],
    pub_content := [],
    pubs := [] }

/-- A well-formed catalog whose single series title carries an accented
capital: `LOWER('École')` is `'École'` but Python lowers it to `'école'`. -/
def dsAccent : Dataset :=
  { series := [[Val.int 2, Val.str "École", Val.null, Val.null, Val.null, Val.null]],
    titles := [], canonical_author := [], authors := [],
    pub_content := [], pubs := [] }

/-- C1 counterexample, two independent divergences. (1) On a well-formed
dataset whose title row has a NULL language, `find_titles_for_series`
returns the empty mapping on the indexed-snapshot backend (the SQL
`title_language = 17` test rejects NULL) but a non-empty one on the
raw-scan backend (its Python test admits `None`). (2) On a well-formed
dataset whose series title contains an accented capital,
`find_series_ids` misses the series on the indexed backend — SQLite's
ASCII-only `LOWER(series_title)` never equals the Python-lowered
parameter — while the raw-scan backend, which lowercases both sides with
`str.lower()`, finds it. -/
theorem C1_counterexample_backend_divergence :
    (wfDataset dsLangNull ∧
     lookupLast (ISFDBSqlite.find_titles_for_series dsLangNull [Val.int 1])
       (Val.int 1) = none ∧
     lookupLast (ISFDBDump.find_titles_for_series dsLangNull [Val.int 1])
       (Val.int 1)
       = some [Val.int 10, Val.str "Book One", Val.int 1, Val.null,
           Val.str "2008-01-01", Val.str "NOVEL"]) ∧
    (wfDataset dsAccent ∧
     lookupLast (ISFDBSqlite.find_series_ids dsAccent ["école"]) "école" = none ∧
     lookupLast (ISFDBDump.find_series_ids dsAccent ["école"]) "école"
       = some [Val.int 2, Val.str "École", Val.null, Val.null, Val.null, Val.null]) :=
  ⟨⟨by decide, by decide, by decide⟩, ⟨by decide, by decide, by decide⟩⟩

/-- A small well-formed catalog (language tags all set) for exercising the
parity theorem. -/
def dsParity : Dataset :=
  { series := [[Val.int 1, Val.str "Mist", Val.null, Val.null, Val.null, Val.null]],
    titles := [[Val.int 10, Val.str "Book One", Val.null, Val.null, Val.null,
      Val.int 1, Val.str "1", Val.str "2008-01-01", Val.null, Val.str "NOVEL",
      Val.null, Val.null, Val.int 0, Val.null, Val.null, Val.null, Val.int 17,
      Val.null, Val.null, Val.null, Val.null, Val.null, Val.null]],
    canonical_author := [[Val.int 100, Val.int 10, Val.int 7, Val.null]],
    authors := [[Val.int 7, Val.str "A. Writer", Val.null, Val.null, Val.null,
      Val.null, Val.null, Val.null, Val.null, Val.null, Val.null, Val.null,
      Val.null, Val.null, Val.null, Val.null]],
    pub_content := [[Val.int 200, Val.int 10, Val.int 300, Val.null]],
    pubs := [[Val.int 300, Val.str "Book One", Val.null, Val.str "2008-00-00",
      Val.null, Val.str "320", Val.str "hc", Val.null, Val.str "9780000000001",
      Val.null, Val.null, Val.null, Val.null, Val.null, Val.null]] }

theorem C1_amended_backend_parity_witness :
    (wfDataset dsParity ∧ (∀ t ∈ dsParity.titles, col t 16 ≠ Val.null) ∧
      (∀ r ∈ dsParity.series, sqlLower (col r 1) = pyLowerV (col r 1)) ∧
      Val.null ∉ ([] : List Val) ∧ Val.null ∉ [Val.int 1] ∧
      Val.null ∉ [Val.int 10] ∧ Val.null ∉ ([] : List Val)) ∧
    lookupLast (ISFDBSqlite.find_series_ids dsParity ["Mist"]) "Mist"
      = lookupLast (ISFDBDump.find_series_ids dsParity ["Mist"]) "Mist" ∧
    lookupLast (ISFDBSqlite.find_titles_for_series dsParity [Val.int 1])
        (Val.int 1)
      = lookupLast (ISFDBDump.find_titles_for_series dsParity [Val.int 1])
        (Val.int 1) := by
  refine ⟨⟨by decide, by decide, by decide, by decide, by decide, by decide, by decide⟩, ?_, ?_⟩
  · have h := C1_amended_backend_parity dsParity ["Mist"] [] [Val.int 1]
      [Val.int 10] [] (by decide) (by decide) (by decide) (by decide)
      (by decide) (by decide) (by decide)
    exact h.1 "Mist"
  · have h := C1_amended_backend_parity dsParity ["Mist"] [] [Val.int 1]
      [Val.int 10] [] (by decide) (by decide) (by decide) (by decide)
      (by decide) (by decide) (by decide)
    exact congrArg (fun es => lookupLast es (Val.int 1)) h.2.2.2.1

-- ══════════════════════════════════════════════════════════════════════════
-- SQL statement parameter counts (claim C8)
-- ══════════════════════════════════════════════════════════════════════════

namespace ISFDBSqlite

/-- The number of `?` placeholders bound by each statement
`find_series_ids` executes: one statement per 900-name batch. -/
def find_series_ids_paramCounts (names : List String) : List Nat :=
  (chunks900 names).map List.length

/-- `find_parent_series` builds a single statement binding one variable per
identifier (no batching). -/
def find_parent_series_paramCounts (parentIds : List Val) : List Nat :=
  if parentIds.isEmpty then [] else [parentIds.length]

/-- `find_sub_series` builds a single statement binding one variable per
identifier (no batching). -/
def find_sub_series_paramCounts (parentIds : List Val) : List Nat :=
  if parentIds.isEmpty then [] else [parentIds.length]

/-- `find_titles_for_series` builds a single statement binding one variable
per series id plus three type placeholders and the language id. -/
def find_titles_for_series_paramCounts (seriesIds : List Val) : List Nat :=
  [seriesIds.length + INCLUDED_TITLE_TYPES.length + 1]

/-- `find_authors_for_titles`: one statement per 900-id batch. -/
def find_authors_for_titles_paramCounts (titleIds : List Val) : List Nat :=
  (chunks900 titleIds).map List.length

/-- `find_author_names`: one statement per 900-id batch. -/
def find_author_names_paramCounts (authorIds : List Val) : List Nat :=
  (chunks900 authorIds).map List.length

/-- `find_pubs_for_titles`: 900-batched statements over the title ids, then
over the collected publication ids. -/
def find_pubs_for_titles_paramCounts (ds : Dataset) (titleIds : List Val) :
    List Nat :=
  (chunks900 titleIds).map List.length
    ++ (chunks900 (pub_id_list ds titleIds)).map List.length

end ISFDBSqlite

/-- C8 (amended): of the indexed backend's identifier-set queries, the four
batched operations (`find_series_ids`, `find_authors_for_titles`,
`find_author_names`, `find_pubs_for_titles`) bind at most 900 parameters
per statement, under SQLite's 999-variable ceiling, for inputs of any
size; but `find_parent_series`, `find_sub_series` and
`find_titles_for_series` issue one unbatched statement binding one
parameter per identifier (plus four constants for the titles query), so
their too-many-variables branch is reachable for large identifier sets. -/
theorem C8_amended_batching :
    (∀ (names : List String) (c : Nat),
      c ∈ ISFDBSqlite.find_series_ids_paramCounts names → c ≤ 900) ∧
    (∀ (titleIds : List Val) (c : Nat),
      c ∈ ISFDBSqlite.find_authors_for_titles_paramCounts titleIds → c ≤ 900) ∧
    (∀ (authorIds : List Val) (c : Nat),
      c ∈ ISFDBSqlite.find_author_names_paramCounts authorIds → c ≤ 900) ∧
    (∀ (ds : Dataset) (titleIds : List Val) (c : Nat),
      c ∈ ISFDBSqlite.find_pubs_for_titles_paramCounts ds titleIds → c ≤ 900) ∧
    (∀ parentIds : List Val, ¬parentIds.isEmpty →
      ISFDBSqlite.find_parent_series_paramCounts parentIds = [parentIds.length]) ∧
    (∀ parentIds : List Val, ¬parentIds.isEmpty →
      ISFDBSqlite.find_sub_series_paramCounts parentIds = [parentIds.length]) ∧
    (∀ seriesIds : List Val,
      ISFDBSqlite.find_titles_for_series_paramCounts seriesIds
        = [seriesIds.length + 4]) := by
  refine ⟨?_, ?_, ?_, ?_, ?_, ?_, ?_⟩
  · intro names c hc
    rcases List.mem_map.mp hc with ⟨b, hb, rfl⟩
    exact chunks900_length_le names b hb
  · intro titleIds c hc
    rcases List.mem_map.mp hc with ⟨b, hb, rfl⟩
    exact chunks900_length_le titleIds b hb
  · intro authorIds c hc
    rcases List.mem_map.mp hc with ⟨b, hb, rfl⟩
    exact chunks900_length_le authorIds b hb
  · intro ds titleIds c hc
    rcases List.mem_append.mp hc with h | h
    · rcases List.mem_map.mp h with ⟨b, hb, rfl⟩
      exact chunks900_length_le titleIds b hb
    · rcases List.mem_map.mp h with ⟨b, hb, rfl⟩
      exact chunks900_length_le _ b hb
  · intro parentIds hne
    unfold ISFDBSqlite.find_parent_series_paramCounts
    rw [if_neg (by simpa using hne)]
  · intro parentIds hne
    unfold ISFDBSqlite.find_sub_series_paramCounts
    rw [if_neg (by simpa using hne)]
  · intro seriesIds
    rfl

/-- C8 counterexample: a 1000-identifier input makes `find_parent_series`
build a single statement binding 1000 parameters, above SQLite's
999-variable ceiling — so the error branch is reachable and the claim that
every identifier-set query stays under the ceiling is false. -/
theorem C8_counterexample_unbatched :
    ISFDBSqlite.find_parent_series_paramCounts
        ((List.range 1000).map (fun n => Val.int (Int.ofNat n)))
      = [1000] ∧ 999 < 1000 := by
  constructor
  · rfl
  · decide

theorem C8_amended_batching_witness :
    ((900 : Nat) ∈ ISFDBSqlite.find_authors_for_titles_paramCounts
        ((List.range 1000).map (fun n => Val.int (Int.ofNat n))) → (900 : Nat) ≤ 900) ∧
    (900 : Nat) ∈ ISFDBSqlite.find_authors_for_titles_paramCounts
        ((List.range 1000).map (fun n => Val.int (Int.ofNat n))) :=
  ⟨C8_amended_batching.2.1 ((List.range 1000).map (fun n => Val.int (Int.ofNat n))) 900,
    by decide⟩

-- ══════════════════════════════════════════════════════════════════════════
-- Parser claims (C2, C9)
-- ══════════════════════════════════════════════════════════════════════════

theorem scanTuplesFuel_length :
    ∀ (fuel : Nat) (data : List Char) (ts : List (List Val)),
      scanTuplesFuel fuel data = some ts → ts.length ≤ countClose data := by
  intro fuel
  induction fuel with
  | zero => intro data ts h; cases h
  | succ n ih =>
    intro data ts h
    match data with
    | [] =>
      have : ts = [] := by
        have h2 : some ([] : List (List Val)) = some ts := h
        injection h2 with h3
        exact h3.symm
      rw [this]
      simp
    | c :: cs =>
      rw [scanTuplesFuel] at h
      by_cases hc : c = '('
      · rw [if_pos hc] at h
        match hsi : scanInner cs [] [] false false with
        | (some tup, rest) =>
          rw [hsi] at h
          dsimp only at h
          match hrec : scanTuplesFuel n rest with
          | some ts2 =>
            rw [hrec] at h
            dsimp only [Option.map] at h
            injection h with h2
            subst h2
            have hb1 := ih rest ts2 hrec
            have hb2 := scanInner_countClose hsi
            have hb3 : countClose cs ≤ countClose (c :: cs) := by
              rw [countClose_cons]
              exact Nat.le_add_right _ _
            simp only [List.length_cons]
            omega
          | none => rw [hrec] at h; cases h
        | (none, rest) =>
          rw [hsi] at h
          dsimp only at h
          have : ts = [] := by injection h with h2; exact h2.symm
          rw [this]
          simp
      · rw [if_neg hc] at h
        have hb3 : countClose cs ≤ countClose (c :: cs) := by
          rw [countClose_cons]
          exact Nat.le_add_right _ _
        exact le_trans (ih cs ts h) hb3

theorem countClose_sublist {l₁ l₂ : List Char} (h : l₁.Sublist l₂) :
    countClose l₁ ≤ countClose l₂ :=
  List.Sublist.countP_le _ h

theorem rstripWs_sublist (cs : List Char) : (rstripWs cs).Sublist cs := by
  unfold rstripWs
  have h1 : (cs.reverse.dropWhile Char.isWhitespace).Sublist cs.reverse :=
    List.dropWhile_sublist _
  have h2 := List.Sublist.reverse h1
  simpa using h2

theorem rstripSemi_sublist (cs : List Char) : (rstripSemi cs).Sublist cs := by
  unfold rstripSemi
  have h1 : (cs.reverse.dropWhile (· = ';')).Sublist cs.reverse :=
    List.dropWhile_sublist _
  have h2 := List.Sublist.reverse h1
  simpa using h2

theorem findValuesTail_sublist :
    ∀ (cs t : List Char), findValuesTail cs = some t → t.Sublist cs := by
  intro cs
  induction cs with
  | nil => intro t h; cases h
  | cons c rest ih =>
    intro t h
    rw [findValuesTail] at h
    by_cases hs : startsCI "values".data (c :: rest) = true
    · rw [if_pos hs] at h
      match hd : (c :: rest).drop 6 with
      | [] =>
        rw [hd] at h
        dsimp only at h
        exact (ih t h).trans (List.sublist_cons_self c rest)
      | d :: ds =>
        rw [hd] at h
        dsimp only at h
        by_cases hw : d.isWhitespace = true
        · rw [if_pos hw] at h
          injection h with h2
          subst h2
          have h3 : ((d :: ds).dropWhile Char.isWhitespace).Sublist (d :: ds) :=
            List.dropWhile_sublist _
          have h4 : (d :: ds).Sublist (c :: rest) := by
            rw [← hd]
            exact List.drop_sublist 6 (c :: rest)
          exact h3.trans h4
        · rw [if_neg hw] at h
          exact (ih t h).trans (List.sublist_cons_self c rest)
    · rw [if_neg hs] at h
      exact (ih t h).trans (List.sublist_cons_self c rest)

/-- C9: `parse_mysql_tuples` terminates on every input and returns the
row-tuples completed so far, never raising: the scanner's explicit fuel
never runs out; every returned tuple was closed by a parenthesis (their
number is bounded by the input's closing parentheses); and malformed
inputs (unbalanced parentheses, unterminated strings, missing `VALUES`)
yield best-effort partial results rather than failures. -/
theorem C9_parser_total_best_effort :
    (∀ (fuel : Nat) (data : List Char), data.length < fuel →
      (scanTuplesFuel fuel data).isSome = true) ∧
    (∀ line : String,
      (parse_mysql_tuples line).length ≤ countClose line.data) ∧
    parse_mysql_tuples "VALUES (1,2),(3" = [[Val.int 1, Val.int 2]] ∧
    parse_mysql_tuples "VALUES (1,'abc" = [] ∧
    parse_mysql_tuples "no values here" = [] := by
  refine ⟨scanTuplesFuel_ok, ?_, by decide, by decide, by decide⟩
  intro line
  unfold parse_mysql_tuples
  match hf : findValuesTail line.data with
  | none => simp
  | some tail =>
    have hsub : (rstripWs (rstripSemi (rstripWs tail))).Sublist line.data :=
      ((rstripWs_sublist _).trans ((rstripSemi_sublist _).trans
        (rstripWs_sublist tail))).trans (findValuesTail_sublist line.data tail hf)
    have hcount := countClose_sublist hsub
    match hscan : scanTuplesFuel ((rstripWs (rstripSemi (rstripWs tail))).length + 1)
        (rstripWs (rstripSemi (rstripWs tail))) with
    | some ts =>
      have := scanTuplesFuel_length _ _ _ hscan
      simp only [hscan, Option.getD_some]
      omega
    | none =>
      simp only [hscan, Option.getD_none]
      simp

theorem C9_parser_total_best_effort_witness :
    ([] : List Char).length < 1 ∧
    (scanTuplesFuel 1 []).isSome = true ∧
    (parse_mysql_tuples "VALUES (7),(8),(9").length
      ≤ countClose "VALUES (7),(8),(9".data :=
  ⟨by decide, C9_parser_total_best_effort.1 1 [] (by decide),
    C9_parser_total_best_effort.2.1 "VALUES (7),(8),(9"⟩

/-- C2 counterexample: the field `'a\\nb'` (escaped backslash followed by a
literal `n`) must decode, per the claim, to `a`, one backslash, `n`, `b`;
but the sequential replacement chain first rewrites `\\` to `\` and then
rewrites the resulting `\n` to a newline, so the parser returns
`a`,newline,`b` instead. -/
theorem C2_counterexample_double_backslash :
    parse_mysql_tuples "INSERT INTO `t` VALUES ('a\\\\nb');"
      = [[Val.str "a\nb"]] ∧
    claimEscapeDecode ('a' :: '\\' :: '\\' :: 'n' :: 'b' :: [])
      = ('a' :: '\\' :: 'n' :: 'b' :: []) ∧
    Val.str "a\nb" ≠ Val.str ⟨'a' :: '\\' :: 'n' :: 'b' :: []⟩ :=
  ⟨by decide, by decide, by decide⟩

/-- C2 (amended): quoted fields are decoded by the sequential global
replacements `\'→'`, then `\\→\`, then `\n`, `\r`, `\t` to the control
characters — which coincides with the claim's per-escape left-to-right
decoding on every field with no two adjacent backslashes (a backslash
produced by `\\` that is followed by `n`, `r` or `t` is further rewritten
to a control character, which is where the two differ); `NULL` parses to
the null value, bare numerics to integer or float by presence of a decimal
point, and the claim's example line parses to the row
`[1, "O'Brien", None, 2.5]`. -/
theorem C2_amended_value_decoding :
    (∀ cs : List Char, hasAdjBackslash cs = false →
      unescapeChain cs = claimEscapeDecode cs) ∧
    parse_mysql_tuples "INSERT INTO `t` VALUES (1,'O\\'Brien',NULL,2.5);"
      = [[Val.int 1, Val.str "O'Brien", Val.null, Val.real (mkRat 5 2)]] ∧
    parse_mysql_value "NULL" = Val.null ∧
    parse_mysql_value "42" = Val.int 42 ∧
    parse_mysql_value "2.5" = Val.real (mkRat 5 2) :=
  ⟨unescapeChain_eq_claim, by decide, by decide, by decide, by decide⟩

theorem C2_amended_value_decoding_witness :
    hasAdjBackslash ('O' :: '\\' :: '\'' :: 'B' :: []) = false ∧
    unescapeChain ('O' :: '\\' :: '\'' :: 'B' :: [])
      = claimEscapeDecode ('O' :: '\\' :: '\'' :: 'B' :: []) :=
  ⟨by decide, C2_amended_value_decoding.1 ('O' :: '\\' :: '\'' :: 'B' :: [])
    (by decide)⟩

-- ══════════════════════════════════════════════════════════════════════════
-- Reconciliation/import engine (`import_to_nachoseries`, `run_bulk_import`)
-- ══════════════════════════════════════════════════════════════════════════

/-- A resolved book as assembled in step 7 of `run_import`. -/
structure Book where
  title : Val
  position : Val
  author : Val
  year : Option Int
  isbn : Val
  cover_url : Val
  pages : Val
  isfdb_title_id : Val
  deriving DecidableEq, Repr

/-- The parent annotation of an entry (only `series_id` and `series_title`
are consumed by the engine). -/
structure ParentInfo where
  series_id : Val
  series_title : Val
  deriving DecidableEq, Repr

/-- One `series_data` entry fed to `import_to_nachoseries`. -/
structure Entry where
  series_id : Val
  series_title : Val
  books : List Book
  parent_info : Option ParentInfo
  deriving DecidableEq, Repr

/-- A destination `series` row (all columns the engine touches). -/
structure SeriesRow where
  id : Val
  name : Val
  name_normalized : Val
  author : Val
  author_normalized : Val
  total_books : Val
  year_start : Val
  year_end : Val
  confidence : Val
  verified : Val
  isfdb_id : Val
  genre : Val
  created_at : Val
  updated_at : Val
  parent_series_id : Val
  deriving DecidableEq, Repr

/-- A destination `series_book` row. -/
structure BookRow where
  id : Val
  series_id : Val
  position : Val
  title : Val
  title_normalized : Val
  author : Val
  year_published : Val
  isbn : Val
  confidence : Val
  created_at : Val
  updated_at : Val
  deriving DecidableEq, Repr

/-- A `source_data` provenance row (the JSON payload is modelled as the
entry it serialises). -/
structure SourceRow where
  id : Val
  series_id : Val
  source : Val
  raw_data : Entry
  book_count : Val
  fetched_at : Val
  deriving DecidableEq, Repr

structure NachoDB where
  series : List SeriesRow
  books : List BookRow
  sources : List SourceRow
  deriving DecidableEq, Repr

/-- One executed SQL statement against the destination store. Statements
guarded by `if not dry_run` are only recorded when actually executed. -/
inductive Event where
  | readSeriesByKey (isfdbId nameNorm : Val)
  | readSeriesByIsfdb (isfdbId : Val)
  | readSeriesByNorm (nameNorm : Val)
  | insertSeries (row : SeriesRow)
  | updateIsfdb (id newIsfdb : Val)
  | updateParent (id newParent : Val)
  | insertBook (row : BookRow)
  | insertSource (row : SourceRow)
  | commit
  deriving DecidableEq, Repr

/-- INSERT, UPDATE or COMMIT (everything preview mode must not issue). -/
def Event.isWriteOrCommit : Event → Bool
  | .readSeriesByKey _ _ => false
  | .readSeriesByIsfdb _ => false
  | .readSeriesByNorm _ => false
  | _ => true

/-- `normalize` applied to a scalar (a falsy value yields the empty
string, as `normalize` returns `''` for falsy input). -/
def normalizeVal : Val → String
  | .str s => normalizeText s
  | _ => ""

/-- `SELECT … FROM series WHERE isfdb_id = ? OR name_normalized = ?`
followed by `fetchone()`: the first row in table order matching either
key. -/
def findByIsfdbOrNorm (rows : List SeriesRow) (isfdbId nameNorm : Val) :
    Option SeriesRow :=
  rows.find? (fun r => sqlEq r.isfdb_id isfdbId || sqlEq r.name_normalized nameNorm)

/-- `SELECT … WHERE isfdb_id = ?` with `fetchone()`. -/
def findByIsfdb (rows : List SeriesRow) (isfdbId : Val) : Option SeriesRow :=
  rows.find? (fun r => sqlEq r.isfdb_id isfdbId)

/-- `SELECT … WHERE name_normalized = ?` with `fetchone()`. -/
def findByNorm (rows : List SeriesRow) (nameNorm : Val) : Option SeriesRow :=
  rows.find? (fun r => sqlEq r.name_normalized nameNorm)

/-- `UPDATE series SET … WHERE id = ?`. -/
def updateSeries (rows : List SeriesRow) (target : Val)
    (f : SeriesRow → SeriesRow) : List SeriesRow :=
  rows.map (fun r => if sqlEq r.id target then f r else r)

/-- Count occurrences of each truthy book author, in first-seen order. -/
def bumpCount (a : Val) : List (Val × Nat) → List (Val × Nat)
  | [] => [(a, 1)]
  | (k, c) :: rest =>
    if k = a then (k, c + 1) :: rest else (k, c) :: bumpCount a rest

def authorCounts (books : List Book) : List (Val × Nat) :=
  books.foldl (fun acc b => if b.author.truthy then bumpCount b.author acc else acc) []

/-- `max(author_counts, key=author_counts.get)`: the first key attaining
the maximal count, or `None` when no book has an author. -/
def primary_author (books : List Book) : Val :=
  match authorCounts books with
  | [] => Val.null
  | first :: rest =>
    (rest.foldl (fun best kc => if kc.2 > best.2 then kc else best) first).1

/-- The in-flight state of one reconciliation run: the destination store,
the statement trace, the run-scoped parent-stub cache, and the next unused
uuid index. -/
structure ImpState where
  db : NachoDB
  trace : List Event
  stubCache : List (String × Val)
  uuidIdx : Nat
  deriving Repr

/-- `resolve_parent` from `import_to_nachoseries` (closure over the run
state, the dry flag, genre, timestamp, uuid supply and the processing
entry's `primary_author`): return the nachoseries id of the entry's
parent, consulting the stub cache, then `isfdb_id`, then
`name_normalized` (backfilling a missing `isfdb_id` there), else
inserting a 0.9-confidence stub carrying the child's primary author. -/
def resolve_parent (dry : Bool) (genre now : Val) (uuids : Nat → String)
    (primaryAuthor : Val) (entry : Entry) (st : ImpState) :
    Option Val × ImpState :=
  match entry.parent_info with
  | none => (none, st)
  | some parent =>
    let pIsfdb := valToStr parent.series_id
    match lookupLast st.stubCache pIsfdb with
    | some cached => (some cached, st)
    | none =>
      let st1 := { st with trace := st.trace ++ [Event.readSeriesByIsfdb (Val.str pIsfdb)] }
      match findByIsfdb st1.db.series (Val.str pIsfdb) with
      | some row =>
        (some row.id, { st1 with stubCache := st1.stubCache ++ [(pIsfdb, row.id)] })
      | none =>
        let pnorm := normalizeVal parent.series_title
        let st2 := { st1 with trace := st1.trace ++ [Event.readSeriesByNorm (Val.str pnorm)] }
        match findByNorm st2.db.series (Val.str pnorm) with
        | some row =>
          let st3 := { st2 with stubCache := st2.stubCache ++ [(pIsfdb, row.id)] }
          if !row.isfdb_id.truthy && !dry then
            (some row.id,
             { st3 with
               db := { st3.db with
                       series := updateSeries st3.db.series row.id
                         (fun r => { r with isfdb_id := .str pIsfdb, updated_at := now }) },
               trace := st3.trace ++ [Event.updateIsfdb row.id (Val.str pIsfdb)] })
          else (some row.id, st3)
        | none =>
          let newId : Val := .str (uuids st2.uuidIdx)
          let st3 := { st2 with
                       stubCache := st2.stubCache ++ [(pIsfdb, newId)],
                       uuidIdx := st2.uuidIdx + 1 }
          let stub : SeriesRow :=
            { id := newId, name := parent.series_title, name_normalized := .str pnorm,
              author := primaryAuthor,
              author_normalized :=
                if primaryAuthor.truthy then .str (normalizeVal primaryAuthor) else .null,
              total_books := .int 0, year_start := .null, year_end := .null,
              confidence := .real (mkRat 9 10), verified := .int 0,
              isfdb_id := .str pIsfdb, genre := genre,
              created_at := now, updated_at := now, parent_series_id := .null }
          if !dry then
            (some newId,
             { st3 with
               db := { st3.db with series := st3.db.series ++ [stub] },
               trace := st3.trace ++ [Event.insertSeries stub] })
          else (some newId, st3)

/-- The years of an entry's books that are present and truthy. -/
def truthyYears (books : List Book) : List Int :=
  books.filterMap (fun b => match b.year with
    | some y => if y ≠ 0 then some y else none
    | none => none)

/-- The `series_book` row inserted for one book of a new series. -/
def mkBookRow (bookId seriesNsId now : Val) (b : Book) : BookRow :=
  { id := bookId, series_id := seriesNsId, position := b.position,
    title := b.title, title_normalized := .str (normalizeVal b.title),
    author := b.author, year_published := b.year.elim Val.null Val.int,
    isbn := b.isbn, confidence := .real (mkRat 19 20),
    created_at := now, updated_at := now }

/-- Running totals printed at the end of `import_to_nachoseries`. -/
structure ImportStats where
  series_inserted : Nat
  series_updated : Nat
  books_inserted : Nat
  source_inserted : Nat
  deriving DecidableEq, Repr

/-- Process one entry of the `import_to_nachoseries` loop. -/
def processEntry (dry : Bool) (genre now : Val) (uuids : Nat → String)
    (acc : ImpState × ImportStats) (entry : Entry) : ImpState × ImportStats :=
  let st := acc.1
  let stats := acc.2
  let seriesName := entry.series_title
  let isfdbId := valToStr entry.series_id
  let books := entry.books
  let primaryAuthor := primary_author books
  let nameNorm := normalizeVal seriesName
  let st := { st with trace := st.trace ++ [Event.readSeriesByKey (Val.str isfdbId) (Val.str nameNorm)] }
  match findByIsfdbOrNorm st.db.series (Val.str isfdbId) (Val.str nameNorm) with
  | some existing =>
    let did1 := !existing.isfdb_id.truthy
    let st1 :=
      if did1 && !dry then
        { st with
          db := { st.db with
                  series := updateSeries st.db.series existing.id
                    (fun r => { r with isfdb_id := .str isfdbId, updated_at := now }) },
          trace := st.trace ++ [Event.updateIsfdb existing.id (Val.str isfdbId)] }
      else st
    let res := resolve_parent dry genre now uuids primaryAuthor entry st1
    let st2 := res.2
    let did2 := res.1.isSome &&
      (res.1.getD .null).truthy && !existing.parent_series_id.truthy
    let st3 :=
      if did2 && !dry then
        { st2 with
          db := { st2.db with
                  series := updateSeries st2.db.series existing.id
                    (fun r => { r with parent_series_id := res.1.getD .null, updated_at := now }) },
          trace := st2.trace ++ [Event.updateParent existing.id (res.1.getD .null)] }
      else st2
    (st3, if did1 || did2 then { stats with series_updated := stats.series_updated + 1 }
          else stats)
  | none =>
    let res := resolve_parent dry genre now uuids primaryAuthor entry st
    let parentNs := res.1
    let st1 := res.2
    let years := truthyYears books
    let yearStart := match years.minimum? with | some y => Val.int y | none => .null
    let yearEnd := match years.maximum? with | some y => Val.int y | none => .null
    let seriesId : Val := .str (uuids st1.uuidIdx)
    let st2 := { st1 with uuidIdx := st1.uuidIdx + 1 }
    let newRow : SeriesRow :=
      { id := seriesId, name := seriesName, name_normalized := .str nameNorm,
        author := primaryAuthor,
        author_normalized :=
          if primaryAuthor.truthy then .str (normalizeVal primaryAuthor) else .null,
        total_books := .int books.length, year_start := yearStart, year_end := yearEnd,
        confidence := .real (mkRat 19 20), verified := .int 0,
        isfdb_id := .str isfdbId, genre := genre, created_at := now, updated_at := now,
        parent_series_id := parentNs.getD .null }
    let st3 :=
      if !dry then
        { st2 with
          db := { st2.db with series := st2.db.series ++ [newRow] },
          trace := st2.trace ++ [Event.insertSeries newRow] }
      else st2
    let st4 := books.foldl (fun s b =>
        let bookId : Val := .str (uuids s.uuidIdx)
        let s1 := { s with uuidIdx := s.uuidIdx + 1 }
        if !dry then
          let row := mkBookRow bookId seriesId now b
          { s1 with
            db := { s1.db with books := s1.db.books ++ [row] },
            trace := s1.trace ++ [Event.insertBook row] }
        else s1) st3
    let st5 :=
      if !dry then
        let srcId : Val := .str (uuids st4.uuidIdx)
        let srcRow : SourceRow :=
          { id := srcId, series_id := seriesId, source := .str "isfdb-dump",
            raw_data := entry, book_count := .int books.length, fetched_at := now }
        { st4 with
          uuidIdx := st4.uuidIdx + 1,
          db := { st4.db with sources := st4.db.sources ++ [srcRow] },
          trace := st4.trace ++ [Event.insertSource srcRow] }
      else st4
    (st5, { stats with
            series_inserted := stats.series_inserted + 1,
            books_inserted := stats.books_inserted + books.length,
            source_inserted := stats.source_inserted + 1 })

/-- `import_to_nachoseries`: fold the entry loop over an initial store
and commit unless previewing. -/
def import_to_nachoseries (entries : List Entry) (dry : Bool) (genre now : Val)
    (uuids : Nat → String) (db0 : NachoDB) : ImpState × ImportStats :=
  let init : ImpState := { db := db0, trace := [], stubCache := [], uuidIdx := 0 }
  let res := entries.foldl (processEntry dry genre now uuids) (init, ⟨0, 0, 0, 0⟩)
  if !dry then ({ res.1 with trace := res.1.trace ++ [Event.commit] }, res.2)
  else res

/-- Counters printed at the end of `run_bulk_import`. -/
structure BulkStats where
  updated_isfdb_id : Nat
  updated_parent : Nat
  already_up_to_date : Nat
  parent_stubs_created : Nat
  deriving DecidableEq, Repr

/-- The inline parent-resolution block of `run_bulk_import`: consult the
run cache, then `isfdb_id`, then `name_normalized` (backfilling a missing
`isfdb_id` there), else insert an author-less 0.5-confidence stub; the
flag reports whether a stub was created. -/
def bulkResolveParent (dry : Bool) (genre now : Val) (uuids : Nat → String)
    (parent : List Val) (st1 : ImpState) : Val × ImpState × Bool :=
  let pIsfdb := valToStr (col parent 0)
  let cached := (lookupLast st1.stubCache pIsfdb).getD Val.null
  if cached.truthy then (cached, st1, false)
  else
    let st2 := { st1 with trace := st1.trace ++ [Event.readSeriesByIsfdb (Val.str pIsfdb)] }
    match findByIsfdb st2.db.series (Val.str pIsfdb) with
    | some prow =>
      (prow.id, { st2 with stubCache := st2.stubCache ++ [(pIsfdb, prow.id)] }, false)
    | none =>
      let pnorm := normalizeVal (col parent 1)
      let st3 := { st2 with trace := st2.trace ++ [Event.readSeriesByNorm (Val.str pnorm)] }
      match findByNorm st3.db.series (Val.str pnorm) with
      | some prow =>
        let st4 :=
          if !prow.isfdb_id.truthy && !dry then
            { st3 with
              db := { st3.db with
                      series := updateSeries st3.db.series prow.id
                        (fun r => { r with isfdb_id := Val.str pIsfdb, updated_at := now }) },
              trace := st3.trace ++ [Event.updateIsfdb prow.id (Val.str pIsfdb)] }
          else st3
        (prow.id, { st4 with stubCache := st4.stubCache ++ [(pIsfdb, prow.id)] }, false)
      | none =>
        let newId : Val := .str (uuids st3.uuidIdx)
        let stub : SeriesRow :=
          { id := newId, name := col parent 1, name_normalized := .str pnorm,
            author := .null, author_normalized := .null,
            total_books := .int 0, year_start := .null, year_end := .null,
            confidence := .real (mkRat 1 2), verified := .int 0,
            isfdb_id := .str pIsfdb, genre := genre,
            created_at := now, updated_at := now, parent_series_id := .null }
        let st4 := { st3 with uuidIdx := st3.uuidIdx + 1 }
        let st5 :=
          if !dry then
            { st4 with
              db := { st4.db with series := st4.db.series ++ [stub] },
              trace := st4.trace ++ [Event.insertSeries stub] }
          else st4
        (newId, { st5 with stubCache := st5.stubCache ++ [(pIsfdb, newId)] }, true)

/-- Process one matched series of the `run_bulk_import` destination loop:
look the series up by normalized name only, backfill a missing
`isfdb_id`, and, when the source row names a resolvable parent and the
destination row has none, resolve or stub the parent (bulk stubs carry
confidence 0.5 and no author) and set the link. -/
def processBulkItem (dry : Bool) (genre now : Val) (uuids : Nat → String)
    (parents : List (Val × List Val)) (acc : ImpState × BulkStats)
    (item : String × List Val) : ImpState × BulkStats :=
  let st := acc.1
  let stats := acc.2
  let s := item.2
  let isfdbId := valToStr (col s 0)
  let nameNorm := normalizeText item.1
  let st := { st with trace := st.trace ++ [Event.readSeriesByNorm (Val.str nameNorm)] }
  match findByNorm st.db.series (Val.str nameNorm) with
  | none => (st, stats)
  | some existing =>
    let did1 := !existing.isfdb_id.truthy
    let st1 :=
      if did1 && !dry then
        { st with
          db := { st.db with
                  series := updateSeries st.db.series existing.id
                    (fun r => { r with isfdb_id := Val.str isfdbId, updated_at := now }) },
          trace := st.trace ++ [Event.updateIsfdb existing.id (Val.str isfdbId)] }
      else st
    let stats1 :=
      if did1 then { stats with updated_isfdb_id := stats.updated_isfdb_id + 1 } else stats
    let sparent := col s 2
    if sparent.truthy && !existing.parent_series_id.truthy
        && (lookupLast parents sparent).isSome then
      let parent := (lookupLast parents sparent).getD []
      let res := bulkResolveParent dry genre now uuids parent st1
      let parentNs := res.1
      let stB := res.2.1
      let statsB :=
        if res.2.2 then
          { stats1 with parent_stubs_created := stats1.parent_stubs_created + 1 }
        else stats1
      if parentNs.truthy && !existing.parent_series_id.truthy then
        let stC :=
          if !dry then
            { stB with
              db := { stB.db with
                      series := updateSeries stB.db.series existing.id
                        (fun r => { r with parent_series_id := parentNs, updated_at := now }) },
              trace := stB.trace ++ [Event.updateParent existing.id parentNs] }
          else stB
        (stC, { statsB with updated_parent := statsB.updated_parent + 1 })
      else
        (stB, if did1 then statsB
              else { statsB with already_up_to_date := statsB.already_up_to_date + 1 })
    else
      (st1, if did1 then stats1
            else { stats1 with already_up_to_date := stats1.already_up_to_date + 1 })

/-- Step 3 of `run_bulk_import` (the destination-store pass over the
matched series, followed by the guarded commit). -/
def run_bulk_import (found : List (String × List Val))
    (parents : List (Val × List Val)) (dry : Bool) (genre now : Val)
    (uuids : Nat → String) (db0 : NachoDB) : ImpState × BulkStats :=
  let init : ImpState := { db := db0, trace := [], stubCache := [], uuidIdx := 0 }
  let res := found.foldl (processBulkItem dry genre now uuids parents) (init, ⟨0, 0, 0, 0⟩)
  if !dry then ({ res.1 with trace := res.1.trace ++ [Event.commit] }, res.2)
  else res

-- Dry-run behaviour ---------------------------------------------------------

theorem resolve_parent_dry (genre now : Val) (uuids : Nat → String)
    (pa : Val) (e : Entry) (st : ImpState) :
    (resolve_parent true genre now uuids pa e st).2.db = st.db ∧
    ∃ ext, (resolve_parent true genre now uuids pa e st).2.trace = st.trace ++ ext ∧
      ext.all (fun v => !v.isWriteOrCommit) = true := by
  unfold resolve_parent
  cases hpi : e.parent_info with
  | none => exact ⟨rfl, [], by simp⟩
  | some parent =>
    dsimp only
    cases hc : lookupLast st.stubCache (valToStr parent.series_id) with
    | some cached => exact ⟨rfl, [], by simp⟩
    | none =>
      dsimp only
      cases hf : findByIsfdb st.db.series (Val.str (valToStr parent.series_id)) with
      | some row =>
        exact ⟨rfl, _, rfl, by simp [Event.isWriteOrCommit]⟩
      | none =>
        dsimp only
        cases hn : findByNorm st.db.series (Val.str (normalizeVal parent.series_title)) with
        | some row =>
          simp only [Bool.not_true, Bool.and_false, Bool.false_eq_true, if_false]
          exact ⟨trivial, ⟨[Event.readSeriesByIsfdb (Val.str (valToStr parent.series_id)),
            Event.readSeriesByNorm (Val.str (normalizeVal parent.series_title))],
            by simp, by simp [Event.isWriteOrCommit]⟩⟩
        | none =>
          simp only [Bool.not_true, Bool.false_eq_true, if_false]
          exact ⟨trivial, ⟨[Event.readSeriesByIsfdb (Val.str (valToStr parent.series_id)),
            Event.readSeriesByNorm (Val.str (normalizeVal parent.series_title))],
            by simp, by simp [Event.isWriteOrCommit]⟩⟩

theorem foldl_db_trace {α : Type} (f : ImpState → α → ImpState)
    (hf : ∀ s a, (f s a).db = s.db ∧ (f s a).trace = s.trace)
    (xs : List α) (s : ImpState) :
    (xs.foldl f s).db = s.db ∧ (xs.foldl f s).trace = s.trace := by
  induction xs generalizing s with
  | nil => exact ⟨rfl, rfl⟩
  | cons x xs ih =>
    rw [List.foldl_cons]
    exact ⟨((ih (f s x)).1).trans (hf s x).1, ((ih (f s x)).2).trans (hf s x).2⟩

theorem processEntry_dry (genre now : Val) (uuids : Nat → String)
    (st : ImpState) (stats : ImportStats) (e : Entry) :
    (processEntry true genre now uuids (st, stats) e).1.db = st.db ∧
    ∃ ext, (processEntry true genre now uuids (st, stats) e).1.trace = st.trace ++ ext ∧
      (ext.all fun v => !v.isWriteOrCommit) = true ∧
      Event.readSeriesByKey (Val.str (valToStr e.series_id))
        (Val.str (normalizeVal e.series_title)) ∈ ext := by
  unfold processEntry
  simp only [Bool.not_true, Bool.and_false, Bool.false_eq_true, if_false]
  cases hf : findByIsfdbOrNorm st.db.series (Val.str (valToStr e.series_id))
      (Val.str (normalizeVal e.series_title)) with
  | some existing =>
    obtain ⟨hdb, ext, htr, hall⟩ := resolve_parent_dry genre now uuids
      (primary_author e.books) e
      { st with trace := st.trace ++ [Event.readSeriesByKey (Val.str (valToStr e.series_id))
          (Val.str (normalizeVal e.series_title))] }
    refine ⟨hdb, Event.readSeriesByKey (Val.str (valToStr e.series_id))
        (Val.str (normalizeVal e.series_title)) :: ext, ?_, ?_, List.mem_cons_self _ _⟩
    · rw [htr]; simp
    · rw [List.all_cons, Bool.and_eq_true]; exact ⟨rfl, hall⟩
  | none =>
    obtain ⟨hdb, ext, htr, hall⟩ := resolve_parent_dry genre now uuids
      (primary_author e.books) e
      { st with trace := st.trace ++ [Event.readSeriesByKey (Val.str (valToStr e.series_id))
          (Val.str (normalizeVal e.series_title))] }
    have hfold := foldl_db_trace
      (fun s (_ : Book) => { s with uuidIdx := s.uuidIdx + 1 })
      (fun s a => ⟨rfl, rfl⟩) e.books
    refine ⟨?_, Event.readSeriesByKey (Val.str (valToStr e.series_id))
        (Val.str (normalizeVal e.series_title)) :: ext, ?_, ?_, List.mem_cons_self _ _⟩
    · exact ((hfold _).1).trans hdb
    · rw [(hfold _).2, htr]; simp
    · rw [List.all_cons, Bool.and_eq_true]; exact ⟨rfl, hall⟩

theorem importLoop_dry (genre now : Val) (uuids : Nat → String)
    (entries : List Entry) (st : ImpState) (stats : ImportStats) :
    (entries.foldl (processEntry true genre now uuids) (st, stats)).1.db = st.db ∧
    ∃ ext, (entries.foldl (processEntry true genre now uuids) (st, stats)).1.trace
        = st.trace ++ ext ∧
      (ext.all fun v => !v.isWriteOrCommit) = true ∧
      ∀ e ∈ entries, Event.readSeriesByKey (Val.str (valToStr e.series_id))
        (Val.str (normalizeVal e.series_title)) ∈ ext := by
  induction entries generalizing st stats with
  | nil => exact ⟨rfl, ⟨[], by simp, rfl, by simp⟩⟩
  | cons e rest ih =>
    rw [List.foldl_cons]
    obtain ⟨hdb₀, ext₀, htr₀, hall₀, hmem₀⟩ := processEntry_dry genre now uuids st stats e
    obtain ⟨hdb₁, ext₁, htr₁, hall₁, hmem₁⟩ :=
      ih (processEntry true genre now uuids (st, stats) e).1
        (processEntry true genre now uuids (st, stats) e).2
    refine ⟨hdb₁.trans hdb₀, ext₀ ++ ext₁, htr₁.trans (by rw [htr₀, List.append_assoc]), ?_, ?_⟩
    · simp only [List.all_append, hall₀, hall₁, Bool.and_self]
    · intro x hx
      rcases List.mem_cons.mp hx with h | h
      · exact h ▸ List.mem_append_left _ hmem₀
      · exact List.mem_append_right _ (hmem₁ x h)
theorem processBulkItem_dry (genre now : Val) (uuids : Nat → String)
    (parents : List (Val × List Val)) (st : ImpState) (stats : BulkStats)
    (item : String × List Val) :
    (processBulkItem true genre now uuids parents (st, stats) item).1.db = st.db ∧
    (processBulkItem true genre now uuids parents (st, stats) item).1.trace.filter
        (fun v => v.isWriteOrCommit)
      = st.trace.filter (fun v => v.isWriteOrCommit) ∧
    Event.readSeriesByNorm (Val.str (normalizeText item.1))
      ∈ (processBulkItem true genre now uuids parents (st, stats) item).1.trace ∧
    ∀ x ∈ st.trace, x ∈ (processBulkItem true genre now uuids parents (st, stats) item).1.trace := by
  unfold processBulkItem bulkResolveParent
  simp only [Bool.not_true, Bool.and_false, Bool.false_eq_true, if_false]
  cases hfind : findByNorm st.db.series (Val.str (normalizeText item.1)) with
  | none =>
    dsimp only
    exact ⟨rfl, by simp [Event.isWriteOrCommit], by simp, by intro x hx; simp [hx]⟩
  | some existing =>
    dsimp only
    simp only [apply_ite (Prod.fst (α := ImpState) (β := BulkStats))]
    refine ⟨?_, ?_, ?_, ?_⟩
    · repeat' split
      all_goals simp
    · repeat' split
      all_goals simp [Event.isWriteOrCommit]
    · repeat' split
      all_goals simp
    · intro x hx
      repeat' split
      all_goals simp [hx]

theorem bulkLoop_dry (genre now : Val) (uuids : Nat → String)
    (parents : List (Val × List Val)) (found : List (String × List Val))
    (st : ImpState) (stats : BulkStats) :
    (found.foldl (processBulkItem true genre now uuids parents) (st, stats)).1.db = st.db ∧
    (found.foldl (processBulkItem true genre now uuids parents) (st, stats)).1.trace.filter
        (fun v => v.isWriteOrCommit)
      = st.trace.filter (fun v => v.isWriteOrCommit) ∧
    (∀ i ∈ found, Event.readSeriesByNorm (Val.str (normalizeText i.1))
      ∈ (found.foldl (processBulkItem true genre now uuids parents) (st, stats)).1.trace) ∧
    ∀ x ∈ st.trace,
      x ∈ (found.foldl (processBulkItem true genre now uuids parents) (st, stats)).1.trace := by
  induction found generalizing st stats with
  | nil => exact ⟨rfl, rfl, by simp, fun x hx => hx⟩
  | cons i rest ih =>
    rw [List.foldl_cons]
    obtain ⟨hdb₀, hfil₀, hmem₀, hmono₀⟩ := processBulkItem_dry genre now uuids parents st stats i
    obtain ⟨hdb₁, hfil₁, hmem₁, hmono₁⟩ :=
      ih (processBulkItem true genre now uuids parents (st, stats) i).1
        (processBulkItem true genre now uuids parents (st, stats) i).2
    refine ⟨hdb₁.trans hdb₀, hfil₁.trans hfil₀, ?_, fun x hx => hmono₁ x (hmono₀ x hx)⟩
    intro j hj
    rcases List.mem_cons.mp hj with h | h
    · exact h ▸ hmono₁ _ hmem₀
    · exact hmem₁ j h

/-- **C4** (confirmed): with the preview flag set, neither
`import_to_nachoseries` nor the destination pass of `run_bulk_import`
executes any INSERT, UPDATE or COMMIT against the destination store —
the store comes back unchanged and the statement trace is free of write
statements — while the per-entry destination lookups are still issued
for every entry (console reporting is outside the model). -/
theorem C4_preview_no_writes (entries : List Entry)
    (found : List (String × List Val)) (parents : List (Val × List Val))
    (genre now : Val) (uuids : Nat → String) (db0 db1 : NachoDB) :
    ((import_to_nachoseries entries true genre now uuids db0).1.db = db0 ∧
     (import_to_nachoseries entries true genre now uuids db0).1.trace.filter
       (fun v => v.isWriteOrCommit) = [] ∧
     ∀ e ∈ entries, Event.readSeriesByKey (Val.str (valToStr e.series_id))
       (Val.str (normalizeVal e.series_title))
       ∈ (import_to_nachoseries entries true genre now uuids db0).1.trace) ∧
    ((run_bulk_import found parents true genre now uuids db1).1.db = db1 ∧
     (run_bulk_import found parents true genre now uuids db1).1.trace.filter
       (fun v => v.isWriteOrCommit) = [] ∧
     ∀ i ∈ found, Event.readSeriesByNorm (Val.str (normalizeText i.1))
       ∈ (run_bulk_import found parents true genre now uuids db1).1.trace) := by
  constructor
  · unfold import_to_nachoseries
    simp only [Bool.not_true, Bool.false_eq_true, if_false]
    obtain ⟨hdb, ext, htr, hall, hmem⟩ := importLoop_dry genre now uuids entries
      { db := db0, trace := [], stubCache := [], uuidIdx := 0 } ⟨0, 0, 0, 0⟩
    refine ⟨hdb, ?_, ?_⟩
    · rw [htr]
      simp only [List.nil_append]
      exact List.filter_eq_nil_iff.mpr (fun a ha => by
        have h := List.all_eq_true.mp hall a ha
        simp only [Bool.not_eq_true'] at h
        simp [h])
    · intro e he
      rw [htr]
      exact List.mem_append_right _ (hmem e he)
  · unfold run_bulk_import
    simp only [Bool.not_true, Bool.false_eq_true, if_false]
    obtain ⟨hdb, hfil, hmem, hmono⟩ := bulkLoop_dry genre now uuids parents found
      { db := db1, trace := [], stubCache := [], uuidIdx := 0 } ⟨0, 0, 0, 0⟩
    exact ⟨hdb, hfil, hmem⟩

-- Fill-only invariant --------------------------------------------------------

theorem pyEq_symm (a b : Val) : pyEq a b = pyEq b a := by
  cases a <;> cases b <;> simp [pyEq] <;> first
    | exact eq_comm
    | exact Bool.and_congr_right_iff.mpr (fun _ => by exact_mod_cast eq_comm)

theorem sqlEq_symm (a b : Val) : sqlEq a b = sqlEq b a := by
  cases a <;> cases b <;> simp [sqlEq, pyEq] <;> first
    | exact eq_comm
    | exact Bool.and_congr_right_iff.mpr (fun _ => by exact_mod_cast eq_comm)

/-- Positional preservation of pre-existing destination series rows: every
original row is still at its index, with the same id, and a populated
`isfdb_id` or `parent_series_id` unchanged. -/
def seriesPreserved (old new : List SeriesRow) : Prop :=
  ∀ i r, old.get? i = some r → ∃ r', new.get? i = some r' ∧ r'.id = r.id ∧
    (r.isfdb_id.truthy = true → r'.isfdb_id = r.isfdb_id) ∧
    (r.parent_series_id.truthy = true → r'.parent_series_id = r.parent_series_id)

/-- Rows past the original length are engine-created stubs, so their ids
come from the uuid supply. -/
def stubsAppended (old new : List SeriesRow) (uuids : Nat → String) : Prop :=
  ∀ j r', new.get? j = some r' → old.length ≤ j → ∃ k, r'.id = Val.str (uuids k)

/-- The run invariant over the destination store: series rows preserved,
appended rows uuid-identified, and book rows only ever appended. -/
def dbFillInv (uuids : Nat → String) (old cur : NachoDB) : Prop :=
  seriesPreserved old.series cur.series ∧ stubsAppended old.series cur.series uuids ∧
  (∃ ext, cur.books = old.books ++ ext)

theorem pairwise_get_ne {l : List SeriesRow}
    (hp : l.Pairwise fun a b => sqlEq a.id b.id = false)
    (i j : Nat) (ri rj : SeriesRow) (hij : i ≠ j)
    (hi : l.get? i = some ri) (hj : l.get? j = some rj) :
    sqlEq ri.id rj.id = false := by
  have hi' := List.get?_eq_some.mp hi
  have hj' := List.get?_eq_some.mp hj
  obtain ⟨hilt, hig⟩ := hi'
  obtain ⟨hjlt, hjg⟩ := hj'
  have hpg := List.pairwise_iff_get.mp hp
  rcases Nat.lt_or_ge i j with h | h
  · have := hpg ⟨i, hilt⟩ ⟨j, hjlt⟩ h
    rwa [hig, hjg] at this
  · rcases Nat.lt_or_ge j i with h2 | h2
    · have := hpg ⟨j, hjlt⟩ ⟨i, hilt⟩ h2
      rw [hig, hjg] at this
      rw [sqlEq_symm]
      exact this
    · exact absurd (Nat.le_antisymm h h2).symm hij

/-- Under the run invariant, any current row whose id SQL-matches the id of
a looked-up row is that row: original ids are pairwise distinct and stub
ids are fresh. -/
theorem fillTarget_eq (old cur : List SeriesRow) (uuids : Nat → String)
    (hpair : old.Pairwise fun a b => sqlEq a.id b.id = false)
    (hfresh : ∀ k r, r ∈ old → sqlEq r.id (Val.str (uuids k)) = false)
    (hpres : seriesPreserved old cur) (hstub : stubsAppended old cur uuids)
    (rowT : SeriesRow) (jT : Nat) (hjT : cur.get? jT = some rowT)
    (i : Nat) (r r' : SeriesRow) (hi : old.get? i = some r)
    (hi' : cur.get? i = some r') (hEq : sqlEq r'.id rowT.id = true) :
    r' = rowT := by
  have hidr : r'.id = r.id := by
    obtain ⟨r2, h1, h2, _, _⟩ := hpres i r hi
    rw [hi'] at h1
    exact (Option.some.inj h1) ▸ h2
  by_cases hlt : jT < old.length
  · obtain ⟨rT0, hT0⟩ : ∃ rT0, old.get? jT = some rT0 := by
      rw [List.get?_eq_get hlt]; exact ⟨_, rfl⟩
    obtain ⟨r2, h1, hid2, _, _⟩ := hpres jT rT0 hT0
    rw [hjT] at h1
    have hrowid : rowT.id = rT0.id := (Option.some.inj h1) ▸ hid2
    rcases eq_or_ne i jT with hij | hij
    · subst hij
      rw [hi'] at hjT
      exact Option.some.inj hjT
    · exfalso
      have hpf := pairwise_get_ne hpair i jT r rT0 hij hi hT0
      rw [hidr, hrowid] at hEq
      rw [hpf] at hEq
      exact Bool.false_ne_true hEq
  · push_neg at hlt
    exfalso
    obtain ⟨k, hk⟩ := hstub jT rowT hjT hlt
    have hmem : r ∈ old := List.get?_mem hi
    have hff := hfresh k r hmem
    rw [hidr, hk] at hEq
    rw [hff] at hEq
    exact Bool.false_ne_true hEq

/-- A guarded fill `UPDATE … WHERE id = ?` preserves the run invariant on
series rows: the target was looked up in the current store and each
protected field is either untouched by the setter or was empty on the
target row. -/
theorem updateSeries_fill (old cur : List SeriesRow) (uuids : Nat → String)
    (hpair : old.Pairwise fun a b => sqlEq a.id b.id = false)
    (hfresh : ∀ k r, r ∈ old → sqlEq r.id (Val.str (uuids k)) = false)
    (hpres : seriesPreserved old cur) (hstub : stubsAppended old cur uuids)
    (rowT : SeriesRow) (jT : Nat) (hjT : cur.get? jT = some rowT)
    (f : SeriesRow → SeriesRow) (hid : ∀ r, (f r).id = r.id)
    (hkeepI : (∀ r, (f r).isfdb_id = r.isfdb_id) ∨ rowT.isfdb_id.truthy = false)
    (hkeepP : (∀ r, (f r).parent_series_id = r.parent_series_id) ∨
      rowT.parent_series_id.truthy = false) :
    seriesPreserved old (updateSeries cur rowT.id f) ∧
    stubsAppended old (updateSeries cur rowT.id f) uuids := by
  constructor
  · intro i r hi
    obtain ⟨r', h1, h2, h3, h4⟩ := hpres i r hi
    have hget : (updateSeries cur rowT.id f).get? i
        = some (if sqlEq r'.id rowT.id then f r' else r') := by
      rw [updateSeries, List.get?_map, h1]
      rfl
    by_cases hEq : sqlEq r'.id rowT.id = true
    · have hrt : r' = rowT := fillTarget_eq old cur uuids hpair hfresh hpres hstub
        rowT jT hjT i r r' hi h1 hEq
      refine ⟨f r', by rw [hget, if_pos hEq], (hid r').trans h2, ?_, ?_⟩
      · intro htr
        rcases hkeepI with hk | hk
        · rw [hk r']; exact h3 htr
        · exfalso
          have := h3 htr
          rw [hrt] at this
          rw [this] at hk
          rw [htr] at hk
          exact absurd hk (by decide)
      · intro htr
        rcases hkeepP with hk | hk
        · rw [hk r']; exact h4 htr
        · exfalso
          have := h4 htr
          rw [hrt] at this
          rw [this] at hk
          rw [htr] at hk
          exact absurd hk (by decide)
    · refine ⟨r', ?_, h2, h3, h4⟩
      rw [hget, if_neg]
      intro hc
      exact hEq hc
  · intro j r' hj hjlen
    rw [updateSeries, List.get?_map] at hj
    cases hcf : cur.get? j with
    | none => rw [hcf] at hj; exact absurd hj (by simp)
    | some rc =>
      rw [hcf] at hj
      obtain ⟨k, hk⟩ := hstub j rc hcf hjlen
      refine ⟨k, ?_⟩
      have : r' = if sqlEq rc.id rowT.id then f rc else rc := by
        exact (Option.some.inj hj).symm
      rw [this]
      by_cases h : sqlEq rc.id rowT.id = true
      · rw [if_pos h, hid rc]; exact hk
      · rw [if_neg h]; exact hk

/-- Appending a uuid-identified stub row preserves the run invariant. -/
theorem appendStub_fill (old cur : List SeriesRow) (uuids : Nat → String)
    (hpres : seriesPreserved old cur) (hstub : stubsAppended old cur uuids)
    (stub : SeriesRow) (k : Nat) (hk : stub.id = Val.str (uuids k)) :
    seriesPreserved old (cur ++ [stub]) ∧ stubsAppended old (cur ++ [stub]) uuids := by
  constructor
  · intro i r hi
    obtain ⟨r', h1, h2, h3, h4⟩ := hpres i r hi
    refine ⟨r', ?_, h2, h3, h4⟩
    rw [List.get?_append (List.get?_eq_some.mp h1).1]
    exact h1
  · intro j r' hj hjlen
    by_cases hlt : j < cur.length
    · rw [List.get?_append hlt] at hj
      exact hstub j r' hj hjlen
    · push_neg at hlt
      rw [List.get?_append_right hlt] at hj
      cases hsub : j - cur.length with
      | zero =>
        rw [hsub] at hj
        exact ⟨k, (Option.some.inj hj).symm ▸ hk⟩
      | succ m =>
        rw [hsub] at hj
        exact absurd hj (by simp)

theorem resolve_parent_inv (dry : Bool) (genre now : Val) (uuids : Nat → String)
    (pa : Val) (e : Entry) (st : ImpState) (old : NachoDB)
    (hpair : old.series.Pairwise fun a b => sqlEq a.id b.id = false)
    (hfresh : ∀ k r, r ∈ old.series → sqlEq r.id (Val.str (uuids k)) = false)
    (hinv : dbFillInv uuids old st.db) :
    dbFillInv uuids old (resolve_parent dry genre now uuids pa e st).2.db := by
  obtain ⟨hpres, hstub, hbooks⟩ := hinv
  unfold resolve_parent
  cases hpi : e.parent_info with
  | none => exact ⟨hpres, hstub, hbooks⟩
  | some parent =>
    dsimp only
    cases hc : lookupLast st.stubCache (valToStr parent.series_id) with
    | some cached => exact ⟨hpres, hstub, hbooks⟩
    | none =>
      dsimp only
      cases hf : findByIsfdb st.db.series (Val.str (valToStr parent.series_id)) with
      | some row => exact ⟨hpres, hstub, hbooks⟩
      | none =>
        dsimp only
        cases hn : findByNorm st.db.series (Val.str (normalizeVal parent.series_title)) with
        | some row =>
          dsimp only
          split
          next h =>
            have hmem := List.mem_of_find?_eq_some hn
            obtain ⟨jT, hjT⟩ := List.get?_of_mem hmem
            have hguard : row.isfdb_id.truthy = false := by
              simp only [Bool.and_eq_true, Bool.not_eq_true'] at h
              exact h.1
            have hup := updateSeries_fill old.series st.db.series uuids hpair hfresh hpres hstub
              row jT hjT
              (fun r => { r with isfdb_id := Val.str (valToStr parent.series_id), updated_at := now })
              (fun r => rfl) (Or.inr hguard) (Or.inl (fun r => rfl))
            exact ⟨hup.1, hup.2, hbooks⟩
          next h => exact ⟨hpres, hstub, hbooks⟩
        | none =>
          dsimp only
          split
          next h =>
            have hap := appendStub_fill old.series st.db.series uuids hpres hstub
              { id := Val.str (uuids st.uuidIdx), name := parent.series_title,
                name_normalized := Val.str (normalizeVal parent.series_title),
                author := pa,
                author_normalized := if pa.truthy then Val.str (normalizeVal pa) else Val.null,
                total_books := Val.int 0, year_start := Val.null, year_end := Val.null,
                confidence := Val.real (mkRat 9 10), verified := Val.int 0,
                isfdb_id := Val.str (valToStr parent.series_id), genre := genre,
                created_at := now, updated_at := now, parent_series_id := Val.null }
              st.uuidIdx rfl
            exact ⟨hap.1, hap.2, hbooks⟩
          next h => exact ⟨hpres, hstub, hbooks⟩

/-- Some current row carries the given id with the given parent link. -/
def rowWithIdParent (series : List SeriesRow) (idv pv : Val) : Prop :=
  ∃ j r, series.get? j = some r ∧ r.id = idv ∧ r.parent_series_id = pv

theorem rowWithIdParent_update (series : List SeriesRow) (target idv pv : Val)
    (f : SeriesRow → SeriesRow) (hid : ∀ r, (f r).id = r.id)
    (hpar : ∀ r, (f r).parent_series_id = r.parent_series_id)
    (h : rowWithIdParent series idv pv) :
    rowWithIdParent (updateSeries series target f) idv pv := by
  obtain ⟨j, r, hj, hidv, hpv⟩ := h
  refine ⟨j, if sqlEq r.id target then f r else r, ?_, ?_, ?_⟩
  · rw [updateSeries, List.get?_map, hj]; rfl
  · by_cases hc : sqlEq r.id target = true
    · rw [if_pos hc, hid]; exact hidv
    · rw [if_neg hc]; exact hidv
  · by_cases hc : sqlEq r.id target = true
    · rw [if_pos hc, hpar]; exact hpv
    · rw [if_neg hc]; exact hpv

theorem rowWithIdParent_append (series : List SeriesRow) (idv pv : Val)
    (ext : List SeriesRow) (h : rowWithIdParent series idv pv) :
    rowWithIdParent (series ++ ext) idv pv := by
  obtain ⟨j, r, hj, hidv, hpv⟩ := h
  exact ⟨j, r, by rw [List.get?_append (List.get?_eq_some.mp hj).1]; exact hj, hidv, hpv⟩

theorem resolve_parent_rowKeep (dry : Bool) (genre now : Val) (uuids : Nat → String)
    (pa : Val) (e : Entry) (st : ImpState) (idv pv : Val)
    (h : rowWithIdParent st.db.series idv pv) :
    rowWithIdParent (resolve_parent dry genre now uuids pa e st).2.db.series idv pv := by
  unfold resolve_parent
  cases hpi : e.parent_info with
  | none => exact h
  | some parent =>
    dsimp only
    cases hc : lookupLast st.stubCache (valToStr parent.series_id) with
    | some cached => exact h
    | none =>
      dsimp only
      cases hf : findByIsfdb st.db.series (Val.str (valToStr parent.series_id)) with
      | some row => exact h
      | none =>
        dsimp only
        cases hn : findByNorm st.db.series (Val.str (normalizeVal parent.series_title)) with
        | some row =>
          dsimp only
          split
          next hcond =>
            exact rowWithIdParent_update st.db.series row.id idv pv _
              (fun r => rfl) (fun r => rfl) h
          next hcond => exact h
        | none =>
          dsimp only
          split
          next hcond => exact rowWithIdParent_append st.db.series idv pv _ h
          next hcond => exact h

theorem foldl_series_books {α : Type} (f : ImpState → α → ImpState)
    (h : ∀ s a, (f s a).db.series = s.db.series ∧
      ∃ e, (f s a).db.books = s.db.books ++ e)
    (xs : List α) (s : ImpState) :
    (xs.foldl f s).db.series = s.db.series ∧
    ∃ e, (xs.foldl f s).db.books = s.db.books ++ e := by
  induction xs generalizing s with
  | nil => exact ⟨rfl, [], by simp⟩
  | cons x xs ih =>
    rw [List.foldl_cons]
    obtain ⟨hs1, e1, he1⟩ := h s x
    obtain ⟨hs2, e2, he2⟩ := ih (f s x)
    exact ⟨hs2.trans hs1, e1 ++ e2, by rw [he2, he1, List.append_assoc]⟩


/-- The book-insert loop of a new series preserves the run invariant
(real-run shape: every step appends one `series_book` row). -/
theorem bookFold_ins_inv (now : Val) (uuids : Nat → String) (seriesId : Val)
    (books : List Book) (s : ImpState) (old : NachoDB)
    (hinv : dbFillInv uuids old s.db) :
    dbFillInv uuids old (books.foldl (fun s b =>
      { s with
        db := { s.db with
                books := s.db.books ++ [mkBookRow (Val.str (uuids s.uuidIdx)) seriesId now b] },
        trace := s.trace ++ [Event.insertBook (mkBookRow (Val.str (uuids s.uuidIdx)) seriesId now b)],
        uuidIdx := s.uuidIdx + 1 }) s).db := by
  have h := foldl_series_books (fun s b =>
      { s with
        db := { s.db with
                books := s.db.books ++ [mkBookRow (Val.str (uuids s.uuidIdx)) seriesId now b] },
        trace := s.trace ++ [Event.insertBook (mkBookRow (Val.str (uuids s.uuidIdx)) seriesId now b)],
        uuidIdx := s.uuidIdx + 1 })
    (fun s b => ⟨rfl, _, rfl⟩) books s
  obtain ⟨hpres, hstub, ext0, hbooks⟩ := hinv
  obtain ⟨hs, ext1, hb⟩ := h
  refine ⟨?_, ?_, ⟨ext0 ++ ext1, ?_⟩⟩
  · rw [hs]; exact hpres
  · rw [hs]; exact hstub
  · rw [hb, hbooks, List.append_assoc]

/-- The book loop in preview mode only advances the uuid counter, so the
run invariant carries over unchanged. -/
theorem bookFold_skip_inv (uuids : Nat → String) (books : List Book)
    (s : ImpState) (old : NachoDB) (hinv : dbFillInv uuids old s.db) :
    dbFillInv uuids old
      (books.foldl (fun s (_ : Book) => { s with uuidIdx := s.uuidIdx + 1 }) s).db := by
  have h := foldl_series_books (fun s (_ : Book) => { s with uuidIdx := s.uuidIdx + 1 })
    (fun s b => ⟨rfl, [], by simp⟩) books s
  obtain ⟨hpres, hstub, ext0, hbooks⟩ := hinv
  obtain ⟨hs, ext1, hb⟩ := h
  refine ⟨?_, ?_, ⟨ext0 ++ ext1, ?_⟩⟩
  · rw [hs]; exact hpres
  · rw [hs]; exact hstub
  · rw [hb, hbooks, List.append_assoc]

/-- The tail of the matched-series branch of the entry loop: resolving the
parent and then (when one was found and the matched row had none) filling
the parent link preserves the run invariant. -/
theorem existingBranch_inv (dry : Bool) (genre now : Val) (uuids : Nat → String)
    (pa : Val) (e : Entry) (existing : SeriesRow) (st1 : ImpState) (old : NachoDB)
    (hpair : old.series.Pairwise fun a b => sqlEq a.id b.id = false)
    (hfresh : ∀ k r, r ∈ old.series → sqlEq r.id (Val.str (uuids k)) = false)
    (hinv1 : dbFillInv uuids old st1.db)
    (hrow1 : rowWithIdParent st1.db.series existing.id existing.parent_series_id) :
    dbFillInv uuids old
      (if ((resolve_parent dry genre now uuids pa e st1).1.isSome &&
           ((resolve_parent dry genre now uuids pa e st1).1.getD .null).truthy &&
           !existing.parent_series_id.truthy) && !dry then
        { (resolve_parent dry genre now uuids pa e st1).2 with
          db := { (resolve_parent dry genre now uuids pa e st1).2.db with
                  series := updateSeries (resolve_parent dry genre now uuids pa e st1).2.db.series
                    existing.id
                    (fun r => { r with
                      parent_series_id := (resolve_parent dry genre now uuids pa e st1).1.getD .null,
                      updated_at := now }) },
          trace := (resolve_parent dry genre now uuids pa e st1).2.trace ++
            [Event.updateParent existing.id
              ((resolve_parent dry genre now uuids pa e st1).1.getD .null)] }
      else (resolve_parent dry genre now uuids pa e st1).2).db := by
  have hinv2 := resolve_parent_inv dry genre now uuids pa e st1 old hpair hfresh hinv1
  have hrow2 := resolve_parent_rowKeep dry genre now uuids pa e st1
    existing.id existing.parent_series_id hrow1
  split
  next hcond2 =>
    have hparf : existing.parent_series_id.truthy = false := by
      simp only [Bool.and_eq_true, Bool.not_eq_true'] at hcond2
      exact hcond2.1.2
    obtain ⟨j2, r2, hj2, hid2, hp2⟩ := hrow2
    have hg2 : r2.parent_series_id.truthy = false := by rw [hp2]; exact hparf
    have hup2 := updateSeries_fill old.series _ uuids hpair hfresh
      hinv2.1 hinv2.2.1 r2 j2 hj2
      (fun r => { r with
        parent_series_id := (resolve_parent dry genre now uuids pa e st1).1.getD .null,
        updated_at := now })
      (fun r => rfl) (Or.inl (fun r => rfl)) (Or.inr hg2)
    rw [hid2] at hup2
    exact ⟨hup2.1, hup2.2, hinv2.2.2⟩
  next hcond2 => exact hinv2

theorem processEntry_inv (dry : Bool) (genre now : Val) (uuids : Nat → String)
    (st : ImpState) (stats : ImportStats) (e : Entry) (old : NachoDB)
    (hpair : old.series.Pairwise fun a b => sqlEq a.id b.id = false)
    (hfresh : ∀ k r, r ∈ old.series → sqlEq r.id (Val.str (uuids k)) = false)
    (hinv : dbFillInv uuids old st.db) :
    dbFillInv uuids old (processEntry dry genre now uuids (st, stats) e).1.db := by
  unfold processEntry
  dsimp only
  cases hf : findByIsfdbOrNorm st.db.series (Val.str (valToStr e.series_id))
      (Val.str (normalizeVal e.series_title)) with
  | some existing =>
    dsimp only
    obtain ⟨j0, hj0⟩ := List.get?_of_mem (List.mem_of_find?_eq_some hf)
    have hrow0 : rowWithIdParent st.db.series existing.id existing.parent_series_id :=
      ⟨j0, existing, hj0, rfl, rfl⟩
    obtain ⟨hpres, hstub, hbooks⟩ := hinv
    split
    next hcond1 =>
      have hguard : existing.isfdb_id.truthy = false := by
        simp only [Bool.and_eq_true, Bool.not_eq_true'] at hcond1
        exact hcond1.1
      have hup := updateSeries_fill old.series st.db.series uuids hpair hfresh hpres hstub
        existing j0 hj0
        (fun r => { r with isfdb_id := Val.str (valToStr e.series_id), updated_at := now })
        (fun r => rfl) (Or.inr hguard) (Or.inl (fun r => rfl))
      have hrow1 := rowWithIdParent_update st.db.series existing.id existing.id
        existing.parent_series_id
        (fun r => { r with isfdb_id := Val.str (valToStr e.series_id), updated_at := now })
        (fun r => rfl) (fun r => rfl) hrow0
      exact existingBranch_inv dry genre now uuids (primary_author e.books) e existing _
        old hpair hfresh ⟨hup.1, hup.2, hbooks⟩ hrow1
    next hcond1 =>
      exact existingBranch_inv dry genre now uuids (primary_author e.books) e existing _
        old hpair hfresh ⟨hpres, hstub, hbooks⟩ hrow0
  | none =>
    dsimp only
    have hinv1 := resolve_parent_inv dry genre now uuids (primary_author e.books) e
      { st with trace := st.trace ++ [Event.readSeriesByKey (Val.str (valToStr e.series_id))
          (Val.str (normalizeVal e.series_title))] }
      old hpair hfresh hinv
    obtain ⟨hpres1, hstub1, hbooks1⟩ := hinv1
    split
    next hdry =>
      exact bookFold_ins_inv now uuids _ e.books _ old
        ⟨(appendStub_fill old.series _ uuids hpres1 hstub1 _ _ rfl).1,
         (appendStub_fill old.series _ uuids hpres1 hstub1 _ _ rfl).2, hbooks1⟩
    next hdry =>
      exact bookFold_skip_inv uuids e.books _ old ⟨hpres1, hstub1, hbooks1⟩

theorem bulkResolveParent_inv (dry : Bool) (genre now : Val) (uuids : Nat → String)
    (parent : List Val) (st1 : ImpState) (old : NachoDB)
    (hpair : old.series.Pairwise fun a b => sqlEq a.id b.id = false)
    (hfresh : ∀ k r, r ∈ old.series → sqlEq r.id (Val.str (uuids k)) = false)
    (hinv : dbFillInv uuids old st1.db) :
    dbFillInv uuids old (bulkResolveParent dry genre now uuids parent st1).2.1.db := by
  obtain ⟨hpres, hstub, hbooks⟩ := hinv
  unfold bulkResolveParent
  dsimp only
  split
  next hc => exact ⟨hpres, hstub, hbooks⟩
  next hc =>
    cases hf : findByIsfdb st1.db.series (Val.str (valToStr (col parent 0))) with
    | some prow => exact ⟨hpres, hstub, hbooks⟩
    | none =>
      dsimp only
      cases hn : findByNorm st1.db.series (Val.str (normalizeVal (col parent 1))) with
      | some prow =>
        dsimp only
        split
        next hg =>
          have hguard : prow.isfdb_id.truthy = false := by
            simp only [Bool.and_eq_true, Bool.not_eq_true'] at hg
            exact hg.1
          obtain ⟨jT, hjT⟩ := List.get?_of_mem (List.mem_of_find?_eq_some hn)
          have hup := updateSeries_fill old.series st1.db.series uuids hpair hfresh hpres hstub
            prow jT hjT
            (fun r => { r with isfdb_id := Val.str (valToStr (col parent 0)), updated_at := now })
            (fun r => rfl) (Or.inr hguard) (Or.inl (fun r => rfl))
          exact ⟨hup.1, hup.2, hbooks⟩
        next hg => exact ⟨hpres, hstub, hbooks⟩
      | none =>
        dsimp only
        split
        next hg =>
          have hap := appendStub_fill old.series st1.db.series uuids hpres hstub
            { id := Val.str (uuids st1.uuidIdx), name := col parent 1,
              name_normalized := Val.str (normalizeVal (col parent 1)),
              author := Val.null, author_normalized := Val.null,
              total_books := Val.int 0, year_start := Val.null, year_end := Val.null,
              confidence := Val.real (mkRat 1 2), verified := Val.int 0,
              isfdb_id := Val.str (valToStr (col parent 0)), genre := genre,
              created_at := now, updated_at := now, parent_series_id := Val.null }
            st1.uuidIdx rfl
          exact ⟨hap.1, hap.2, hbooks⟩
        next hg => exact ⟨hpres, hstub, hbooks⟩

theorem bulkResolveParent_rowKeep (dry : Bool) (genre now : Val) (uuids : Nat → String)
    (parent : List Val) (st1 : ImpState) (idv pv : Val)
    (h : rowWithIdParent st1.db.series idv pv) :
    rowWithIdParent (bulkResolveParent dry genre now uuids parent st1).2.1.db.series idv pv := by
  unfold bulkResolveParent
  dsimp only
  split
  next hc => exact h
  next hc =>
    cases hf : findByIsfdb st1.db.series (Val.str (valToStr (col parent 0))) with
    | some prow => exact h
    | none =>
      dsimp only
      cases hn : findByNorm st1.db.series (Val.str (normalizeVal (col parent 1))) with
      | some prow =>
        dsimp only
        split
        next hg =>
          exact rowWithIdParent_update st1.db.series prow.id idv pv _
            (fun r => rfl) (fun r => rfl) h
        next hg => exact h
      | none =>
        dsimp only
        split
        next hg => exact rowWithIdParent_append st1.db.series idv pv _ h
        next hg => exact h


/-- The parent-link tail of one bulk item: resolving/creating the parent
and filling the (empty) parent link preserves the run invariant. -/
theorem bulkTail_inv (dry : Bool) (genre now : Val) (uuids : Nat → String)
    (parent : List Val) (existing : SeriesRow) (st1 : ImpState) (old : NachoDB)
    (hpair : old.series.Pairwise fun a b => sqlEq a.id b.id = false)
    (hfresh : ∀ k r, r ∈ old.series → sqlEq r.id (Val.str (uuids k)) = false)
    (hinv1 : dbFillInv uuids old st1.db)
    (hrow1 : rowWithIdParent st1.db.series existing.id existing.parent_series_id)
    (hparf : existing.parent_series_id.truthy = false) :
    dbFillInv uuids old
      (if (bulkResolveParent dry genre now uuids parent st1).1.truthy &&
          !existing.parent_series_id.truthy then
        (if !dry then
          { (bulkResolveParent dry genre now uuids parent st1).2.1 with
            db := { (bulkResolveParent dry genre now uuids parent st1).2.1.db with
                    series := updateSeries
                      (bulkResolveParent dry genre now uuids parent st1).2.1.db.series
                      existing.id
                      (fun r => { r with
                        parent_series_id := (bulkResolveParent dry genre now uuids parent st1).1,
                        updated_at := now }) },
            trace := (bulkResolveParent dry genre now uuids parent st1).2.1.trace ++
              [Event.updateParent existing.id
                (bulkResolveParent dry genre now uuids parent st1).1] }
        else (bulkResolveParent dry genre now uuids parent st1).2.1)
      else (bulkResolveParent dry genre now uuids parent st1).2.1).db := by
  have hinv2 := bulkResolveParent_inv dry genre now uuids parent st1 old hpair hfresh hinv1
  have hrow2 := bulkResolveParent_rowKeep dry genre now uuids parent st1
    existing.id existing.parent_series_id hrow1
  split
  next h1 =>
    split
    next h2 =>
      obtain ⟨j2, r2, hj2, hid2, hp2⟩ := hrow2
      have hg2 : r2.parent_series_id.truthy = false := by rw [hp2]; exact hparf
      have hup2 := updateSeries_fill old.series _ uuids hpair hfresh
        hinv2.1 hinv2.2.1 r2 j2 hj2
        (fun r => { r with
          parent_series_id := (bulkResolveParent dry genre now uuids parent st1).1,
          updated_at := now })
        (fun r => rfl) (Or.inl (fun r => rfl)) (Or.inr hg2)
      rw [hid2] at hup2
      exact ⟨hup2.1, hup2.2, hinv2.2.2⟩
    next h2 => exact hinv2
  next h1 => exact hinv2

theorem processBulkItem_inv (dry : Bool) (genre now : Val) (uuids : Nat → String)
    (parents : List (Val × List Val)) (st : ImpState) (stats : BulkStats)
    (item : String × List Val) (old : NachoDB)
    (hpair : old.series.Pairwise fun a b => sqlEq a.id b.id = false)
    (hfresh : ∀ k r, r ∈ old.series → sqlEq r.id (Val.str (uuids k)) = false)
    (hinv : dbFillInv uuids old st.db) :
    dbFillInv uuids old (processBulkItem dry genre now uuids parents (st, stats) item).1.db := by
  unfold processBulkItem
  dsimp only
  cases hfind : findByNorm st.db.series (Val.str (normalizeText item.1)) with
  | none => exact hinv
  | some existing =>
    dsimp only
    simp only [apply_ite (Prod.fst (α := ImpState) (β := BulkStats))]
    obtain ⟨j0, hj0⟩ := List.get?_of_mem (List.mem_of_find?_eq_some hfind)
    have hrow0 : rowWithIdParent st.db.series existing.id existing.parent_series_id :=
      ⟨j0, existing, hj0, rfl, rfl⟩
    obtain ⟨hpres, hstub, hbooks⟩ := hinv
    have hfill : (!existing.isfdb_id.truthy && !dry) = true →
        seriesPreserved old.series (updateSeries st.db.series existing.id
          (fun r => { r with isfdb_id := Val.str (valToStr (col item.2 0)), updated_at := now })) ∧
        stubsAppended old.series (updateSeries st.db.series existing.id
          (fun r => { r with isfdb_id := Val.str (valToStr (col item.2 0)), updated_at := now }))
          uuids := by
      intro hcond1
      have hguard : existing.isfdb_id.truthy = false := by
        simp only [Bool.and_eq_true, Bool.not_eq_true'] at hcond1
        exact hcond1.1
      exact updateSeries_fill old.series st.db.series uuids hpair hfresh hpres hstub
        existing j0 hj0
        (fun r => { r with isfdb_id := Val.str (valToStr (col item.2 0)), updated_at := now })
        (fun r => rfl) (Or.inr hguard) (Or.inl (fun r => rfl))
    split
    next hcond2 =>
      have hparf : existing.parent_series_id.truthy = false := by
        simp only [Bool.and_eq_true, Bool.not_eq_true'] at hcond2
        exact hcond2.1.2
      by_cases hcond1 : (!existing.isfdb_id.truthy && !dry) = true
      · simp only [if_pos hcond1]
        have hup := hfill hcond1
        have hrow1 := rowWithIdParent_update st.db.series existing.id existing.id
          existing.parent_series_id
          (fun r => { r with isfdb_id := Val.str (valToStr (col item.2 0)), updated_at := now })
          (fun r => rfl) (fun r => rfl) hrow0
        exact bulkTail_inv dry genre now uuids ((lookupLast parents (col item.2 2)).getD [])
          existing
          { st with
            db := { st.db with
                    series := updateSeries st.db.series existing.id
                      (fun r =>
                        { r with isfdb_id := Val.str (valToStr (col item.2 0)), updated_at := now }) },
            trace := st.trace ++ [Event.readSeriesByNorm (Val.str (normalizeText item.1))] ++
              [Event.updateIsfdb existing.id (Val.str (valToStr (col item.2 0)))] }
          old hpair hfresh ⟨hup.1, hup.2, hbooks⟩ hrow1 hparf
      · simp only [if_neg hcond1]
        exact bulkTail_inv dry genre now uuids ((lookupLast parents (col item.2 2)).getD [])
          existing
          { st with trace := st.trace ++ [Event.readSeriesByNorm (Val.str (normalizeText item.1))] }
          old hpair hfresh ⟨hpres, hstub, hbooks⟩ hrow0 hparf
    next hcond2 =>
      by_cases hcond1 : (!existing.isfdb_id.truthy && !dry) = true
      · simp only [if_pos hcond1]
        have hup := hfill hcond1
        exact ⟨hup.1, hup.2, hbooks⟩
      · simp only [if_neg hcond1]
        exact ⟨hpres, hstub, hbooks⟩

theorem dbFillInv_base (uuids : Nat → String) (db0 : NachoDB) :
    dbFillInv uuids db0 db0 := by
  refine ⟨fun i r h => ⟨r, h, rfl, fun _ => rfl, fun _ => rfl⟩, ?_, ⟨[], by simp⟩⟩
  intro j r' hj hlen
  exact absurd (List.get?_eq_some.mp hj).1 (Nat.not_lt.mpr hlen)

theorem import_to_nachoseries_inv (entries : List Entry) (dry : Bool)
    (genre now : Val) (uuids : Nat → String) (db0 : NachoDB)
    (hpair : db0.series.Pairwise fun a b => sqlEq a.id b.id = false)
    (hfresh : ∀ k r, r ∈ db0.series → sqlEq r.id (Val.str (uuids k)) = false) :
    dbFillInv uuids db0 (import_to_nachoseries entries dry genre now uuids db0).1.db := by
  have hloop : ∀ (es : List Entry) (st : ImpState) (stats : ImportStats),
      dbFillInv uuids db0 st.db →
      dbFillInv uuids db0 (es.foldl (processEntry dry genre now uuids) (st, stats)).1.db := by
    intro es
    induction es with
    | nil => intro st stats h; exact h
    | cons e rest ih =>
      intro st stats h
      rw [List.foldl_cons]
      exact ih (processEntry dry genre now uuids (st, stats) e).1
        (processEntry dry genre now uuids (st, stats) e).2
        (processEntry_inv dry genre now uuids st stats e db0 hpair hfresh h)
  unfold import_to_nachoseries
  split
  next h =>
    exact hloop entries { db := db0, trace := [], stubCache := [], uuidIdx := 0 }
      ⟨0, 0, 0, 0⟩ (dbFillInv_base uuids db0)
  next h =>
    exact hloop entries { db := db0, trace := [], stubCache := [], uuidIdx := 0 }
      ⟨0, 0, 0, 0⟩ (dbFillInv_base uuids db0)

theorem run_bulk_import_inv (found : List (String × List Val))
    (parents : List (Val × List Val)) (dry : Bool) (genre now : Val)
    (uuids : Nat → String) (db0 : NachoDB)
    (hpair : db0.series.Pairwise fun a b => sqlEq a.id b.id = false)
    (hfresh : ∀ k r, r ∈ db0.series → sqlEq r.id (Val.str (uuids k)) = false) :
    dbFillInv uuids db0 (run_bulk_import found parents dry genre now uuids db0).1.db := by
  have hloop : ∀ (fs : List (String × List Val)) (st : ImpState) (stats : BulkStats),
      dbFillInv uuids db0 st.db →
      dbFillInv uuids db0 (fs.foldl (processBulkItem dry genre now uuids parents) (st, stats)).1.db := by
    intro fs
    induction fs with
    | nil => intro st stats h; exact h
    | cons i rest ih =>
      intro st stats h
      rw [List.foldl_cons]
      exact ih (processBulkItem dry genre now uuids parents (st, stats) i).1
        (processBulkItem dry genre now uuids parents (st, stats) i).2
        (processBulkItem_inv dry genre now uuids parents st stats i db0 hpair hfresh h)
  unfold run_bulk_import
  split
  next h =>
    exact hloop found { db := db0, trace := [], stubCache := [], uuidIdx := 0 }
      ⟨0, 0, 0, 0⟩ (dbFillInv_base uuids db0)
  next h =>
    exact hloop found { db := db0, trace := [], stubCache := [], uuidIdx := 0 }
      ⟨0, 0, 0, 0⟩ (dbFillInv_base uuids db0)

/-- **C3** (confirmed): in both import modes, existing destination series
rows are only gap-filled — every pre-existing row keeps its position and
id, a populated `isfdb_id` and a populated `parent_series_id` are never
modified — and pre-existing book rows are never modified (book rows are
only appended). Hypotheses: pre-existing row ids are pairwise SQL-distinct
and the uuid supply never collides with a pre-existing id. -/
theorem C3_fill_only_updates (entries : List Entry)
    (found : List (String × List Val)) (parents : List (Val × List Val))
    (dry dryB : Bool) (genre now genreB nowB : Val)
    (uuids uuidsB : Nat → String) (db0 db1 : NachoDB)
    (hpair0 : db0.series.Pairwise fun a b => sqlEq a.id b.id = false)
    (hfresh0 : ∀ k r, r ∈ db0.series → sqlEq r.id (Val.str (uuids k)) = false)
    (hpair1 : db1.series.Pairwise fun a b => sqlEq a.id b.id = false)
    (hfresh1 : ∀ k r, r ∈ db1.series → sqlEq r.id (Val.str (uuidsB k)) = false) :
    (seriesPreserved db0.series
        (import_to_nachoseries entries dry genre now uuids db0).1.db.series ∧
     ∃ ext, (import_to_nachoseries entries dry genre now uuids db0).1.db.books
        = db0.books ++ ext) ∧
    (seriesPreserved db1.series
        (run_bulk_import found parents dryB genreB nowB uuidsB db1).1.db.series ∧
     ∃ ext, (run_bulk_import found parents dryB genreB nowB uuidsB db1).1.db.books
        = db1.books ++ ext) := by
  have h0 := import_to_nachoseries_inv entries dry genre now uuids db0 hpair0 hfresh0
  have h1 := run_bulk_import_inv found parents dryB genreB nowB uuidsB db1 hpair1 hfresh1
  exact ⟨⟨h0.1, h0.2.2⟩, ⟨h1.1, h1.2.2⟩⟩

/-- A populated destination store for exercising the engines. -/
def sampleSeriesRow : SeriesRow :=
  { id := .str "s1", name := .str "Mistborn", name_normalized := .str "mistborn",
    author := .str "Brandon Sanderson", author_normalized := .str "brandon sanderson",
    total_books := .int 3, year_start := .int 2006, year_end := .int 2008,
    confidence := .real (mkRat 19 20), verified := .int 1, isfdb_id := .str "42",
    genre := .str "fantasy", created_at := .str "t0", updated_at := .str "t0",
    parent_series_id := .null }

def sampleBookRow : BookRow :=
  { id := .str "b1", series_id := .str "s1", position := .int 1,
    title := .str "The Final Empire", title_normalized := .str "the final empire",
    author := .str "Brandon Sanderson", year_published := .int 2006, isbn := .null,
    confidence := .real (mkRat 19 20), created_at := .str "t0", updated_at := .str "t0" }

def sampleDB : NachoDB := { series := [sampleSeriesRow], books := [sampleBookRow], sources := [] }

def sampleEntry : Entry :=
  { series_id := .int 42, series_title := .str "Mistborn",
    books := [{ title := .str "The Final Empire", position := .int 1,
                author := .str "Brandon Sanderson", year := some 2006, isbn := .null,
                cover_url := .null, pages := .null, isfdb_title_id := .int 101 }],
    parent_info := some { series_id := .int 7, series_title := .str "Cosmere" } }

def sampleUuids : Nat → String := fun _ => "uuid-fixed"

theorem C3_fill_only_updates_witness :
    (seriesPreserved sampleDB.series
        (import_to_nachoseries [sampleEntry] false .null (.str "t1") sampleUuids
          sampleDB).1.db.series ∧
     ∃ ext, (import_to_nachoseries [sampleEntry] false .null (.str "t1") sampleUuids
          sampleDB).1.db.books = sampleDB.books ++ ext) ∧
    (seriesPreserved sampleDB.series
        (run_bulk_import [("Mistborn", [.int 42, .str "Mistborn", .int 7])]
          [(.int 7, [.int 7, .str "Cosmere", .null])] false .null (.str "t1")
          sampleUuids sampleDB).1.db.series ∧
     ∃ ext, (run_bulk_import [("Mistborn", [.int 42, .str "Mistborn", .int 7])]
          [(.int 7, [.int 7, .str "Cosmere", .null])] false .null (.str "t1")
          sampleUuids sampleDB).1.db.books = sampleDB.books ++ ext) :=
  C3_fill_only_updates [sampleEntry]
    [("Mistborn", [.int 42, .str "Mistborn", .int 7])]
    [(.int 7, [.int 7, .str "Cosmere", .null])]
    false false .null (.str "t1") .null (.str "t1") sampleUuids sampleUuids
    sampleDB sampleDB
    (by decide)
    (fun k r hr => by
      rcases List.mem_singleton.mp hr with h
      subst h
      show sqlEq sampleSeriesRow.id (Val.str "uuid-fixed") = false
      decide)
    (by decide)
    (fun k r hr => by
      rcases List.mem_singleton.mp hr with h
      subst h
      show sqlEq sampleSeriesRow.id (Val.str "uuid-fixed") = false
      decide)

-- C5: lookup order ----------------------------------------------------------

/-- Spec-modelled destination lookup, following the spec's words: query by
external identifier first, fall back to the normalized name only when the
identifier query finds nothing. -/
def specLookupIdentifierFirst (rows : List SeriesRow) (isfdbId nameNorm : Val) :
    Option SeriesRow :=
  match findByIsfdb rows isfdbId with
  | some r => some r
  | none => findByNorm rows nameNorm

theorem findByIsfdbOrNorm_of_no_id (rows : List SeriesRow) (i n : Val)
    (h : ∀ r ∈ rows, sqlEq r.isfdb_id i = false) :
    findByIsfdbOrNorm rows i n = findByNorm rows n := by
  induction rows with
  | nil => rfl
  | cons r rest ih =>
    rw [findByIsfdbOrNorm, findByNorm, List.find?, List.find?]
    rw [h r (List.mem_cons_self r rest), Bool.false_or]
    cases hq : sqlEq r.name_normalized n with
    | true => rfl
    | false => exact ih (fun x hx => h x (List.mem_cons_of_mem r hx))

theorem findByIsfdbOrNorm_of_no_name (rows : List SeriesRow) (i n : Val)
    (h : findByNorm rows n = none) :
    findByIsfdbOrNorm rows i n = findByIsfdb rows i := by
  induction rows with
  | nil => rfl
  | cons r rest ih =>
    have hh := List.find?_eq_none.mp h
    rw [findByIsfdbOrNorm, findByIsfdb, List.find?, List.find?]
    have hr : sqlEq r.name_normalized n = false := by
      have := hh r (List.mem_cons_self r rest)
      exact Bool.not_eq_true _ ▸ Bool.of_not_eq_true this
    rw [hr, Bool.or_false]
    cases hq : sqlEq r.isfdb_id i with
    | true => rfl
    | false =>
      exact ih (List.find?_eq_none.mpr (fun x hx => hh x (List.mem_cons_of_mem r hx)))

/-- **C5** (amended): parent resolution is identifier-first in both modes
(cache, then `isfdb_id`, then normalized name), and the two self-lookups
agree with the identifier-first model whenever only one key can match;
the counterexample shows they are not identifier-first in general. -/
theorem C5_amended_lookup_order :
    (∀ (dry : Bool) (genre now : Val) (uuids : Nat → String) (pa : Val) (e : Entry)
       (st : ImpState) (parent : ParentInfo) (row : SeriesRow),
       e.parent_info = some parent →
       lookupLast st.stubCache (valToStr parent.series_id) = none →
       findByIsfdb st.db.series (Val.str (valToStr parent.series_id)) = some row →
       (resolve_parent dry genre now uuids pa e st).1 = some row.id) ∧
    (∀ (dry : Bool) (genre now : Val) (uuids : Nat → String) (pa : Val) (e : Entry)
       (st : ImpState) (parent : ParentInfo) (row : SeriesRow),
       e.parent_info = some parent →
       lookupLast st.stubCache (valToStr parent.series_id) = none →
       findByIsfdb st.db.series (Val.str (valToStr parent.series_id)) = none →
       findByNorm st.db.series (Val.str (normalizeVal parent.series_title)) = some row →
       (resolve_parent dry genre now uuids pa e st).1 = some row.id) ∧
    (∀ (dry : Bool) (genre now : Val) (uuids : Nat → String) (parent : List Val)
       (st1 : ImpState) (row : SeriesRow),
       ((lookupLast st1.stubCache (valToStr (col parent 0))).getD Val.null).truthy = false →
       findByIsfdb st1.db.series (Val.str (valToStr (col parent 0))) = some row →
       (bulkResolveParent dry genre now uuids parent st1).1 = row.id) ∧
    (∀ (dry : Bool) (genre now : Val) (uuids : Nat → String) (parent : List Val)
       (st1 : ImpState) (row : SeriesRow),
       ((lookupLast st1.stubCache (valToStr (col parent 0))).getD Val.null).truthy = false →
       findByIsfdb st1.db.series (Val.str (valToStr (col parent 0))) = none →
       findByNorm st1.db.series (Val.str (normalizeVal (col parent 1))) = some row →
       (bulkResolveParent dry genre now uuids parent st1).1 = row.id) ∧
    (∀ (rows : List SeriesRow) (i n : Val),
       (∀ r ∈ rows, sqlEq r.isfdb_id i = false) →
       findByIsfdbOrNorm rows i n = specLookupIdentifierFirst rows i n) ∧
    (∀ (rows : List SeriesRow) (i n : Val),
       findByNorm rows n = none →
       findByIsfdbOrNorm rows i n = specLookupIdentifierFirst rows i n) := by
  refine ⟨?_, ?_, ?_, ?_, ?_, ?_⟩
  · intro dry genre now uuids pa e st parent row hpi hc hf
    unfold resolve_parent
    rw [hpi]
    dsimp only
    rw [hc]
    dsimp only
    rw [hf]
  · intro dry genre now uuids pa e st parent row hpi hc hf hn
    unfold resolve_parent
    rw [hpi]
    dsimp only
    rw [hc]
    dsimp only
    rw [hf]
    dsimp only
    rw [hn]
    dsimp only
    split <;> rfl
  · intro dry genre now uuids parent st1 row hc hf
    unfold bulkResolveParent
    dsimp only
    simp only [hc, Bool.false_eq_true, if_false]
    rw [hf]
  · intro dry genre now uuids parent st1 row hc hf hn
    unfold bulkResolveParent
    dsimp only
    simp only [hc, Bool.false_eq_true, if_false]
    rw [hf]
    dsimp only
    rw [hn]
  · intro rows i n h
    have hnone : findByIsfdb rows i = none :=
      List.find?_eq_none.mpr (fun x hx => by
        intro hcon
        rw [h x hx] at hcon
        exact Bool.false_ne_true hcon)
    rw [findByIsfdbOrNorm_of_no_id rows i n h]
    unfold specLookupIdentifierFirst
    rw [hnone]
  · intro rows i n h
    rw [findByIsfdbOrNorm_of_no_name rows i n h]
    unfold specLookupIdentifierFirst
    cases hf : findByIsfdb rows i with
    | some r => rfl
    | none => rw [h]

/-- Destination row matching the incoming series only by external
identifier (its normalized name differs). -/
def rowIdMatch : SeriesRow :=
  { id := .str "p1", name := .str "Other", name_normalized := .str "other",
    author := .null, author_normalized := .null, total_books := .int 5,
    year_start := .null, year_end := .null, confidence := .real (mkRat 1 2),
    verified := .int 0, isfdb_id := .str "42", genre := .null,
    created_at := .str "t0", updated_at := .str "t0", parent_series_id := .null }

/-- Destination row matching the incoming series only by normalized name
(it carries a different external identifier). -/
def rowNameMatch : SeriesRow :=
  { id := .str "n1", name := .str "Target", name_normalized := .str "target",
    author := .null, author_normalized := .null, total_books := .int 2,
    year_start := .null, year_end := .null, confidence := .real (mkRat 1 2),
    verified := .int 0, isfdb_id := .str "99", genre := .null,
    created_at := .str "t0", updated_at := .str "t0", parent_series_id := .null }

def dbIdOnly : NachoDB := { series := [rowIdMatch], books := [], sources := [] }

/-- **C5** (counterexample): the full-import self-lookup is a single OR
query, so a name-only match earlier in table order beats an
identifier match (not identifier-first); and the bulk self-lookup matches
by normalized name only, skipping a series whose destination row matches
by identifier alone — the whole bulk pass leaves the store untouched and
counts nothing, although the identifier-first model finds the row. -/
theorem C5_counterexample_lookup_order :
    findByIsfdbOrNorm [rowNameMatch, rowIdMatch] (.str "42") (.str "target")
      = some rowNameMatch ∧
    specLookupIdentifierFirst [rowNameMatch, rowIdMatch] (.str "42") (.str "target")
      = some rowIdMatch ∧
    rowNameMatch ≠ rowIdMatch ∧
    (run_bulk_import [("Target", [.int 42, .str "Target", .int 7])]
      [(.int 7, [.int 7, .str "Parent", .null])] false .null (.str "t1")
      sampleUuids dbIdOnly).1.db = dbIdOnly ∧
    (run_bulk_import [("Target", [.int 42, .str "Target", .int 7])]
      [(.int 7, [.int 7, .str "Parent", .null])] false .null (.str "t1")
      sampleUuids dbIdOnly).2 = ⟨0, 0, 0, 0⟩ ∧
    specLookupIdentifierFirst dbIdOnly.series (.str "42") (.str "target")
      = some rowIdMatch :=
  ⟨by decide, by decide, by decide, by decide, by decide, by decide⟩

theorem C5_amended_lookup_order_witness :
    (resolve_parent false .null (.str "t1") sampleUuids .null
      { series_id := .int 5, series_title := .str "Child", books := [],
        parent_info := some { series_id := .int 42, series_title := .str "Unrelated" } }
      { db := dbIdOnly, trace := [], stubCache := [], uuidIdx := 0 }).1
      = some (Val.str "p1") ∧
    (bulkResolveParent false .null (.str "t1") sampleUuids
      [.int 42, .str "Unrelated", .null]
      { db := dbIdOnly, trace := [], stubCache := [], uuidIdx := 0 }).1
      = Val.str "p1" ∧
    findByIsfdbOrNorm [rowIdMatch] (.str "42") (.str "missing")
      = specLookupIdentifierFirst [rowIdMatch] (.str "42") (.str "missing") := by
  refine ⟨?_, ?_, ?_⟩
  · have h := C5_amended_lookup_order.1 false .null (.str "t1") sampleUuids .null
      { series_id := .int 5, series_title := .str "Child", books := [],
        parent_info := some { series_id := .int 42, series_title := .str "Unrelated" } }
      { db := dbIdOnly, trace := [], stubCache := [], uuidIdx := 0 }
      { series_id := .int 42, series_title := .str "Unrelated" } rowIdMatch
      rfl rfl (by decide)
    rw [h]
    decide
  · have h := C5_amended_lookup_order.2.2.1 false .null (.str "t1") sampleUuids
      [.int 42, .str "Unrelated", .null]
      { db := dbIdOnly, trace := [], stubCache := [], uuidIdx := 0 } rowIdMatch
      (by decide) (by decide)
    rw [h]
    decide
  · exact C5_amended_lookup_order.2.2.2.2.2 [rowIdMatch] (.str "42") (.str "missing")
      (by decide)

-- C7 / C10: stub shapes -----------------------------------------------------

/-- **C7** (amended): a parent stub created by `resolve_parent` during a
full run is inserted with confidence 0.9, verified 0 and zero book count,
but a parent stub created during bulk backfill is inserted with
confidence 0.5 (also verified 0, zero books): the two modes do not share
the claimed fixed 0.9 confidence. -/
theorem C7_amended_stub_records (genre now : Val) (uuids : Nat → String)
    (pa : Val) (e : Entry) (st : ImpState) (parent : ParentInfo)
    (genreB nowB : Val) (uuidsB : Nat → String) (parentB : List Val) (stB : ImpState)
    (hpi : e.parent_info = some parent)
    (hc : lookupLast st.stubCache (valToStr parent.series_id) = none)
    (hf : findByIsfdb st.db.series (Val.str (valToStr parent.series_id)) = none)
    (hn : findByNorm st.db.series (Val.str (normalizeVal parent.series_title)) = none)
    (hcB : ((lookupLast stB.stubCache (valToStr (col parentB 0))).getD Val.null).truthy = false)
    (hfB : findByIsfdb stB.db.series (Val.str (valToStr (col parentB 0))) = none)
    (hnB : findByNorm stB.db.series (Val.str (normalizeVal (col parentB 1))) = none) :
    (resolve_parent false genre now uuids pa e st).2.db.series
      = st.db.series ++
        [{ id := Val.str (uuids st.uuidIdx), name := parent.series_title,
           name_normalized := Val.str (normalizeVal parent.series_title),
           author := pa,
           author_normalized := if pa.truthy then Val.str (normalizeVal pa) else Val.null,
           total_books := Val.int 0, year_start := Val.null, year_end := Val.null,
           confidence := Val.real (mkRat 9 10), verified := Val.int 0,
           isfdb_id := Val.str (valToStr parent.series_id), genre := genre,
           created_at := now, updated_at := now, parent_series_id := Val.null }] ∧
    (bulkResolveParent false genreB nowB uuidsB parentB stB).2.1.db.series
      = stB.db.series ++
        [{ id := Val.str (uuidsB stB.uuidIdx), name := col parentB 1,
           name_normalized := Val.str (normalizeVal (col parentB 1)),
           author := Val.null, author_normalized := Val.null,
           total_books := Val.int 0, year_start := Val.null, year_end := Val.null,
           confidence := Val.real (mkRat 1 2), verified := Val.int 0,
           isfdb_id := Val.str (valToStr (col parentB 0)), genre := genreB,
           created_at := nowB, updated_at := nowB, parent_series_id := Val.null }] ∧
    Val.real (mkRat 1 2) ≠ Val.real (mkRat 9 10) := by
  refine ⟨?_, ?_, by decide⟩
  · unfold resolve_parent
    rw [hpi]
    dsimp only
    rw [hc]
    dsimp only
    rw [hf]
    dsimp only
    rw [hn]
    rfl
  · unfold bulkResolveParent
    dsimp only
    simp only [hcB, Bool.false_eq_true, if_false]
    rw [hfB]
    dsimp only
    rw [hnB]
    rfl

/-- A destination row matched by name whose identifier and parent link are
both empty (everything is fillable). -/
def rowToFill : SeriesRow :=
  { id := .str "e1", name := .str "Target", name_normalized := .str "target",
    author := .null, author_normalized := .null, total_books := .int 3,
    year_start := .null, year_end := .null, confidence := .real (mkRat 1 2),
    verified := .int 0, isfdb_id := .null, genre := .null,
    created_at := .str "t0", updated_at := .str "t0", parent_series_id := .null }

def dbNameOnly : NachoDB := { series := [rowToFill], books := [], sources := [] }

def emptyState : ImpState :=
  { db := { series := [], books := [], sources := [] }, trace := [],
    stubCache := [], uuidIdx := 0 }

/-- **C7** (counterexample): a bulk-backfill run that has to create a
parent stub inserts it with confidence 0.5, not the claimed fixed 0.9. -/
theorem C7_counterexample_bulk_stub_confidence :
    ((run_bulk_import [("Target", [.int 42, .str "Target", .int 7])]
      [(.int 7, [.int 7, .str "NewParent", .null])] false .null (.str "t1")
      sampleUuids dbNameOnly).1.db.series.get? 1).map (fun r => r.confidence)
      = some (Val.real (mkRat 1 2)) ∧
    (run_bulk_import [("Target", [.int 42, .str "Target", .int 7])]
      [(.int 7, [.int 7, .str "NewParent", .null])] false .null (.str "t1")
      sampleUuids dbNameOnly).2.parent_stubs_created = 1 ∧
    Val.real (mkRat 1 2) ≠ Val.real (mkRat 9 10) :=
  ⟨by decide, by decide, by decide⟩

theorem C7_amended_stub_records_witness :
    (resolve_parent false .null (.str "t1") sampleUuids (.str "A")
      { series_id := .int 5, series_title := .str "Child", books := [],
        parent_info := some { series_id := .int 7, series_title := .str "Cosmere" } }
      emptyState).2.db.series.map (fun r => r.confidence) = [Val.real (mkRat 9 10)] ∧
    (bulkResolveParent false .null (.str "t1") sampleUuids
      [.int 7, .str "Cosmere", .null] emptyState).2.1.db.series.map
        (fun r => r.confidence) = [Val.real (mkRat 1 2)] := by
  have h := C7_amended_stub_records .null (.str "t1") sampleUuids (.str "A")
    { series_id := .int 5, series_title := .str "Child", books := [],
      parent_info := some { series_id := .int 7, series_title := .str "Cosmere" } }
    emptyState { series_id := .int 7, series_title := .str "Cosmere" }
    .null (.str "t1") sampleUuids [.int 7, .str "Cosmere", .null] emptyState
    rfl rfl rfl rfl (by decide) rfl rfl
  refine ⟨?_, ?_⟩
  · rw [h.1]; decide
  · rw [h.2.1]; decide

/-- **C10** (amended): a full-import parent stub carries the child entry's
primary author in its author and normalized-author fields — which is the
null value (an author-less stub) exactly when no book of the entry has a
truthy author — while a bulk-backfill parent stub never carries an
author. -/
theorem C10_amended_stub_author (genre now : Val) (uuids : Nat → String)
    (books : List Book) (e : Entry) (st : ImpState) (parent : ParentInfo)
    (genreB nowB : Val) (uuidsB : Nat → String) (parentB : List Val) (stB : ImpState)
    (hpi : e.parent_info = some parent)
    (hc : lookupLast st.stubCache (valToStr parent.series_id) = none)
    (hf : findByIsfdb st.db.series (Val.str (valToStr parent.series_id)) = none)
    (hn : findByNorm st.db.series (Val.str (normalizeVal parent.series_title)) = none)
    (hcB : ((lookupLast stB.stubCache (valToStr (col parentB 0))).getD Val.null).truthy = false)
    (hfB : findByIsfdb stB.db.series (Val.str (valToStr (col parentB 0))) = none)
    (hnB : findByNorm stB.db.series (Val.str (normalizeVal (col parentB 1))) = none) :
    (∃ r, (resolve_parent false genre now uuids (primary_author books) e st).2.db.series
        = st.db.series ++ [r] ∧
      r.author = primary_author books ∧
      r.author_normalized = (if (primary_author books).truthy
        then Val.str (normalizeVal (primary_author books)) else Val.null)) ∧
    ((∀ b ∈ books, b.author.truthy = false) → primary_author books = Val.null) ∧
    (∃ r, (bulkResolveParent false genreB nowB uuidsB parentB stB).2.1.db.series
        = stB.db.series ++ [r] ∧
      r.author = Val.null ∧ r.author_normalized = Val.null) := by
  refine ⟨?_, ?_, ?_⟩
  · refine ⟨{ id := Val.str (uuids st.uuidIdx),
              name := parent.series_title,
              name_normalized := Val.str (normalizeVal parent.series_title),
              author := primary_author books,
              author_normalized := if (primary_author books).truthy
                then Val.str (normalizeVal (primary_author books)) else Val.null,
              total_books := Val.int 0, year_start := Val.null, year_end := Val.null,
              confidence := Val.real (mkRat 9 10), verified := Val.int 0,
              isfdb_id := Val.str (valToStr parent.series_id), genre := genre,
              created_at := now, updated_at := now,
              parent_series_id := Val.null }, ?_, rfl, rfl⟩
    unfold resolve_parent
    rw [hpi]
    dsimp only
    rw [hc]
    dsimp only
    rw [hf]
    dsimp only
    rw [hn]
    rfl
  · intro h
    have hfold : ∀ (bs : List Book) (acc : List (Val × Nat)),
        (∀ b ∈ bs, b.author.truthy = false) →
        bs.foldl (fun acc b => if b.author.truthy then bumpCount b.author acc else acc) acc
          = acc := by
      intro bs
      induction bs with
      | nil => intro acc _; rfl
      | cons b rest ih =>
        intro acc hb
        rw [List.foldl_cons, if_neg]
        · exact ih acc (fun x hx => hb x (List.mem_cons_of_mem b hx))
        · rw [hb b (List.mem_cons_self b rest)]
          exact Bool.false_ne_true
    unfold primary_author authorCounts
    rw [hfold books [] h]
  · refine ⟨{ id := Val.str (uuidsB stB.uuidIdx),
              name := col parentB 1,
              name_normalized := Val.str (normalizeVal (col parentB 1)),
              author := Val.null, author_normalized := Val.null,
              total_books := Val.int 0, year_start := Val.null, year_end := Val.null,
              confidence := Val.real (mkRat 1 2), verified := Val.int 0,
              isfdb_id := Val.str (valToStr (col parentB 0)), genre := genreB,
              created_at := nowB, updated_at := nowB,
              parent_series_id := Val.null }, ?_, rfl, rfl⟩
    unfold bulkResolveParent
    dsimp only
    simp only [hcB, Bool.false_eq_true, if_false]
    rw [hfB]
    dsimp only
    rw [hnB]
    rfl

def entryNoBooks : Entry :=
  { series_id := .int 5, series_title := .str "Solo", books := [],
    parent_info := some { series_id := .int 7, series_title := .str "Lone Parent" } }

/-- **C10** (counterexample): a full import of an entry with no books
creates its parent stub with null author and null normalized author —
the stub is author-less, contradicting the claim. (The 0.9 confidence
identifies the inspected row as the parent stub.) -/
theorem C10_counterexample_authorless_full_stub :
    ((import_to_nachoseries [entryNoBooks] false .null (.str "t1") sampleUuids
      { series := [], books := [], sources := [] }).1.db.series.get? 0).map
        (fun r => (r.author, r.author_normalized, r.confidence))
      = some (Val.null, Val.null, Val.real (mkRat 9 10)) :=
  by decide


def bookAnn : Book :=
  { title := .str "B1", position := .int 1, author := .str "Ann", year := some 2000,
    isbn := .null, cover_url := .null, pages := .null, isfdb_title_id := .int 1 }

def childEntry : Entry :=
  { series_id := .int 5, series_title := .str "Child", books := [],
    parent_info := some { series_id := .int 7, series_title := .str "Cosmere" } }

theorem C10_amended_stub_author_witness :
    (∃ r, (resolve_parent false .null (.str "t1") sampleUuids
        (primary_author [bookAnn]) childEntry emptyState).2.db.series
        = emptyState.db.series ++ [r] ∧
      r.author = primary_author [bookAnn] ∧
      r.author_normalized = (if (primary_author [bookAnn]).truthy
        then Val.str (normalizeVal (primary_author [bookAnn])) else Val.null)) ∧
    ((∀ b ∈ ([] : List Book), b.author.truthy = false) →
      primary_author ([] : List Book) = Val.null) ∧
    (∃ r, (bulkResolveParent false .null (.str "t1") sampleUuids
        [.int 7, .str "Cosmere", .null] emptyState).2.1.db.series
        = emptyState.db.series ++ [r] ∧
      r.author = Val.null ∧ r.author_normalized = Val.null) := by
  have h := C10_amended_stub_author .null (.str "t1") sampleUuids [bookAnn]
    childEntry emptyState { series_id := .int 7, series_title := .str "Cosmere" }
    .null (.str "t1") sampleUuids [.int 7, .str "Cosmere", .null] emptyState
    rfl rfl rfl rfl (by decide) rfl rfl
  refine ⟨h.1, ?_, h.2.2⟩
  intro h0
  have h2 := C10_amended_stub_author .null (.str "t1") sampleUuids ([] : List Book)
    childEntry emptyState { series_id := .int 7, series_title := .str "Cosmere" }
    .null (.str "t1") sampleUuids [.int 7, .str "Cosmere", .null] emptyState
    rfl rfl rfl rfl (by decide) rfl rfl
  exact h2.2.1 h0

-- ══════════════════════════════════════════════════════════════════════════
-- `run_import` assembly (steps 3-7) and merge mode
-- ══════════════════════════════════════════════════════════════════════════

/-- One catalog series record as held in `found_series` / `parents` /
`sub_series` values. -/
structure SInfo where
  series_id : Val
  series_title : Val
  series_parent : Val
  deriving DecidableEq, Repr

/-- One title record as held in the per-series `titles` lists. -/
structure TInfo where
  title_id : Val
  title : Val
  seriesnum : Val
  copyright : Val
  deriving DecidableEq, Repr

/-- The step-1-6 query results `run_import` assembles entries from. -/
structure CatalogResults where
  found_series : List (String × SInfo)
  parents : List (Val × SInfo)
  sub_series : List (Val × List SInfo)
  titles : List (Val × List TInfo)
  title_to_author : List (Val × Val)
  author_names : List (Val × Val)
  title_pub_info : List (Val × (Val × Val × Val))
  deriving Repr

/-- Python `float()` on a scalar: ints and floats convert, strings parse
as decimal literals, `None` (and any other failure) raises. -/
def valToFloatQ : Val → Option ℚ
  | .int n => some (mkRat n 1)
  | .real q => some q
  | .str s => pyFloatParse s
  | .null => none

/-- Rational addition in a kernel-reducible form. -/
def qAdd (a b : ℚ) : ℚ := mkRat (a.num * b.den + b.num * a.den) (a.den * b.den)

theorem qAdd_eq (a b : ℚ) : qAdd a b = a + b := by
  rw [qAdd, Rat.add_def, Rat.normalize_eq_mkRat, Int.mul_comm b.num a.den]

/-- `sort_key`: numeric position (sentinel 999 for absent or unparseable)
then year (sentinel 9999 for absent or zero). -/
def sort_key (b : Book) : ℚ × Int :=
  let pos : ℚ := match b.position with
    | Val.null => 999
    | v => match valToFloatQ v with
      | some q => q
      | none => 999
  let yr : Int := match b.year with
    | some y => if y ≠ 0 then y else 9999
    | none => 9999
  (pos, yr)

/-- Boolean lexicographic order on sort keys. -/
def keyLeB (k1 k2 : ℚ × Int) : Bool :=
  decide (k1.1 < k2.1) || (decide (k1.1 = k2.1) && decide (k1.2 ≤ k2.2))

/-- `books.sort(key=sort_key)`: a stable ascending sort; Python's stable
sort and insertion sort agree on every input. -/
def sortBooks (bs : List Book) : List Book :=
  bs.insertionSort (fun a b => keyLeB (sort_key a) (sort_key b) = true)

/-- Assemble one book dict from a title row plus the author and
publication lookups (`'Unknown'` when the author is missing). -/
def assembleBook (cr : CatalogResults) (pos : Val) (t : TInfo) : Book :=
  let tid := t.title_id
  let aid := (lookupLast cr.title_to_author tid).getD Val.null
  let author_name : Val :=
    if aid.truthy then (lookupLast cr.author_names aid).getD (Val.str "Unknown")
    else Val.str "Unknown"
  let pub := (lookupLast cr.title_pub_info tid).getD (Val.null, Val.null, Val.null)
  { title := t.title, position := pos, author := author_name,
    year := extract_year t.copyright,
    isbn := pub.1, cover_url := pub.2.1, pages := pub.2.2,
    isfdb_title_id := tid }

/-- Maximum numeric parent position: `None` counts as 0, unparseable
positions are skipped, starting value 0. -/
def maxPos (books : List Book) : ℚ :=
  books.foldl (fun m b =>
    match b.position with
    | Val.null => max m 0
    | v => match valToFloatQ v with
      | some p => max m p
      | none => m) 0

/-- Offset a child position by the parent's maximum numeric position:
absent positions stay absent, unparseable positions stay as they are. -/
def offsetPos (maxp : ℚ) (pos : Val) : Val :=
  match pos with
  | Val.null => Val.null
  | v => match valToFloatQ v with
    | some p => Val.real (qAdd p maxp)
    | none => v

/-- The target series ids (`found_ids`), captured before children are
discovered. -/
def found_ids (cr : CatalogResults) : List Val :=
  cr.found_series.map (fun ns => ns.2.series_id)

/-- `merged_series_ids` under merge mode: the ids of every direct child of
every target series (used only through membership, so a list models the
set). -/
def merged_series_ids (cr : CatalogResults) : List Val :=
  (cr.found_series.map (fun ns =>
    match lookupLast cr.sub_series ns.2.series_id with
    | some children => children.map (fun c => c.series_id)
    | none => [])).flatten

/-- The book list of a target entry: assembled titles, sorted; under merge
mode, flagged direct children's books are appended with offset positions
and the combined list re-sorted with the same key. -/
def targetBooks (merge : Bool) (cr : CatalogResults) (sid : Val) : List Book :=
  let books := sortBooks (((lookupLast cr.titles sid).getD []).map
    (fun t => assembleBook cr t.seriesnum t))
  if merge then
    match lookupLast cr.sub_series sid with
    | some children =>
      let children_to_merge :=
        children.filter (fun c => pyMem c.series_id (merged_series_ids cr))
      if !children_to_merge.isEmpty then
        let maxp := maxPos books
        sortBooks (books ++ (children_to_merge.map (fun c =>
          ((lookupLast cr.titles c.series_id).getD []).map (fun t =>
            assembleBook cr (offsetPos maxp t.seriesnum) t))).flatten)
      else books
    | none => books
  else books

/-- The loop-1 entry for one target series. -/
def targetEntry (merge : Bool) (cr : CatalogResults) (s : SInfo) : Entry :=
  { series_id := s.series_id, series_title := s.series_title,
    books := targetBooks merge cr s.series_id,
    parent_info :=
      if s.series_parent.truthy && (lookupLast cr.parents s.series_parent).isSome then
        match lookupLast cr.parents s.series_parent with
        | some p => some { series_id := p.series_id, series_title := p.series_title }
        | none => none
      else none }

/-- The loop-2 entry for one discovered sub-series. -/
def subEntry (cr : CatalogResults) (parent_id : Val) (child : SInfo) : Entry :=
  { series_id := child.series_id, series_title := child.series_title,
    books := sortBooks (((lookupLast cr.titles child.series_id).getD []).map
      (fun t => assembleBook cr t.seriesnum t)),
    parent_info :=
      match cr.found_series.find? (fun ns => pyEq ns.2.series_id parent_id) with
      | some ns => some { series_id := parent_id, series_title := ns.2.series_title }
      | none =>
        match lookupLast cr.parents parent_id with
        | some p => some { series_id := parent_id, series_title := p.series_title }
        | none => none }

/-- Loop 2: sub-series entries, skipping children that are themselves
targets and (under merge mode) children merged into a parent. -/
def subEntries (merge : Bool) (cr : CatalogResults) : List Entry :=
  let mergedIds := if merge then merged_series_ids cr else []
  (cr.sub_series.map (fun pc =>
    pc.2.filterMap (fun child =>
      if pyMem child.series_id (found_ids cr) then none
      else if pyMem child.series_id mergedIds then none
      else some (subEntry cr pc.1 child)))).flatten

/-- Step 7 of `run_import`: the assembled `series_data`. -/
def series_data (merge : Bool) (cr : CatalogResults) : List Entry :=
  cr.found_series.map (fun ns => targetEntry merge cr ns.2) ++ subEntries merge cr

theorem pyEq_refl (v : Val) : pyEq v v = true := by
  cases v <;> simp [pyEq]

theorem keyLeB_iff (k1 k2 : ℚ × Int) :
    keyLeB k1 k2 = true ↔ k1.1 < k2.1 ∨ (k1.1 = k2.1 ∧ k1.2 ≤ k2.2) := by
  simp [keyLeB, Bool.or_eq_true, Bool.and_eq_true, decide_eq_true_eq]

theorem sortBooks_perm (bs : List Book) : (sortBooks bs).Perm bs :=
  List.perm_insertionSort _ bs

theorem sortBooks_sorted (bs : List Book) :
    (sortBooks bs).Sorted (fun a b => keyLeB (sort_key a) (sort_key b) = true) := by
  haveI : IsTotal Book (fun a b => keyLeB (sort_key a) (sort_key b) = true) := by
    constructor
    intro a b
    rw [keyLeB_iff, keyLeB_iff]
    rcases lt_trichotomy (sort_key a).1 (sort_key b).1 with h | h | h
    · exact Or.inl (Or.inl h)
    · rcases le_total (sort_key a).2 (sort_key b).2 with h2 | h2
      · exact Or.inl (Or.inr ⟨h, h2⟩)
      · exact Or.inr (Or.inr ⟨h.symm, h2⟩)
    · exact Or.inr (Or.inl h)
  haveI : IsTrans Book (fun a b => keyLeB (sort_key a) (sort_key b) = true) := by
    constructor
    intro a b c hab hbc
    rw [keyLeB_iff] at hab hbc ⊢
    rcases hab with h1 | ⟨h1, h1'⟩
    · rcases hbc with h2 | ⟨h2, _⟩
      · exact Or.inl (h1.trans h2)
      · exact Or.inl (h2 ▸ h1)
    · rcases hbc with h2 | ⟨h2, h2'⟩
      · exact Or.inl (h1 ▸ h2)
      · exact Or.inr ⟨h1.trans h2, h1'.trans h2'⟩
  exact List.sorted_insertionSort _ bs

theorem children_all_merged (cr : CatalogResults) (name : String) (s : SInfo)
    (children : List SInfo) (hmem : (name, s) ∈ cr.found_series)
    (hsub : lookupLast cr.sub_series s.series_id = some children) :
    ∀ c ∈ children, pyMem c.series_id (merged_series_ids cr) = true := by
  intro c hc
  unfold merged_series_ids pyMem
  rw [List.any_eq_true]
  refine ⟨c.series_id, ?_, pyEq_refl _⟩
  rw [List.mem_flatten]
  refine ⟨children.map (fun x => x.series_id), ?_, List.mem_map_of_mem _ hc⟩
  rw [List.mem_map]
  exact ⟨(name, s), hmem, by rw [hsub]⟩

theorem subEntries_not_merged (merge : Bool) (cr : CatalogResults) :
    ∀ e ∈ subEntries merge cr,
      (merge = true → pyMem e.series_id (merged_series_ids cr) = false) ∧
      pyMem e.series_id (found_ids cr) = false := by
  intro e he
  unfold subEntries at he
  rw [List.mem_flatten] at he
  obtain ⟨block, hb, heb⟩ := he
  rw [List.mem_map] at hb
  obtain ⟨pc, hpc, hblock⟩ := hb
  rw [← hblock, List.mem_filterMap] at heb
  obtain ⟨child, hchild, hsome⟩ := heb
  by_cases h1 : pyMem child.series_id (found_ids cr) = true
  · rw [if_pos h1] at hsome
    exact absurd hsome (by simp)
  · rw [if_neg h1] at hsome
    by_cases h2 : pyMem child.series_id (if merge then merged_series_ids cr else []) = true
    · rw [if_pos h2] at hsome
      exact absurd hsome (by simp)
    · rw [if_neg h2] at hsome
      have he : e = subEntry cr pc.1 child := (Option.some.inj hsome).symm
      have hid : e.series_id = child.series_id := by rw [he]; rfl
      constructor
      · intro hm
        rw [hid]
        rw [hm] at h2
        exact Bool.not_eq_true _ ▸ h2
      · rw [hid]
        exact Bool.not_eq_true _ ▸ h1

def mkT (tid : Int) (name : String) (num : Int) (yr : String) : TInfo :=
  { title_id := .int tid, title := .str name, seriesnum := .int num, copyright := .str yr }

/-- The claim's worked example: target Mistborn (positions 1-3) with direct
child Wax and Wayne (positions 1-4), merge mode on. -/
def crMistborn : CatalogResults :=
  { found_series := [("Mistborn", ⟨.int 10, .str "Mistborn", .null⟩)],
    parents := [],
    sub_series := [(.int 10, [⟨.int 20, .str "Wax and Wayne", .int 10⟩])],
    titles := [(.int 10, [mkT 101 "M1" 1 "2006-07-17", mkT 102 "M2" 2 "2007-08-21",
                 mkT 103 "M3" 3 "2008-10-14"]),
               (.int 20, [mkT 201 "W1" 1 "2011-11-08", mkT 202 "W2" 2 "2015-01-06",
                 mkT 203 "W3" 3 "2016-01-26", mkT 204 "W4" 4 "2022-11-15"])],
    title_to_author := [], author_names := [], title_pub_info := [] }

/-- **C6** (amended): under merge mode every direct child of a target is
flagged for merging and the target's book list is a key-sorted permutation
of its own books plus each child's books with numeric positions offset by
the parent's maximum numeric position (absent or unparseable positions
unoffset); no sub-series entry is emitted for a merged child; and the
Mistborn example yields one 7-book entry with the former child's first
book at position 4. (A merged child that is itself a target still yields
its own independent entry — see the counterexample.) -/
theorem C6_amended_merge_semantics :
    (∀ (cr : CatalogResults) (name : String) (s : SInfo) (children : List SInfo),
      (name, s) ∈ cr.found_series →
      lookupLast cr.sub_series s.series_id = some children →
      children ≠ [] →
      children.filter (fun c => pyMem c.series_id (merged_series_ids cr)) = children ∧
      (targetBooks true cr s.series_id).Perm
        (sortBooks (((lookupLast cr.titles s.series_id).getD []).map
            (fun t => assembleBook cr t.seriesnum t)) ++
         (children.map (fun c =>
           ((lookupLast cr.titles c.series_id).getD []).map (fun t =>
             assembleBook cr
               (offsetPos (maxPos (sortBooks (((lookupLast cr.titles s.series_id).getD []).map
                 (fun t => assembleBook cr t.seriesnum t)))) t.seriesnum) t))).flatten) ∧
      (targetBooks true cr s.series_id).Sorted
        (fun a b => keyLeB (sort_key a) (sort_key b) = true)) ∧
    (∀ (maxp : ℚ) (v : Val),
      (valToFloatQ v = none → offsetPos maxp v = v) ∧
      (∀ p, valToFloatQ v = some p → offsetPos maxp v = Val.real (p + maxp))) ∧
    (∀ (cr : CatalogResults) (e : Entry), e ∈ subEntries true cr →
      pyMem e.series_id (merged_series_ids cr) = false) ∧
    ((series_data true crMistborn).map (fun e => e.series_id) = [.int 10] ∧
     (series_data true crMistborn).map (fun e => e.books.map (fun b => (b.title, b.position)))
       = [[(.str "M1", .int 1), (.str "M2", .int 2), (.str "M3", .int 3),
           (.str "W1", .real (mkRat 4 1)), (.str "W2", .real (mkRat 5 1)),
           (.str "W3", .real (mkRat 6 1)), (.str "W4", .real (mkRat 7 1))]]) := by
  refine ⟨?_, ?_, ?_, by decide, by decide⟩
  · intro cr name s children hmem hsub hne
    have hfilter : children.filter (fun c => pyMem c.series_id (merged_series_ids cr))
        = children :=
      List.filter_eq_self.mpr (fun c hc => children_all_merged cr name s children hmem hsub c hc)
    refine ⟨hfilter, ?_, ?_⟩
    · unfold targetBooks
      rw [hsub]
      dsimp only
      rw [hfilter]
      rw [if_pos (show (!children.isEmpty) = true by
        rcases children with _ | ⟨c, cs⟩
        · exact absurd rfl hne
        · rfl)]
      exact sortBooks_perm _
    · unfold targetBooks
      rw [hsub]
      dsimp only
      rw [hfilter]
      by_cases hc : (!children.isEmpty) = true
      · simp only [if_pos hc]
        exact sortBooks_sorted _
      · simp only [if_neg hc]
        exact sortBooks_sorted _
  · intro maxp v
    constructor
    · intro h
      cases v with
      | null => rfl
      | int n => dsimp only [offsetPos]; rw [h]
      | real q => dsimp only [offsetPos]; rw [h]
      | str st => dsimp only [offsetPos]; rw [h]
    · intro p h
      cases v with
      | null => exact absurd h (by simp [valToFloatQ])
      | int n => dsimp only [offsetPos]; rw [h]; dsimp only; rw [qAdd_eq]
      | real q => dsimp only [offsetPos]; rw [h]; dsimp only; rw [qAdd_eq]
      | str st => dsimp only [offsetPos]; rw [h]; dsimp only; rw [qAdd_eq]
  · intro cr e he
    exact (subEntries_not_merged true cr e he).1 rfl

/-- Targets that are also each other's direct children: Mistborn plus its
child Wax and Wayne, both requested as targets. -/
def crDual : CatalogResults :=
  { found_series := [("Mistborn", ⟨.int 10, .str "Mistborn", .null⟩),
                     ("Wax and Wayne", ⟨.int 20, .str "Wax and Wayne", .int 10⟩)],
    parents := [],
    sub_series := [(.int 10, [⟨.int 20, .str "Wax and Wayne", .int 10⟩])],
    titles := [(.int 10, [mkT 101 "M1" 1 "2006-07-17", mkT 102 "M2" 2 "2007-08-21",
                 mkT 103 "M3" 3 "2008-10-14"]),
               (.int 20, [mkT 201 "W1" 1 "2011-11-08", mkT 202 "W2" 2 "2015-01-06",
                 mkT 203 "W3" 3 "2016-01-26", mkT 204 "W4" 4 "2022-11-15"])],
    title_to_author := [], author_names := [], title_pub_info := [] }

/-- **C6** (counterexample): when a direct child of a target is itself a
target, merge mode both merges its books into the parent (7 books) and
still emits an independent entry for the child (4 books) — the merged
child does yield an independent ResolvedSeriesEntry, and its books are
duplicated across the two entries. -/
theorem C6_counterexample_dual_role_child :
    pyMem (.int 20) (merged_series_ids crDual) = true ∧
    (series_data true crDual).map (fun e => e.series_id) = [.int 10, .int 20] ∧
    (series_data true crDual).map (fun e => e.books.length) = [7, 4] ∧
    (series_data true crDual).map (fun e => e.books.map (fun b => b.isfdb_title_id))
      = [[.int 101, .int 102, .int 103, .int 201, .int 202, .int 203, .int 204],
         [.int 201, .int 202, .int 203, .int 204]] :=
  ⟨by decide, by decide, by decide, by decide⟩

theorem C6_amended_merge_semantics_witness :
    (List.filter (fun c => pyMem c.series_id (merged_series_ids crMistborn))
        [⟨.int 20, .str "Wax and Wayne", .int 10⟩]
      = [(⟨.int 20, .str "Wax and Wayne", .int 10⟩ : SInfo)]) ∧
    (targetBooks true crMistborn (.int 10)).Sorted
      (fun a b => keyLeB (sort_key a) (sort_key b) = true) ∧
    offsetPos 3 (.int 1) = Val.real ((1 : ℚ) + 3) := by
  have h := C6_amended_merge_semantics
  have h1 := h.1 crMistborn "Mistborn" ⟨.int 10, .str "Mistborn", .null⟩
    [⟨.int 20, .str "Wax and Wayne", .int 10⟩]
    (by decide) rfl (by decide)
  refine ⟨h1.1, h1.2.2, ?_⟩
  have h2 := (h.2.1 3 (.int 1)).2 1 (by decide)
  exact h2
